import Mathlib

/-!
# meetbot: a verification development

A shallow embedding of `bot/bot.go` and `main.go`.  The browser driver, the clock, the
process table and the environment are external collaborators: they are modelled by an
oracle (`World`) that answers every call the program makes, given the whole history of
calls made so far.  Every operation is a state-passing function over that history, so a
run of an operation is its returned value together with the trace of calls it issued.

Diagnostic output through `fmt.Print*` and `log.Printf` never influences control flow and
is not part of the trace, with one exception: the audit record written by
`logButtonClick`.
-/

namespace Meetbot

/-! ## Data model -/

/-- The `Bot` struct of `bot/bot.go`.  The three driver handles are modelled by whether
they are non-nil; the single browser they refer to is the oracle. -/
structure Bot where
  pw : Bool
  browser : Bool
  page : Bool
  headless : Bool
  email : String
  password : String
  running : Bool
deriving DecidableEq, Repr

/-- A way of addressing elements on the page. -/
inductive Loc where
  /-- The locator `page.Locator(selector)`. -/
  | css (selector : String)
  /-- The locator `page.GetByLabel(text)`. -/
  | label (text : String)
  /-- The `i`-th locator returned by `page.Locator(selector).All()`. -/
  | nth (selector : String) (i : Nat)
deriving DecidableEq, Repr

/-- One call issued by the program to an external collaborator. -/
inductive Act where
  /-- The call `playwright.Run()`. -/
  | playwrightRun
  /-- The call `pw.Chromium.Launch(options)`. -/
  | launch (headless : Bool) (timeout : Nat) (args : List String)
  /-- The call `browser.On("disconnected", handler)`. -/
  | onDisconnected
  /-- The call `browser.IsConnected()`. -/
  | isConnected
  /-- The call `browser.NewContext(options)`. -/
  | newContext (permissions : List String)
  /-- The call `context.NewPage()`. -/
  | newPage
  /-- The call `page.Goto(url, options)`. -/
  | goto (url : String) (waitUntil : String) (timeout : Option Nat)
  /-- The call `page.WaitForLoadState(options)`. -/
  | waitForLoadState (state : String)
  /-- The call `page.URL()`. -/
  | url
  /-- The call `page.WaitForURL(pattern, options)`. -/
  | waitForURL (pattern : String) (timeout : Nat)
  /-- The call `locator.WaitFor` for the visible state with a timeout in milliseconds. -/
  | waitFor (l : Loc) (timeout : Int)
  /-- The call `page.Locator(selector).All()`. -/
  | all (selector : String)
  /-- The call `locator.IsVisible()`. -/
  | isVisible (l : Loc)
  /-- The call `locator.Click(options)`, with the timeout option when one is given. -/
  | click (l : Loc) (timeout : Option Nat)
  /-- The call `locator.PressSequentially(text, options)`. -/
  | pressSequentially (l : Loc) (text : String) (delay : Nat)
  /-- The call `locator.Count()`. -/
  | count (l : Loc)
  /-- The call `locator.TextContent()`. -/
  | textContent (l : Loc)
  /-- The call `page.Keyboard().Press(key)`. -/
  | keyboardPress (key : String)
  /-- The call `page.Screenshot(options)`. -/
  | screenshot (fullPage : Bool) (format : String) (quality : Nat)
  /-- The call `browser.Close()`. -/
  | browserClose
  /-- The call `pw.Stop()`. -/
  | pwStop
  /-- The call `time.Sleep` with a duration in milliseconds. -/
  | sleep (ms : Nat)
  /-- The audit record of `logButtonClick`; the clock stamps it when it is written. -/
  | logButtonClick (action : String) (selector : String) (context : String)
  /-- The opening and reading of the file `.env` by `loadEnv`: the answer holds the error of
  `os.Open`, or the text of the file. -/
  | loadEnv
  /-- The call `os.Setenv(key, value)`. -/
  | setenv (key : String) (value : String)
  /-- The call `os.Getenv(name)`. -/
  | getenv (name : String)
  /-- The command `pgrep -f keepalive.sh`. -/
  | pgrepKeepalive
  /-- The start of `/bin/bash ./keepalive.sh`. -/
  | startKeepalive
deriving DecidableEq, Repr

/-- The answer of a collaborator to one call: a Go error (`none` is `nil`) and the
returned value, read in the field matching the call's result type. -/
structure Resp where
  err : Option String
  n : Int
  s : String
  b : Bool
  bytes : List Nat
deriving DecidableEq, Repr

/-- The external world: it answers a call given the calls issued before it. -/
structure World where
  resp : List Act → Act → Resp

/-- How a Go function ends: it returns a value, or it panics at run time. -/
inductive Outcome (α : Type) where
  | ret (a : α)
  | panic
deriving DecidableEq, Repr

/-- A computation: from the world and the history of calls, an outcome and the extended
history. -/
def M (α : Type) : Type := World → List Act → Outcome α × List Act

/-- Return a value without issuing a call. -/
def M.pure {α : Type} (a : α) : M α := fun _ t => (Outcome.ret a, t)

/-- Sequence two computations; a panic ends the run. -/
def M.bind {α β : Type} (m : M α) (f : α → M β) : M β := fun w t =>
  match m w t with
  | (Outcome.ret a, t1) => f a w t1
  | (Outcome.panic, t1) => (Outcome.panic, t1)

instance : Monad M where
  pure := M.pure
  bind := M.bind

/-- Issue a call and read the world's answer. -/
def call (a : Act) : M Resp := fun w t => (Outcome.ret (w.resp t a), t ++ [a])

/-- A run-time panic. -/
def throwPanic {α : Type} : M α := fun _ t => (Outcome.panic, t)

/-- A method call through `b.page`: calling a method on the nil interface panics. -/
def pageCall (b : Bot) (a : Act) : M Resp :=
  if b.page then call a else throwPanic

/-- The function `strings.Contains` on character lists. -/
def containsChars (sub : List Char) : List Char → Bool
  | [] => sub.isEmpty
  | c :: cs => sub.isPrefixOf (c :: cs) || containsChars sub cs

/-- The function `strings.Contains`. -/
def stringsContains (s sub : String) : Bool := containsChars sub.toList s.toList

/-! ## Element resolution and popup sweeping (`bot/bot.go`) -/

/-- The method `findElementFast`: the selected selector and the error. -/
def findElementFast (b : Bot) : List String → Int → M (String × Option String)
  | [], timeout =>
    pure ("", some ("none of the selectors found an element within " ++ toString timeout ++ "ms"))
  | selector :: rest, timeout => do
    let r ← pageCall b (Act.waitFor (Loc.css selector) timeout)
    match r.err with
    | none => pure (selector, none)
    | some _ => findElementFast b rest timeout

/-- The popup catalogue of `ClearPopups`. -/
def popupSelectors : List String := [
  "button:has-text('Allow')",
  "button:has-text('Block')",
  "div[role='button']:has-text('Allow')",
  "div[role='button']:has-text('Block')",
  "button:has-text('Got it')",
  "button:has-text('Dismiss')",
  "button:has-text('OK')",
  "button:has-text('Close')",
  "button:has-text('Continue')",
  "button:has-text('Next')",
  "button:has-text('Skip')",
  "button:has-text('Not now')",
  "button:has-text('Maybe later')",
  "[aria-label='Close']",
  "[aria-label='Dismiss']",
  "button[data-dismiss]",
  ".close-button",
  "button:has-text('Use a phone for audio')",
  "button:has-text('Join and use a phone')",
  "button:has-text(\"Don't use a phone\")",
  "button:has-text('Use a phone')",
  "button:has-text('Turn on')",
  "button:has-text('Turn off')",
  "div[role='button']:has-text('Turn on')",
  "div[role='button']:has-text('Turn off')",
  "button[aria-label*='close']",
  "button[aria-label*='dismiss']",
  "div[role='button'][aria-label*='close']",
  "div[role='button'][aria-label*='dismiss']"]

/-- The body of the inner loop of `ClearPopups` for one element. -/
def ClearPopups.dismiss (selector : String) (i : Nat) : M Unit := do
  let v ← call (Act.isVisible (Loc.nth selector i))
  if v.err.isSome || !v.b then
    pure ()
  else do
    let c ← call (Act.click (Loc.nth selector i) (some 1000))
    match c.err with
    | some _ => pure ()
    | none => do
      let _ ← call (Act.sleep 500)
      pure ()

/-- The inner loop of `ClearPopups` over the elements matching one selector. -/
def ClearPopups.elements (selector : String) : List Nat → M Unit
  | [] => pure ()
  | i :: rest => do
    ClearPopups.dismiss selector i
    ClearPopups.elements selector rest

/-- The outer loop of `ClearPopups` over the catalogue. -/
def ClearPopups.sweep (b : Bot) : List String → M Unit
  | [] => pure ()
  | selector :: rest => do
    let r ← pageCall b (Act.all selector)
    match r.err with
    | some _ => ClearPopups.sweep b rest
    | none => do
      ClearPopups.elements selector (List.range r.n.toNat)
      ClearPopups.sweep b rest

/-- The method `ClearPopups`. -/
def ClearPopups (b : Bot) : M Unit := do
  ClearPopups.sweep b popupSelectors
  let _ ← call (Act.sleep 1000)
  pure ()

/-- The method `clickWithLogging`: the audit record, then the click. -/
def clickWithLogging (b : Bot) (selector action context : String) : M (Option String) := do
  let _ ← call (Act.logButtonClick action selector context)
  let r ← pageCall b (Act.click (Loc.css selector) none)
  pure r.err

/-- The loop `for selector in selectors: if visible then x = selector; break`, inlined at
several places of the source; the result is the empty string when no selector is visible. -/
def firstVisible (b : Bot) (timeout : Int) : List String → M String
  | [] => pure ""
  | selector :: rest => do
    let r ← pageCall b (Act.waitFor (Loc.css selector) timeout)
    match r.err with
    | none => pure selector
    | some _ => firstVisible b timeout rest

/-- The loop `for selector in selectors: if visible then flag = true; break`, inlined at
several places of the source. -/
def anyVisible (b : Bot) (timeout : Int) : List String → M Bool
  | [] => pure false
  | selector :: rest => do
    let r ← pageCall b (Act.waitFor (Loc.css selector) timeout)
    match r.err with
    | none => pure true
    | some _ => anyVisible b timeout rest

/-! ## The login automaton (`GoogleLogin`) -/

/-- The email candidates of `GoogleLogin`. -/
def emailSelectors : List String := [
  "input#identifierId",
  "input[type='email']",
  "input[name='identifier']",
  "input[autocomplete='username']"]

/-- The candidates for the button after the email of `GoogleLogin`. -/
def emailNextSelectors : List String := [
  "div#identifierNext",
  "button#identifierNext",
  "input#identifierNext",
  "button:has-text('Next')",
  "div[role='button']:has-text('Next')"]

/-- The password candidates of `GoogleLogin`. -/
def passwordSelectors : List String := [
  "input[name='Passwd']",
  "input[name='Passwd'][type='password']",
  "input[autocomplete='current-password']:not([aria-hidden='true'])",
  "input[jsname='YPqjbf']",
  "input[type='password'][tabindex='0']",
  "input[type='password']:not([name='hiddenPassword'])"]

/-- The candidates for the button after the password of `GoogleLogin`. -/
def nextButtonSelectors : List String := [
  "div#passwordNext",
  "button[type='submit']",
  "input[type='submit']",
  "button:has-text('Next')",
  "div[role='button']:has-text('Next')"]

/-- The success indicators of `GoogleLogin`. -/
def successSelectors : List String := ["text=Welcome", "[data-email]"]

/-- The password loop of `GoogleLogin`: the value of `passwordInput` after the loop. -/
def GoogleLogin.passwordLoop (b : Bot) : List String → M String
  | [] => pure ""
  | selector :: rest => do
    let r ← pageCall b (Act.waitFor (Loc.css selector) 800)
    match r.err with
    | some _ => GoogleLogin.passwordLoop b rest
    | none => do
      let c ← pageCall b (Act.count (Loc.css selector))
      if c.err = none ∧ c.n = 1 then
        pure selector
      else if c.n > 1 then
        GoogleLogin.passwordLoop b rest
      else
        pure selector

/-- The last phase of `GoogleLogin`, from "Completing login..." on. -/
def GoogleLogin.outcome (b : Bot) : M (Option String) := do
  let r1 ← pageCall b (Act.waitForURL "**/myaccount.google.com/**" 3000)
  match r1.err with
  | none => pure none
  | some _ => do
    let r2 ← pageCall b (Act.waitForURL "**/accounts.google.com/signin/oauth/**" 2000)
    match r2.err with
    | none => pure none
    | some _ => do
      let found ← anyVisible b 5000 successSelectors
      if found then
        pure none
      else do
        let u ← pageCall b Act.url
        let currentUrl := u.s
        if currentUrl ≠ "" ∧
            (stringsContains currentUrl "myaccount.google.com" ∨
              stringsContains currentUrl "accounts.google.com/signin/oauth" ∨
              ¬ stringsContains currentUrl "signin/v2/identifier") then
          pure none
        else do
          let e ← pageCall b (Act.waitFor (Loc.css "[jsname='B34EJ'] span") 2000)
          match e.err with
          | none => do
            let txt ← call (Act.textContent (Loc.css "[jsname='B34EJ'] span"))
            pure (some ("google login failed: " ++ txt.s))
          | some _ => pure none

/-- The password-submission phase of `GoogleLogin`, followed by the outcome phase. -/
def GoogleLogin.submit (b : Bot) : M (Option String) := do
  let nextButton ← firstVisible b 2000 nextButtonSelectors
  if nextButton ≠ "" then do
    let e ← clickWithLogging b nextButton "CLICK_PASSWORD_NEXT" "Google Login - Password Step"
    match e with
    | some err => pure (some ("failed to click next button: " ++ err))
    | none => GoogleLogin.outcome b
  else do
    let k ← pageCall b (Act.keyboardPress "Enter")
    match k.err with
    | some err => pure (some ("failed to press Enter key: " ++ err))
    | none => GoogleLogin.outcome b

/-- The password phase of `GoogleLogin`, followed by the later phases. -/
def GoogleLogin.passwordStep (b : Bot) : M (Option String) := do
  let passwordInput ← GoogleLogin.passwordLoop b passwordSelectors
  if passwordInput = "" then do
    let l ← pageCall b (Act.waitFor (Loc.label "Enter your password") 1000)
    match l.err with
    | none => do
      let p ← call (Act.pressSequentially (Loc.label "Enter your password") b.password 50)
      match p.err with
      | some err => pure (some ("failed to type password using getByLabel: " ++ err))
      | none => GoogleLogin.submit b
    | some _ => pure (some "failed to find password input field with any method")
  else do
    let p ← pageCall b (Act.pressSequentially (Loc.css passwordInput) b.password 50)
    match p.err with
    | some err => pure (some ("failed to type password in: " ++ err))
    | none => GoogleLogin.submit b

/-- The method `GoogleLogin`. -/
def GoogleLogin (b : Bot) : M (Option String) := do
  if !b.running then
    pure (some "bot not initialized")
  else do
    let g ← pageCall b (Act.goto
      "https://accounts.google.com/signin/v2/identifier?flowName=GlifWebSignIn&flowEntry=ServiceLogin"
      "networkidle" none)
    match g.err with
    | some err => pure (some ("failed to navigate to google login page: " ++ err))
    | none => do
      let emailInput ← firstVisible b 1000 emailSelectors
      if emailInput = "" then
        pure (some "failed to find email input field")
      else do
        let p ← pageCall b (Act.pressSequentially (Loc.css emailInput) b.email 50)
        match p.err with
        | some err => pure (some ("failed to type email in: " ++ err))
        | none => do
          let emailNextButton ← firstVisible b 1000 emailNextSelectors
          if emailNextButton = "" then
            pure (some "failed to find email next button")
          else do
            let e ← clickWithLogging b emailNextButton "CLICK_EMAIL_NEXT"
              "Google Login - Email Step"
            match e with
            | some err => pure (some ("failed to click email next button: " ++ err))
            | none => do
              let _ ← pageCall b (Act.waitForLoadState "networkidle")
              GoogleLogin.passwordStep b

/-! ## Closing, joining and the microphone -/

/-- The method `Close`: the error and the Bot afterwards. -/
def Close (b : Bot) : M (Option String × Bot) := do
  let rb ← (if b.browser then (do let r ← call Act.browserClose; pure r.err) else pure none)
  match rb with
  | some err => pure (some err, b)
  | none => do
    let rp ← (if b.pw then (do let r ← call Act.pwStop; pure r.err) else pure none)
    match rp with
    | some err => pure (some err, b)
    | none => pure (none, { b with running := false })

/-- The camera candidates of `JoinGoogleMeet`. -/
def cameraSelectors : List String := [
  "div[data-tooltip*='camera']",
  "button[aria-label*='camera']",
  "div[aria-label*='Turn off camera']",
  "button[data-tooltip*='Turn off camera']"]

/-- The microphone candidates of `JoinGoogleMeet`. -/
def micSelectors : List String := [
  "div[data-tooltip*='microphone']",
  "button[aria-label*='microphone']",
  "div[aria-label*='Turn off microphone']",
  "button[data-tooltip*='Turn off microphone']"]

/-- The join candidates of `JoinGoogleMeet`. -/
def joinSelectors : List String := [
  "button:has-text('Join now')",
  "div[role='button']:has-text('Join now')",
  "button:has-text('Ask to join')",
  "div[role='button']:has-text('Ask to join')",
  "button[aria-label*='Join']",
  "div[data-tooltip*='Join']"]

/-- The post-join indicators of `JoinGoogleMeet`. -/
def meetingSelectors : List String := [
  "div[data-allocation-index]",
  "div[jsname='HzV7m']",
  "button[aria-label*='Leave call']",
  "div[aria-label*='You joined']"]

/-- The constant `maxRetries` of the join loop of `JoinGoogleMeet`. -/
def joinMaxRetries : Nat := 2

/-- How one scan of the join candidates ends. -/
inductive ScanResult where
  /-- A click succeeded: `joinButtonFound = true; break`. -/
  | found
  /-- The scan reached the end of the list without a successful click. -/
  | notFound
  /-- The scan returned from `JoinGoogleMeet` with this error. -/
  | fatal (err : String)
deriving DecidableEq, Repr

/-- The inner loop of the join step of `JoinGoogleMeet`, in retry number `retry`. -/
def JoinGoogleMeet.scan (b : Bot) (retry : Nat) : List String → M ScanResult
  | [] => pure ScanResult.notFound
  | selector :: rest => do
    let r ← pageCall b (Act.waitFor (Loc.css selector) 1500)
    match r.err with
    | some _ => JoinGoogleMeet.scan b retry rest
    | none => do
      let e ← clickWithLogging b selector "JOIN_MEETING" "Google Meet - Join Meeting"
      match e with
      | some err =>
        if retry < joinMaxRetries - 1 then
          JoinGoogleMeet.scan b retry rest
        else
          pure (ScanResult.fatal ("failed to click join button after " ++
            toString joinMaxRetries ++ " attempts: " ++ err))
      | none => pure ScanResult.found

/-- The outer loop of the join step of `JoinGoogleMeet` with the check that follows it;
the first argument counts the iterations left, `joinMaxRetries - retry`. -/
def JoinGoogleMeet.joinLoop (b : Bot) : Nat → Nat → M (Option String)
  | 0, _ => pure (some ("could not find join button after " ++ toString joinMaxRetries ++
      " attempts"))
  | k + 1, retry => do
    let _ ← (if retry > 0 then ClearPopups b else pure ())
    let s ← JoinGoogleMeet.scan b retry joinSelectors
    match s with
    | ScanResult.found => pure none
    | ScanResult.notFound => JoinGoogleMeet.joinLoop b k (retry + 1)
    | ScanResult.fatal err => pure (some err)

/-- The camera step of `JoinGoogleMeet`. -/
def JoinGoogleMeet.camera (b : Bot) : M Unit := do
  let r ← findElementFast b cameraSelectors 1000
  match r.2 with
  | none => do
    let _ ← clickWithLogging b r.1 "TOGGLE_CAMERA_OFF" "Google Meet - Pre-join Setup"
    pure ()
  | some _ => pure ()

/-- The microphone step of `JoinGoogleMeet`. -/
def JoinGoogleMeet.microphone (b : Bot) : M Unit := do
  let r ← findElementFast b micSelectors 1000
  match r.2 with
  | none => do
    let _ ← clickWithLogging b r.1 "TOGGLE_MIC_OFF" "Google Meet - Pre-join Setup"
    pure ()
  | some _ => pure ()

/-- The steps of `JoinGoogleMeet` before the popup sweep: navigation and login. -/
def JoinGoogleMeet.navigate (b : Bot) (meetingURL : String) : M (Option String) := do
  let g ← pageCall b (Act.goto meetingURL "networkidle" none)
  match g.err with
  | some err => pure (some ("failed to navigate to meeting URL: " ++ err))
  | none => do
    let l ← pageCall b (Act.waitForLoadState "networkidle")
    match l.err with
    | some err => pure (some ("failed to wait for page load: " ++ err))
    | none => do
      let u ← pageCall b Act.url
      let currentUrl := u.s
      if stringsContains currentUrl "accounts.google.com" ∧
          stringsContains currentUrl "signin" then do
        let e ← GoogleLogin b
        match e with
        | some err => pure (some ("failed to login before joining meeting: " ++ err))
        | none => do
          let g2 ← pageCall b (Act.goto meetingURL "networkidle" none)
          match g2.err with
          | some err =>
            pure (some ("failed to navigate back to meeting after login: " ++ err))
          | none => pure none
      else
        pure none

/-- The join step of `JoinGoogleMeet` and the confirmation that follows it. -/
def JoinGoogleMeet.join (b : Bot) : M (Option String) := do
  let j ← JoinGoogleMeet.joinLoop b joinMaxRetries 0
  match j with
  | some err => pure (some err)
  | none => do
    let _ ← anyVisible b 3000 meetingSelectors
    pure none

/-- The method `JoinGoogleMeet`. -/
def JoinGoogleMeet (b : Bot) (meetingURL : String) : M (Option String) := do
  if !b.running then
    pure (some "bot not initialized")
  else do
    let n ← JoinGoogleMeet.navigate b meetingURL
    match n with
    | some err => pure (some err)
    | none => do
      ClearPopups b
      JoinGoogleMeet.camera b
      JoinGoogleMeet.microphone b
      ClearPopups b
      JoinGoogleMeet.join b

/-- The microphone candidates of `EnableMicrophone`. -/
def enableMicSelectors : List String := [
  "button[aria-label*='Turn on microphone']",
  "div[data-tooltip*='Turn on microphone']",
  "button[aria-label*='Unmute']",
  "div[aria-label*='Unmute']"]

/-- The loop of `EnableMicrophone` with the return that follows it. -/
def EnableMicrophone.loop (b : Bot) : List String → M (Option String)
  | [] => pure (some "could not find microphone enable button")
  | selector :: rest => do
    let r ← pageCall b (Act.waitFor (Loc.css selector) 2000)
    match r.err with
    | none => clickWithLogging b selector "ENABLE_MICROPHONE" "Google Meet - Meeting Controls"
    | some _ => EnableMicrophone.loop b rest

/-- The method `EnableMicrophone`. -/
def EnableMicrophone (b : Bot) : M (Option String) := do
  if !b.running then
    pure (some "bot not initialized")
  else
    EnableMicrophone.loop b enableMicSelectors

/-! ## Initialization -/

/-- The arguments of the full-option launch of `Initialize`. -/
def launchArgs : List String := [
  "--no-sandbox",
  "--disable-setuid-sandbox",
  "--disable-dev-shm-usage",
  "--disable-gpu",
  "--disable-infobars",
  "--disable-features=IsolateOrigins,site-per-process",
  "--use-fake-ui-for-media-stream",
  "--autoplay-policy=no-user-gesture-required"]

/-- The arguments of the reduced-option fallback launch of `Initialize`. -/
def fallbackArgs : List String := [
  "--no-sandbox",
  "--disable-setuid-sandbox",
  "--disable-dev-shm-usage",
  "--disable-gpu",
  "--disable-extensions",
  "--disable-default-apps",
  "--use-fake-ui-for-media-stream",
  "--auto-accept-camera-and-microphone-capture",
  "--log-level=3"]

/-- The constant `maxRetries` of the launch loop of `Initialize`. -/
def launchMaxRetries : Nat := 3

/-- The call `pw.Chromium.Launch(launchOptions)` of `Initialize`. -/
def fullLaunch (b : Bot) : Act := Act.launch b.headless 30000 launchArgs

/-- The call `pw.Chromium.Launch(fallbackOptions)` of `Initialize`. -/
def fallbackLaunch (b : Bot) : Act := Act.launch b.headless 30000 fallbackArgs

/-- The launch loop of `Initialize`; the first argument counts the iterations left,
`launchMaxRetries + 1 - attempt`.  The result is the error returned from inside the loop,
or `none` when the loop ends with a browser. -/
def Initialize.launchLoop (b : Bot) : Nat → Nat → M (Option String)
  | 0, _ => pure none
  | k + 1, attempt => do
    let r ← call (fullLaunch b)
    match r.err with
    | some _ =>
      if attempt < launchMaxRetries then do
        let _ ← call (Act.sleep 2000)
        Initialize.launchLoop b k (attempt + 1)
      else do
        let f ← call (fallbackLaunch b)
        match f.err with
        | some err => pure (some ("failed to launch chromium browser after " ++
            toString launchMaxRetries ++ " attempts and fallback: " ++ err))
        | none => Initialize.launchLoop b k (attempt + 1)
    | none => pure none

/-- The steps of `Initialize` after the launch loop. -/
def Initialize.connect (b : Bot) : M (Option String × Bot) := do
  let _ ← call Act.onDisconnected
  let b1 := { b with browser := true }
  let c ← call Act.isConnected
  if !c.b then
    pure (some "browser disconnected immediately after launch", b1)
  else do
    let x ← call (Act.newContext ["camera", "microphone"])
    match x.err with
    | some err => pure (some ("failed to create browser context: " ++ err), b1)
    | none => do
      let p ← call Act.newPage
      match p.err with
      | some err => pure (some ("failed to create page: " ++ err), b1)
      | none => do
        let g ← call (Act.goto "data:text/html,<html><body><h1>Browser Test</h1></body></html>"
          "load" (some 10000))
        match g.err with
        | some err => pure (some ("failed to navigate to test page: " ++ err), b1)
        | none => pure (none, { b1 with page := true, running := true })

/-- The method `Initialize`: the error and the Bot afterwards. -/
def Initialize (b : Bot) : M (Option String × Bot) := do
  let r ← call Act.playwrightRun
  match r.err with
  | some err => pure (some ("failed to run playwright: " ++ err), b)
  | none => do
    let b0 := { b with pw := true }
    let l ← Initialize.launchLoop b0 launchMaxRetries 1
    match l with
    | some err => pure (some err, b0)
    | none => Initialize.connect b0

/-! ## Loading the environment (`loadEnv`)

The file `.env` is taken to be valid UTF-8 text, so that a Go string is a list of
characters; the bytes `"`, `'`, `#`, `=` and the line ends are single characters, and an
index into the bytes of a string that holds one of them is an index into its characters. -/

/-- The predicate `unicode.IsSpace`. -/
def isSpace (c : Char) : Bool :=
  let n := c.toNat
  (9 ≤ n && n ≤ 13) || n = 32 || n = 133 || n = 160 || n = 5760 ||
    (8192 ≤ n && n ≤ 8202) || n = 8232 || n = 8233 || n = 8239 || n = 8287 || n = 12288

/-- The function `strings.TrimSpace`. -/
def trimSpace (s : List Char) : List Char :=
  ((s.dropWhile isSpace).reverse.dropWhile isSpace).reverse

/-- The double quote. -/
def doubleQuote : Char := Char.ofNat 34

/-- The single quote. -/
def singleQuote : Char := Char.ofNat 39

/-- The line feed. -/
def lineFeed : Char := Char.ofNat 10

/-- The carriage return. -/
def carriageReturn : Char := Char.ofNat 13

/-- The call `strings.SplitN(s, sep, 2)` for a separator of one character, when it
returns two parts: the text before the first separator and the text after it; `none`
when the separator does not occur and the result has one part. -/
def splitFirst (sep : Char) : List Char → Option (List Char × List Char)
  | [] => none
  | c :: cs =>
    if c = sep then some ([], cs)
    else match splitFirst sep cs with
      | some (before, after) => some (c :: before, after)
      | none => none

/-- The quote removal of `loadEnv`: `value[1 : len(value)-1]` when `value` has length at
least 2 and `value[0]` and `value[len(value)-1]` are both `"` or both `'`. -/
def unquote (value : List Char) : List Char :=
  if value.length ≥ 2 ∧
      ((value.head? = some doubleQuote ∧ value.getLast? = some doubleQuote) ∨
        (value.head? = some singleQuote ∧ value.getLast? = some singleQuote)) then
    (value.drop 1).take (value.length - 2)
  else
    value

/-- The body of the scan loop of `loadEnv` for the line `scanner.Text()`. -/
def loadEnv.line (text : String) : M Unit :=
  let line := trimSpace text.toList
  if line = [] ∨ line.head? = some '#' then
    pure ()
  else
    match splitFirst '=' line with
    | none => pure ()
    | some (before, after) => do
      let key := trimSpace before
      let value := unquote (trimSpace after)
      let _ ← call (Act.setenv (String.mk key) (String.mk value))
      pure ()

/-- The pieces of the text of a file between its line feeds, a final empty piece being
dropped: the tokens of `bufio.ScanLines` before their carriage return is removed.  The
second argument holds the piece being read, reversed. -/
def rawLines : List Char → List Char → List (List Char)
  | [], acc => if acc = [] then [] else [acc.reverse]
  | c :: cs, acc =>
    if c = lineFeed then acc.reverse :: rawLines cs [] else rawLines cs (c :: acc)

/-- The function `dropCR` of `bufio`: a final carriage return is removed. -/
def dropCR (piece : List Char) : List Char :=
  if piece.getLast? = some carriageReturn then piece.dropLast else piece

/-- Whether a piece does not fit the buffer of a `bufio.Scanner`: it has at least
`bufio.MaxScanTokenSize` (64 * 1024) bytes. -/
def tokenTooLong (piece : List Char) : Bool :=
  decide (65536 ≤ (piece.map Char.utf8Size).sum)

/-- The scan loop of `loadEnv` with the final `scanner.Err()`. -/
def loadEnv.scan : List (List Char) → M (Option String)
  | [] => pure none
  | piece :: rest =>
    if tokenTooLong piece then
      pure (some "bufio.Scanner: token too long")
    else do
      loadEnv.line (String.mk (dropCR piece))
      loadEnv.scan rest

/-- The function `loadEnv`. -/
def loadEnv : M (Option String) := do
  let f ← call Act.loadEnv
  match f.err with
  | some err => pure (some ("failed to open .env file: " ++ err))
  | none => loadEnv.scan (rawLines f.s.toList [])

/-- The function `NewBot`: the new Bot, or the error together with a nil Bot. -/
def NewBot (headless : Bool) : M (Except String Bot) := do
  let l ← loadEnv
  match l with
  | some err => pure (Except.error ("failed to load .env file: " ++ err))
  | none => do
    let email ← call (Act.getenv "GOOGLE_EMAIL")
    let password ← call (Act.getenv "GOOGLE_PASSWORD")
    if email.s = "" then
      pure (Except.error "GOOGLE_EMAIL not found in .env file")
    else if password.s = "" then
      pure (Except.error "GOOGLE_PASSWORD not found in .env file")
    else
      pure (Except.ok { pw := false, browser := false, page := false, headless := headless,
                        email := email.s, password := password.s, running := false })

/-! ## Leaving, login status and screenshots -/

/-- The leave-button candidates of `LeaveMeeting`. -/
def leaveSelectors : List String := [
  "button[aria-label*='Leave call']",
  "div[data-tooltip*='Leave call']",
  "button[aria-label*='End call']",
  "div[data-tooltip*='End call']",
  "button:has-text('Leave call')",
  "div[role='button']:has-text('Leave call')",
  "button[jsname='CQylAd']",
  "div[jsname='CQylAd']"]

/-- The exit indicators of `LeaveMeeting`. -/
def exitSelectors : List String := [
  "text=You left the meeting",
  "text=Call ended",
  "text=Meeting ended",
  "div[aria-label*='left the meeting']",
  "button:has-text('Rejoin')",
  "div:has-text('Thanks for joining')"]

/-- The leave-button loop of `LeaveMeeting`: the value of `leaveButtonFound`. -/
def LeaveMeeting.leaveLoop (b : Bot) : List String → M Bool
  | [] => pure false
  | selector :: rest => do
    let r ← pageCall b (Act.waitFor (Loc.css selector) 3000)
    match r.err with
    | some _ => LeaveMeeting.leaveLoop b rest
    | none => do
      let c ← pageCall b (Act.click (Loc.css selector) none)
      match c.err with
      | some _ => LeaveMeeting.leaveLoop b rest
      | none => pure true

/-- The exit confirmation of `LeaveMeeting`, which always returns nil. -/
def LeaveMeeting.confirm (b : Bot) : M (Option String) := do
  let exitConfirmed ← anyVisible b 5000 exitSelectors
  if !exitConfirmed then do
    let _ ← pageCall b Act.url
    pure none
  else
    pure none

/-- The method `LeaveMeeting`. -/
def LeaveMeeting (b : Bot) : M (Option String) := do
  if !b.running then
    pure (some "bot not initialized")
  else do
    let leaveButtonFound ← LeaveMeeting.leaveLoop b leaveSelectors
    if !leaveButtonFound then do
      let k ← pageCall b (Act.keyboardPress "Control+d")
      match k.err with
      | some err =>
        pure (some ("could not find leave button and keyboard shortcut failed: " ++ err))
      | none => LeaveMeeting.confirm b
    else
      LeaveMeeting.confirm b

/-- The logged-in indicators of `IsLoggedIn`. -/
def loggedInSelectors : List String := [
  "[data-email]",
  "[aria-label*='Google Account']",
  "img[alt*='profile']",
  "div[data-email]"]

/-- The method `IsLoggedIn`. -/
def IsLoggedIn (b : Bot) : M (Bool × Option String) := do
  if !b.running then
    pure (false, some "bot not initialized")
  else do
    let g ← pageCall b (Act.goto "https://accounts.google.com/" "networkidle" none)
    match g.err with
    | some err => pure (false, some ("failed to navigate to Google accounts: " ++ err))
    | none => do
      let u ← pageCall b Act.url
      if stringsContains u.s "signin" then
        pure (false, none)
      else do
        let found ← anyVisible b 3000 loggedInSelectors
        pure (found, none)

/-- The method `TakeScreenshot`: the image bytes (nil is the empty list) and the error. -/
def TakeScreenshot (b : Bot) : M (List Nat × Option String) := do
  if !b.running then
    pure ([], some "bot not initialized")
  else do
    let s ← pageCall b (Act.screenshot false "jpeg" 80)
    match s.err with
    | some err => pure ([], some ("failed to take screenshot: " ++ err))
    | none => pure (s.bytes, none)

/-! ## The control surface (`main.go`)

The handlers run one at a time under `botMutex`; the package variable `globalBot` is
threaded through them explicitly.  A handler that panics writes no response. -/

/-- The part of an HTTP request the handlers read. -/
structure Request where
  method : String
  formValue : String → String

/-- The status code and body written by a handler. -/
structure Response where
  status : Nat
  body : String
deriving DecidableEq, Repr

/-- The function `http.Error`: the message followed by a newline, under the given code. -/
def httpError (msg : String) (code : Nat) : Response := { status := code, body := msg ++ "\n" }

/-- The handler `initBotHandler`: the response and `globalBot` afterwards. -/
def initBotHandler (r : Request) (globalBot : Option Bot) : M (Response × Option Bot) := do
  if r.method ≠ "POST" then
    pure (httpError "Method not allowed" 405, globalBot)
  else do
    let p ← call Act.pgrepKeepalive
    let started ← (if p.err = none ∧ p.bytes.length > 0 then pure none
      else (do let s ← call Act.startKeepalive; pure s.err))
    match started with
    | some err =>
      pure (httpError ("Failed to start keepalive script: " ++ err) 500, globalBot)
    | none =>
      match globalBot with
      | none => do
        let nb ← NewBot false
        match nb with
        | Except.ok b => do
          let i ← Initialize b
          match i.1 with
          | some err =>
            pure (httpError ("Failed to initialize bot: " ++ err) 500, some i.2)
          | none => pure ({ status := 200, body := "Bot initialized successfully" }, some i.2)
        | Except.error err =>
          pure (httpError ("Failed to create bot: " ++ err) 500, none)
      | some b => pure ({ status := 200, body := "Bot initialized successfully" }, some b)

/-- The handler `joinMeetingHandler` from the login check on, for an existing Bot. -/
def joinMeetingHandler.join (meetUrl : String) (b : Bot) : M (Response × Option Bot) := do
  let li ← IsLoggedIn b
  let logged ← (if !li.1 then GoogleLogin b else pure none)
  match logged with
  | some err => pure (httpError ("Failed to login: " ++ err) 500, some b)
  | none => do
    let j ← JoinGoogleMeet b meetUrl
    match j with
    | some err => pure (httpError ("Failed to join meeting: " ++ err) 500, some b)
    | none => pure ({ status := 200, body := "Successfully joined the meeting" }, some b)

/-- The handler `joinMeetingHandler`: the response and `globalBot` afterwards. -/
def joinMeetingHandler (r : Request) (globalBot : Option Bot) : M (Response × Option Bot) := do
  if r.method ≠ "POST" then
    pure (httpError "Method not allowed" 405, globalBot)
  else
    let meetUrl := r.formValue "meetUrl"
    if meetUrl = "" then
      pure (httpError "meetUrl parameter is required" 400, globalBot)
    else
      match globalBot with
      | none => do
        let nb ← NewBot false
        match nb with
        | Except.ok b => do
          let i ← Initialize b
          match i.1 with
          | some err =>
            pure (httpError ("Failed to initialize bot: " ++ err) 500, some i.2)
          | none => joinMeetingHandler.join meetUrl i.2
        | Except.error err =>
          pure (httpError ("Failed to create bot: " ++ err) 500, none)
      | some b => joinMeetingHandler.join meetUrl b

/-- The handler `clearPopupsHandler`: the response and `globalBot` afterwards. -/
def clearPopupsHandler (r : Request) (globalBot : Option Bot) : M (Response × Option Bot) := do
  if r.method ≠ "POST" then
    pure (httpError "Method not allowed" 405, globalBot)
  else
    match globalBot with
    | none => pure (httpError "No active bot session" 400, none)
    | some b => do
      ClearPopups b
      pure ({ status := 200, body := "Popups cleared successfully" }, some b)

/-! ## The audio relay (`main.go`)

The relay does not touch the Bot.  What it meets outside the program is given by an
`AudioEnv`; the result is the returned error and the chunks passed to `pipe.Write`, in
order. -/

/-- The errno `unix.ENXIO` on linux. -/
def ENXIO : Nat := 6

/-- The length of the buffer `buf` of `generateAndSendTTS`. -/
def relayBufferSize : Nat := 8192

/-- The offset of `wav.Seek(44, io.SeekStart)`: the length of the WAV header. -/
def wavHeaderSize : Nat := 44

/-- The surroundings of one call of `generateAndSendTTS`. -/
structure AudioEnv where
  /-- The error of `cmd.Run()` for the text, `none` when the synthesis succeeds. -/
  synthesis : String → Option String
  /-- The error of `os.Open(convertedFile)`. -/
  openWav : Option String
  /-- The bytes of the converted file. -/
  wav : List Nat
  /-- The error of `wav.Seek`. -/
  seekWav : Option String
  /-- Whether `os.Stat(pipePath)` fails with a not-exist error. -/
  pipeMissing : Bool
  /-- The errno of `unix.Open` on the pipe, `none` when the open succeeds. -/
  openPipe : Option Nat
  /-- The text of an errno, as `%v` prints it. -/
  errnoText : Nat → String
  /-- The most bytes the read at a file offset hands out; a read returns at least one byte
  before the end of the file. -/
  readLimit : Nat → Nat
  /-- The error, other than `io.EOF`, of the read at a file offset. -/
  readError : Nat → Option String
  /-- The error of the write that follows the given number of writes. -/
  writeError : Nat → Option String

/-- The result of `generateAndSendTTS`: the error and the chunks passed to `pipe.Write`. -/
structure RelayResult where
  err : Option String
  writes : List (List Nat)
deriving DecidableEq, Repr

/-- The number of bytes returned by `wav.Read(buf)` at an offset with `remaining` bytes
left, `remaining` being positive. -/
def readCount (env : AudioEnv) (offset remaining : Nat) : Nat :=
  max 1 (min (env.readLimit offset) (min relayBufferSize remaining))

/-- The read/write loop of `generateAndSendTTS` from a file offset on; the first argument
bounds the number of iterations and is never exhausted when it exceeds the number of bytes
left. -/
def generateAndSendTTS.relay (env : AudioEnv) : Nat → Nat → List (List Nat) → RelayResult
  | 0, _, writes => { err := some "relay loop: iteration bound exhausted", writes := writes }
  | fuel + 1, offset, writes =>
    match env.readError offset with
    | some e => { err := some ("failed to read wav file: " ++ e), writes := writes }
    | none =>
      if env.wav.drop offset = [] then
        { err := none, writes := writes }
      else
        let n := readCount env offset (env.wav.drop offset).length
        let chunk := (env.wav.drop offset).take n
        match env.writeError writes.length with
        | some e =>
          { err := some ("failed to write to pipe: " ++ e), writes := writes ++ [chunk] }
        | none => generateAndSendTTS.relay env fuel (offset + n) (writes ++ [chunk])

/-- The function `generateAndSendTTS`. -/
def generateAndSendTTS (env : AudioEnv) (text : String) : RelayResult :=
  match env.synthesis text with
  | some e => { err := some ("failed to generate and convert wav: " ++ e), writes := [] }
  | none =>
    match env.openWav with
    | some e => { err := some ("failed to open wav file: " ++ e), writes := [] }
    | none =>
      match env.seekWav with
      | some e => { err := some ("failed to seek wav file: " ++ e), writes := [] }
      | none =>
        if env.pipeMissing then
          { err := some ("pipe does not exist: " ++ "/tmp/virtmic"), writes := [] }
        else
          match env.openPipe with
          | some errno =>
            if errno = ENXIO then
              { err := some "no reader available on the pipe", writes := [] }
            else
              { err := some ("failed to open pipe: " ++ env.errnoText errno), writes := [] }
          | none =>
            generateAndSendTTS.relay env ((env.wav.drop wavHeaderSize).length + 1)
              wavHeaderSize []

/-! ## Vocabulary of the statements -/

/-- The visibility probes issued for a list of selectors, in order. -/
def probes (timeout : Int) (selectors : List String) : List Act :=
  selectors.map (fun s => Act.waitFor (Loc.css s) timeout)

/-- Whether a call acts on the page: a click, typing, or a key press. -/
def Act.isInteraction : Act → Bool
  | Act.click _ _ => true
  | Act.pressSequentially _ _ _ => true
  | Act.keyboardPress _ => true
  | _ => false

/-- A Bot as `NewBot` returns it: no driver handle, not running. -/
def freshBot : Bot :=
  { pw := false, browser := false, page := false, headless := false,
    email := "bot@example.com", password := "secret", running := false }

/-- A Bot that was initialized and then closed: the handles are kept, `running` is false. -/
def closedBot : Bot :=
  { pw := true, browser := true, page := true, headless := false,
    email := "bot@example.com", password := "secret", running := false }

/-- A Bot after a successful `Initialize`. -/
def readyBot : Bot :=
  { pw := true, browser := true, page := true, headless := false,
    email := "bot@example.com", password := "secret", running := true }

/-- The answer of a call that fails with the given error. -/
def Resp.failure (e : String) : Resp := { err := some e, n := 0, s := "", b := false, bytes := [] }

/-- The answer of a call that succeeds, with zero values. -/
def Resp.success : Resp := { err := none, n := 0, s := "", b := true, bytes := [] }

/-- A world in which every call fails. -/
def deadWorld : World := { resp := fun _ _ => Resp.failure "closed" }

/-- A world that ignores the history: a call succeeds exactly when `ok` accepts it. -/
def scriptWorld (ok : Act → Bool) : World :=
  { resp := fun _ a => if ok a then Resp.success else Resp.failure "timeout" }

/-- A page on which, of all selectors, only the second camera candidate is visible. -/
def cameraWorld : World :=
  scriptWorld (fun a => decide (a = Act.waitFor (Loc.css "button[aria-label*='camera']") 1000))

/-- A POST request with the given value for every form field. -/
def postRequest (value : String) : Request := { method := "POST", formValue := fun _ => value }

/-- Whether the call `a`, issued after the history `t`, fails. -/
def World.fails (w : World) (t : List Act) (a : Act) : Bool := (w.resp t a).err.isSome

/-- The launch phase of `Initialize b` in a run that starts with history `t` and whose
driver start succeeded: the launch loop, entered after the call `playwright.Run()`. -/
def launchPhase (b : Bot) (w : World) (t : List Act) : Outcome (Option String) × List Act :=
  Initialize.launchLoop { b with pw := true } launchMaxRetries 1 w (t ++ [Act.playwrightRun])

/-- The calls issued by the launch phase, after the history before it. -/
def launchCalls (b : Bot) (w : World) (t : List Act) : List Act :=
  (launchPhase b w t).2.drop (t ++ [Act.playwrightRun]).length

/-- The history before full-option attempt number `k + 1` when the `k` attempts before it
failed: each failed attempt is followed by the 2 second delay. -/
def beforeAttempt (b : Bot) (t : List Act) : Nat → List Act
  | 0 => t ++ [Act.playwrightRun]
  | k + 1 => beforeAttempt b t k ++ [fullLaunch b, Act.sleep 2000]

/-- Whether full-option attempt number `k + 1` fails, the attempts before it having
failed. -/
def attemptFails (b : Bot) (w : World) (t : List Act) (k : Nat) : Bool :=
  w.fails (beforeAttempt b t k) (fullLaunch b)

/-- Whether the fallback launch fails, the three full-option attempts having failed. -/
def fallbackFails (b : Bot) (w : World) (t : List Act) : Bool :=
  w.fails (beforeAttempt b t 2 ++ [fullLaunch b]) (fallbackLaunch b)

/-- The liveness probe of `Initialize`: the navigation to a trivial page. -/
def probeNavigation : Act :=
  Act.goto "data:text/html,<html><body><h1>Browser Test</h1></body></html>" "load" (some 10000)

/-- The sub-step "driver start" of `Initialize` fails. -/
def driverStartFails (w : World) (t : List Act) : Bool := w.fails t Act.playwrightRun

/-- The sub-step "browser launch" of `Initialize` fails: the three full-option attempts and
the fallback launch all fail. -/
def launchFails (b : Bot) (w : World) (t : List Act) : Bool :=
  attemptFails b w t 0 && attemptFails b w t 1 && attemptFails b w t 2 && fallbackFails b w t

/-- The history of `Initialize` when the connection check is made, the launch phase
having given a browser. -/
def afterLaunch (b : Bot) (w : World) (t : List Act) : List Act :=
  (launchPhase b w t).2 ++ [Act.onDisconnected]

/-- The sub-step "connection check" of `Initialize` fails: the browser is not connected. -/
def connectionCheckFails (b : Bot) (w : World) (t : List Act) : Bool :=
  !(w.resp (afterLaunch b w t) Act.isConnected).b

/-- The sub-step "context creation" of `Initialize` fails. -/
def contextCreationFails (b : Bot) (w : World) (t : List Act) : Bool :=
  w.fails (afterLaunch b w t ++ [Act.isConnected]) (Act.newContext ["camera", "microphone"])

/-- The sub-step "page creation" of `Initialize` fails. -/
def pageCreationFails (b : Bot) (w : World) (t : List Act) : Bool :=
  w.fails (afterLaunch b w t ++ [Act.isConnected, Act.newContext ["camera", "microphone"]])
    Act.newPage

/-- The sub-step "probe navigation" of `Initialize` fails. -/
def probeNavigationFails (b : Bot) (w : World) (t : List Act) : Bool :=
  w.fails (afterLaunch b w t ++
    [Act.isConnected, Act.newContext ["camera", "microphone"], Act.newPage]) probeNavigation

/-- A world in which a launch fails while fewer than two launches with the same options
were made before it, and every other call succeeds. -/
def flakyLaunchWorld : World :=
  { resp := fun t a =>
      match a with
      | Act.launch _ _ _ => if t.count a < 2 then Resp.failure "launch failed" else Resp.success
      | _ => Resp.success }

/-- A world in which `browser.Close()` fails and every other call succeeds. -/
def closeFailsWorld : World := scriptWorld (fun a => decide (a ≠ Act.browserClose))

/-- A world in which the environment holds the credentials and the keepalive script is
running, but the Playwright driver cannot be started. -/
def noDriverWorld : World :=
  { resp := fun _ a =>
      match a with
      | Act.playwrightRun => Resp.failure "driver missing"
      | Act.getenv _ => { Resp.success with s := "x" }
      | Act.pgrepKeepalive => { Resp.success with bytes := [52, 50, 10] }
      | _ => Resp.success }

/-- The Bot that `NewBot false` creates in `noDriverWorld`. -/
def noDriverBot : Bot :=
  { pw := false, browser := false, page := false, headless := false,
    email := "x", password := "x", running := false }

/-- The selector of a visibility probe of, an audit record for, or a click on a
`page.Locator(selector)`. -/
def Act.selector : Act → Option String
  | Act.waitFor (Loc.css s) _ => some s
  | Act.click (Loc.css s) _ => some s
  | Act.logButtonClick _ s _ => some s
  | _ => none

/-- Whether a call is a visibility probe of, an audit record for, or a click on one of the
given candidate selectors. -/
def Act.addresses (candidates : List String) (a : Act) : Bool :=
  match a.selector with
  | some s => decide (s ∈ candidates)
  | none => false

/-- A call of the camera step: it addresses a camera candidate. -/
def isCameraCall (a : Act) : Bool := a.addresses cameraSelectors

/-- A call of the microphone step: it addresses a microphone candidate. -/
def isMicCall (a : Act) : Bool := a.addresses micSelectors

/-- A call of the camera or of the microphone step. -/
def isCameraMicCall (a : Act) : Bool := isCameraCall a || isMicCall a

/-- A call on a join / ask-to-join candidate. -/
def isJoinCall (a : Act) : Bool := a.addresses joinSelectors

/-- A history without its camera and microphone calls. -/
def withoutCameraMic (t : List Act) : List Act := t.filter (fun a => !isCameraMicCall a)

/-- Two worlds that differ only in the camera and microphone steps: they give the same
answer to every other call, whatever camera and microphone calls the history holds. -/
def Agree (w1 w2 : World) : Prop :=
  ∀ h1 h2 a, isCameraMicCall a = false → withoutCameraMic h1 = withoutCameraMic h2 →
    w1.resp h1 a = w2.resp h2 a

/-- A computation whose runs only issue calls in `P`, only return values in `Q`, do not
panic when `safe` holds, and give the same outcome in any two worlds that differ only in
the camera and microphone steps. -/
structure Tame {α : Type} (safe : Prop) (P : Act → Prop) (Q : α → Prop) (m : M α) : Prop where
  emits : ∀ w t, ∃ ext, (m w t).2 = t ++ ext ∧ ∀ a ∈ ext, P a
  post : ∀ w t x, (m w t).1 = Outcome.ret x → Q x
  returns : safe → ∀ w t, (m w t).1 ≠ Outcome.panic
  sim : ∀ w1 w2, Agree w1 w2 → ∀ h1 h2, withoutCameraMic h1 = withoutCameraMic h2 →
    (m w1 h1).1 = (m w2 h2).1 ∧
    withoutCameraMic (m w1 h1).2 = withoutCameraMic (m w2 h2).2

/-- A call outside the camera, microphone and join steps. -/
def isPlainCall (a : Act) : Bool := !isJoinCall a && !isCameraMicCall a

/-- A selector that is neither a join, nor a camera, nor a microphone candidate. -/
def isPlainSelector (s : String) : Bool :=
  decide (s ∉ joinSelectors ++ (cameraSelectors ++ micSelectors))

/-- Among the calls issued after the history `t` there is a click on one of the
candidates, issued through `Locator.Click()`, that succeeded. -/
def clickSucceeded (candidates : List String) (w : World) (t calls : List Act) : Prop :=
  ∃ pre s post, calls = pre ++ Act.click (Loc.css s) none :: post ∧ s ∈ candidates ∧
    (w.resp (t ++ pre) (Act.click (Loc.css s) none)).err = none

/-- A world in which every call succeeds with zero values: no popup matches, the page is
not the sign-in page, and every control is visible and clickable. -/
def allOkWorld : World := scriptWorld (fun _ => true)

/-- A world in which the camera and microphone controls never resolve and every other call
succeeds as in `allOkWorld`. -/
def noCameraMicWorld : World := scriptWorld (fun a => !isCameraMicCall a)

/-- The first URL wait of the outcome phase of `GoogleLogin`. -/
def urlWait1 : Act := Act.waitForURL "**/myaccount.google.com/**" 3000

/-- The second URL wait of the outcome phase of `GoogleLogin`. -/
def urlWait2 : Act := Act.waitForURL "**/accounts.google.com/signin/oauth/**" 2000

/-- The probe of the first success indicator of `GoogleLogin`. -/
def welcomeProbe : Act := Act.waitFor (Loc.css "text=Welcome") 5000

/-- The probe of the second success indicator of `GoogleLogin`. -/
def emailProbe : Act := Act.waitFor (Loc.css "[data-email]") 5000

/-- The probe of the inline error element of `GoogleLogin`. -/
def errorProbe : Act := Act.waitFor (Loc.css "[jsname='B34EJ'] span") 2000

/-- The read of the text of the inline error element of `GoogleLogin`. -/
def errorTextRead : Act := Act.textContent (Loc.css "[jsname='B34EJ'] span")

/-- In the outcome phase entered after the history `t`, neither URL wait succeeds. -/
def neitherUrlWaitSucceeds (w : World) (t : List Act) : Bool :=
  w.fails t urlWait1 && w.fails (t ++ [urlWait1]) urlWait2

/-- In the outcome phase entered after the history `t`, no success indicator becomes
visible, the URL waits having failed. -/
def noSuccessIndicator (w : World) (t : List Act) : Bool :=
  w.fails (t ++ [urlWait1, urlWait2]) welcomeProbe &&
    w.fails (t ++ [urlWait1, urlWait2, welcomeProbe]) emailProbe

/-- The current URL read in the outcome phase, the waits and probes having failed. -/
def currentUrlRead (w : World) (t : List Act) : String :=
  (w.resp (t ++ [urlWait1, urlWait2, welcomeProbe, emailProbe]) Act.url).s

/-- A URL that says nothing about the login: it is empty, or it contains the sign-in path
segment and neither the account domain nor the OAuth continuation. -/
def urlInconclusive (u : String) : Bool :=
  u = "" || (stringsContains u "signin/v2/identifier" &&
    !stringsContains u "myaccount.google.com" &&
    !stringsContains u "accounts.google.com/signin/oauth")

/-- In the outcome phase, the inline error element is visible, everything before having
been inconclusive. -/
def inlineErrorVisible (w : World) (t : List Act) : Bool :=
  !w.fails (t ++ [urlWait1, urlWait2, welcomeProbe, emailProbe, Act.url]) errorProbe

/-- The text of the inline error element read in the outcome phase. -/
def inlineErrorText (w : World) (t : List Act) : String :=
  (w.resp (t ++ [urlWait1, urlWait2, welcomeProbe, emailProbe, Act.url, errorProbe])
    errorTextRead).s

/-- A world in which the sign-in page stays on the identifier URL and shows the inline
error "Wrong password", every wait for another page or success indicator failing. -/
def wrongPasswordWorld : World :=
  { resp := fun _ a =>
      match a with
      | Act.waitForURL _ _ => Resp.failure "timeout"
      | Act.waitFor (Loc.css "text=Welcome") _ => Resp.failure "timeout"
      | Act.waitFor (Loc.css "[data-email]") _ => Resp.failure "timeout"
      | Act.url => { Resp.success with s := "https://accounts.google.com/signin/v2/identifier" }
      | Act.textContent _ => { Resp.success with s := "Wrong password" }
      | _ => Resp.success }

/-- The keyboard shortcut of `LeaveMeeting`. -/
def leaveShortcut : Act := Act.keyboardPress "Control+d"

/-- A call of the exit confirmation of `LeaveMeeting`: a probe of an exit indicator, or
the read of the final URL. -/
def isExitCheck : Act → Bool
  | Act.waitFor (Loc.css s) timeout => decide (timeout = 5000 ∧ s ∈ exitSelectors)
  | Act.url => true
  | _ => false

/-- A meeting page without any leave button, on which key presses work. -/
def noLeaveButtonWorld : World :=
  scriptWorld (fun a => match a with
    | Act.waitFor _ _ => false
    | _ => true)

/-- The page of `noLeaveButtonWorld` on which, in addition, every exit indicator shows. -/
def exitShownWorld : World :=
  scriptWorld (fun a => isExitCheck a || match a with
    | Act.waitFor _ _ => false
    | _ => true)

/-- A relay on which everything succeeds: a waveform of the given bytes, a pipe with a
reader, and reads that hand out at most `limit` bytes. -/
def relayEnv (wav : List Nat) (limit : Nat) : AudioEnv :=
  { synthesis := fun _ => none, openWav := none, wav := wav, seekWav := none,
    pipeMissing := false, openPipe := none, errnoText := fun _ => "errno",
    readLimit := fun _ => limit, readError := fun _ => none, writeError := fun _ => none }

/-- The relay of `relayEnv` whose pipe open fails with the given errno. -/
def blockedRelayEnv (errno : Nat) : AudioEnv :=
  { relayEnv (List.range 50) 8192 with openPipe := some errno }

/-- A lookup of a catalogue pattern, `page.Locator(selector).All()`. -/
def isLookup : Act → Bool
  | Act.all _ => true
  | _ => false

/-- A click on an element, whatever its locator and options. -/
def isClick : Act → Bool
  | Act.click _ _ => true
  | _ => false

/-- The answer to `IsVisible()` that lets `ClearPopups` go on to the click: no error, and
the value `true`. -/
def reportedVisible (r : Resp) : Prop := r.err = none ∧ r.b = true

/-- The click of `ClearPopups` on an element, with its timeout of one second. -/
def popupClick (l : Loc) : Act := Act.click l (some 1000)

/-- The settle delay of `ClearPopups` after a click. -/
def settleDelay : Act := Act.sleep 500

/-- The delay that ends `ClearPopups`. -/
def finalDelay : Act := Act.sleep 1000

/-- The order of the calls issued after the history `t` by a popup sweep: a visibility
check is directly followed by the click on its element exactly when the element was
reported visible; a click carries the one-second timeout, directly follows the visibility
check of its element, and is directly followed by the settle delay exactly when it
succeeded; a delay lasts 500 ms and directly follows a click. -/
def popupDiscipline (w : World) (t calls : List Act) : Prop :=
  (∀ pre l post, calls = pre ++ Act.isVisible l :: post →
    (reportedVisible (w.resp (t ++ pre) (Act.isVisible l)) ↔
      post.head? = some (popupClick l))) ∧
  (∀ pre l timeout post, calls = pre ++ Act.click l timeout :: post →
    timeout = some 1000 ∧ pre.getLast? = some (Act.isVisible l) ∧
    ((w.resp (t ++ pre) (Act.click l timeout)).err = none ↔
      post.head? = some settleDelay)) ∧
  (∀ pre ms post, calls = pre ++ Act.sleep ms :: post →
    ms = 500 ∧ ∃ l, pre.getLast? = some (popupClick l))

/-- The elements checked by a popup sweep after the history `t`: a visibility check is on
an element that a successful earlier lookup of the sweep returned, and every element
returned by a successful lookup is checked after that lookup and before the next one. -/
def sweepCoverage (w : World) (t calls : List Act) : Prop :=
  (∀ pre l post, calls = pre ++ Act.isVisible l :: post →
    ∃ s i pre0 mid, l = Loc.nth s i ∧ pre = pre0 ++ Act.all s :: mid ∧
      (w.resp (t ++ pre0) (Act.all s)).err = none ∧
      i < (w.resp (t ++ pre0) (Act.all s)).n.toNat) ∧
  (∀ pre s post, calls = pre ++ Act.all s :: post →
    (w.resp (t ++ pre) (Act.all s)).err = none →
    ∀ i, i < (w.resp (t ++ pre) (Act.all s)).n.toNat →
      ∃ mid post2, post = mid ++ Act.isVisible (Loc.nth s i) :: post2 ∧
        ∀ a ∈ mid, isLookup a = false)

/-- No new popup appears after the history `t`: an element that a lookup returns, or that
is reported visible, at some moment was already so at every earlier moment since `t`. -/
def noNewPopups (w : World) (t : List Act) : Prop :=
  ∀ h ext s i,
    (((w.resp (t ++ h ++ ext) (Act.all s)).err = none ∧
        i < (w.resp (t ++ h ++ ext) (Act.all s)).n.toNat) →
      ((w.resp (t ++ h) (Act.all s)).err = none ∧
        i < (w.resp (t ++ h) (Act.all s)).n.toNat)) ∧
    (reportedVisible (w.resp (t ++ h ++ ext) (Act.isVisible (Loc.nth s i))) →
      reportedVisible (w.resp (t ++ h) (Act.isVisible (Loc.nth s i))))

/-- Every element clicked among the calls issued after the history `t` is gone for good
once it has been clicked, whatever the click returned: it is never again reported
visible. -/
def clicksDismiss (w : World) (t calls : List Act) : Prop :=
  ∀ pre l post, calls = pre ++ popupClick l :: post →
    ∀ ext, ¬ reportedVisible (w.resp (t ++ pre ++ popupClick l :: ext) (Act.isVisible l))

/-- The one popup of `popupWorld` and `stuckWorld`: the first element matching the
`Got it` pattern of the catalogue. -/
def gotItPopup : Loc := Loc.nth "button:has-text('Got it')" 0

/-- A page with one popup, which a click dismisses: the `Got it` pattern matches one
element, visible until it has been clicked; every call succeeds. -/
def popupWorld : World :=
  { resp := fun h a =>
      match a with
      | Act.all s => { Resp.success with n := if s = "button:has-text('Got it')" then 1 else 0 }
      | Act.isVisible l =>
        { Resp.success with b := decide (l = gotItPopup) && !(h.contains (popupClick gotItPopup)) }
      | _ => Resp.success }

/-- A page that never changes, with one popup that cannot be dismissed: the `Got it`
pattern matches one element, always visible, and every click on it times out. -/
def stuckWorld : World :=
  { resp := fun _ a =>
      match a with
      | Act.all s => { Resp.success with n := if s = "button:has-text('Got it')" then 1 else 0 }
      | Act.isVisible l => { Resp.success with b := decide (l = gotItPopup) }
      | Act.click _ _ => Resp.failure "timeout"
      | _ => Resp.success }

/-- The calls of one sweep of `ClearPopups` in `stuckWorld`: the popup is checked and
clicked, and the click fails. -/
def stuckSweep : List Act :=
  (popupSelectors.take 5).map Act.all ++ [Act.isVisible gotItPopup, popupClick gotItPopup] ++
    (popupSelectors.drop 5).map Act.all ++ [finalDelay]

/-- The calls of the first sweep of `ClearPopups` in `popupWorld`: the popup is checked,
clicked and dismissed. -/
def popupFirstSweep : List Act :=
  (popupSelectors.take 5).map Act.all ++
    [Act.isVisible gotItPopup, popupClick gotItPopup, settleDelay] ++
    (popupSelectors.drop 5).map Act.all ++ [finalDelay]

/-- The calls of a later sweep of `ClearPopups` in `popupWorld`: the popup is checked and
found hidden. -/
def popupIdleSweep : List Act :=
  (popupSelectors.take 5).map Act.all ++ [Act.isVisible gotItPopup] ++
    (popupSelectors.drop 5).map Act.all ++ [finalDelay]

/-- Every `Click()` on a selector among the calls directly follows the audit record of
`logButtonClick` for that selector. -/
def clicksLogged (calls : List Act) : Prop :=
  ∀ pre s timeout post, calls = pre ++ Act.click (Loc.css s) timeout :: post →
    ∃ pre2 action context, pre = pre2 ++ [Act.logButtonClick action s context]

/-- Every typing into a password candidate among the calls issued after the history `t`
directly follows the visibility wait and the count of that candidate, of which the wait
succeeded and the count reported at most one element. -/
def passwordChecked (w : World) (t calls : List Act) : Prop :=
  ∀ pre s text delay post,
    calls = pre ++ Act.pressSequentially (Loc.css s) text delay :: post →
    s ∈ passwordSelectors →
    ∃ pre2, pre = pre2 ++ [Act.waitFor (Loc.css s) 800, Act.count (Loc.css s)] ∧
      (w.resp (t ++ pre2) (Act.waitFor (Loc.css s) 800)).err = none ∧
      (w.resp (t ++ pre2 ++ [Act.waitFor (Loc.css s) 800]) (Act.count (Loc.css s))).n ≤ 1

/-- The probe that follows the rejection of a password candidate, given the candidates
after it: the wait for the next candidate, or for the label-based fallback. -/
def followUp : List String → Act
  | [] => Act.waitFor (Loc.label "Enter your password") 1000
  | s :: _ => Act.waitFor (Loc.css s) 800

/-- What directly follows each count among the calls issued after the history `t`: when
the count reported more than one element, the probe of the next password candidate (or of
the fallback); otherwise the typing of the password into the counted selector. -/
def countVerdict (b : Bot) (w : World) (t calls : List Act) : Prop :=
  ∀ pre s post, calls = pre ++ Act.count (Loc.css s) :: post →
    if (w.resp (t ++ pre) (Act.count (Loc.css s))).n > 1 then
      ∃ before after, passwordSelectors = before ++ s :: after ∧
        post.head? = some (followUp after)
    else post.head? = some (Act.pressSequentially (Loc.css s) b.password 50)

/-- The three orders kept by the calls of the login, join and microphone operations. -/
def Orderly (b : Bot) (w : World) (t calls : List Act) : Prop :=
  clicksLogged calls ∧ passwordChecked w t calls ∧ countVerdict b w t calls

/-- A call that none of the three orders of `Orderly` speaks about. -/
def isLoose : Act → Bool
  | Act.click (Loc.css _) _ => false
  | Act.pressSequentially (Loc.css s) _ _ => decide (s ∉ passwordSelectors)
  | Act.count (Loc.css _) => false
  | _ => true

/-- A computation that returns in every world, with a value in `Q`, after calls that keep
the three orders. -/
def Traced (b : Bot) {α : Type} (Q : α → Prop) (m : M α) : Prop :=
  ∀ w t, ∃ x calls, m w t = (Outcome.ret x, t ++ calls) ∧ Q x ∧ Orderly b w t calls

/-- The audit record written by `logButtonClick`. -/
def isLogRecord : Act → Bool
  | Act.logButtonClick _ _ _ => true
  | _ => false

/-- The first password candidate of `GoogleLogin`. -/
def firstPasswordSelector : String := "input[name='Passwd']"

/-- A world in which `Count()` on the first password candidate fails and every other call
succeeds with zero values. -/
def countFailsWorld : World :=
  scriptWorld (fun a => decide (a ≠ Act.count (Loc.css firstPasswordSelector)))

/-- The calls of `GoogleLogin` in `allOkWorld` and in `countFailsWorld`. -/
def loginCalls : List Act := [
  Act.goto
    "https://accounts.google.com/signin/v2/identifier?flowName=GlifWebSignIn&flowEntry=ServiceLogin"
    "networkidle" none,
  Act.waitFor (Loc.css "input#identifierId") 1000,
  Act.pressSequentially (Loc.css "input#identifierId") readyBot.email 50,
  Act.waitFor (Loc.css "div#identifierNext") 1000,
  Act.logButtonClick "CLICK_EMAIL_NEXT" "div#identifierNext" "Google Login - Email Step",
  Act.click (Loc.css "div#identifierNext") none,
  Act.waitForLoadState "networkidle",
  Act.waitFor (Loc.css firstPasswordSelector) 800,
  Act.count (Loc.css firstPasswordSelector),
  Act.pressSequentially (Loc.css firstPasswordSelector) readyBot.password 50,
  Act.waitFor (Loc.css "div#passwordNext") 2000,
  Act.logButtonClick "CLICK_PASSWORD_NEXT" "div#passwordNext" "Google Login - Password Step",
  Act.click (Loc.css "div#passwordNext") none,
  Act.waitForURL "**/myaccount.google.com/**" 3000]

/-- What one line of the file `.env` passes to `os.Setenv`, in the words of the
specification: a line whose trimmed text is not empty, does not start with `#` and holds an
`=` gives one call, with the trimmed text before the first `=` as key and, as value, the
trimmed text after the first `=` without its surrounding quotes when it reads `q inner q`
for a quote `q` that is `"` or `'`, and unchanged otherwise; a blank line, a comment line
and a line without `=` give no call. -/
def lineSets (text : List Char) (calls : List Act) : Prop :=
  (∀ before after, trimSpace text = before ++ '=' :: after → '=' ∉ before →
    (trimSpace text).head? ≠ some '#' →
    ∃ value, calls = [Act.setenv (String.mk (trimSpace before)) (String.mk value)] ∧
      (∀ q inner, (q = doubleQuote ∨ q = singleQuote) →
        trimSpace after = q :: (inner ++ [q]) → value = inner) ∧
      ((¬ ∃ q inner, (q = doubleQuote ∨ q = singleQuote) ∧
        trimSpace after = q :: (inner ++ [q])) → value = trimSpace after)) ∧
  ((trimSpace text = [] ∨ (trimSpace text).head? = some '#' ∨ '=' ∉ trimSpace text) →
    calls = [])

/-- The lines of a text that the scanner of `loadEnv` delivers: those before the first
line of `bufio.MaxScanTokenSize` bytes or more, without their line ends. -/
def scannedLines (text : String) : List (List Char) :=
  ((rawLines text.toList []).takeWhile (fun piece => !tokenTooLong piece)).map dropCR

/-- The value of `scanner.Err()` after the scan of a text. -/
def scanError (text : String) : Option String :=
  if (rawLines text.toList []).any tokenTooLong then some "bufio.Scanner: token too long"
  else none

/-- A world whose file `.env` holds the given text, in which `os.Setenv` rejects the empty
key and every other call succeeds. -/
def envWorld (text : String) : World :=
  { resp := fun _ a =>
      match a with
      | Act.loadEnv => { Resp.success with s := text }
      | Act.setenv key _ => if key = "" then Resp.failure "invalid argument" else Resp.success
      | _ => Resp.success }

/-- A file `.env` whose first line has 65536 bytes and whose second line is `A=1`. -/
def longEnv : String := String.mk (List.replicate 65536 'x' ++ lineFeed :: "A=1".toList)

/-- A file `.env` with a quoted value, a comment, a line without `=` and, on a line that
ends with a carriage return, a value with a quote on one side only. -/
def sampleEnv : String := " KEY = 'v=1' \n# note\nPLAIN\nB=\"2\r\n"

/-! ## Running computations -/

@[simp] theorem run_pure {α : Type} (a : α) (w : World) (t : List Act) :
    (pure a : M α) w t = (Outcome.ret a, t) := rfl

@[simp] theorem run_bind {α β : Type} (m : M α) (f : α → M β) (w : World) (t : List Act) :
    (m >>= f) w t = M.bind m f w t := rfl

theorem bind_ret {α β : Type} (m : M α) (f : α → M β) (w : World) (t t1 : List Act) (a : α)
    (h : m w t = (Outcome.ret a, t1)) : M.bind m f w t = f a w t1 := by
  simp [M.bind, h]

theorem bind_panic {α β : Type} (m : M α) (f : α → M β) (w : World) (t t1 : List Act)
    (h : m w t = (Outcome.panic, t1)) : M.bind m f w t = (Outcome.panic, t1) := by
  simp [M.bind, h]

@[simp] theorem run_call (a : Act) (w : World) (t : List Act) :
    call a w t = (Outcome.ret (w.resp t a), t ++ [a]) := rfl

@[simp] theorem run_throwPanic {α : Type} (w : World) (t : List Act) :
    (throwPanic : M α) w t = (Outcome.panic, t) := rfl

theorem run_pageCall (b : Bot) (a : Act) (w : World) (t : List Act) (h : b.page = true) :
    pageCall b a w t = (Outcome.ret (w.resp t a), t ++ [a]) := by
  simp [pageCall, h]

theorem run_pageCall_nil (b : Bot) (a : Act) (w : World) (t : List Act) (h : b.page = false) :
    pageCall b a w t = (Outcome.panic, t) := by
  simp [pageCall, h]

/-! ## The element resolver -/

/-- C1: in every run in which some selector's visibility wait succeeds, `findElementFast`
returns, without error, the first selector in list order whose wait succeeds, and the
probes it issued are exactly those of the selectors up to and including that one. -/
theorem findElementFast_first_visible (w : World) (b : Bot) (timeout : Int)
    (pre : List String) (s : String) (post : List String) (t : List Act)
    (hpage : b.page = true)
    (hpre : ∀ p1 x p2, pre = p1 ++ x :: p2 →
      (w.resp (t ++ probes timeout p1) (Act.waitFor (Loc.css x) timeout)).err ≠ none)
    (hs : (w.resp (t ++ probes timeout pre) (Act.waitFor (Loc.css s) timeout)).err = none) :
    findElementFast b (pre ++ s :: post) timeout w t =
      (Outcome.ret (s, none), t ++ probes timeout (pre ++ [s])) := by
  induction pre generalizing t with
  | nil =>
    simp only [List.nil_append, findElementFast, run_bind]
    rw [bind_ret _ _ _ _ _ _ (run_pageCall b _ w t hpage)]
    simp only [probes, List.map_nil, List.append_nil] at hs
    simp [hs, probes]
  | cons a rest ih =>
    have ha := hpre [] a rest rfl
    simp only [probes, List.map_nil, List.append_nil] at ha
    simp only [List.cons_append, findElementFast, run_bind]
    rw [bind_ret _ _ _ _ _ _ (run_pageCall b _ w t hpage)]
    obtain ⟨e, he⟩ := Option.ne_none_iff_exists'.mp ha
    simp only [he, List.append_eq]
    rw [ih (t ++ [Act.waitFor (Loc.css a) timeout])]
    · simp [probes]
    · intro p1 x p2 h
      have := hpre (a :: p1) x p2 (by simp [h])
      simpa [probes] using this
    · simpa [probes] using hs

/-- Witness of C1: with only the second camera candidate visible, the resolver returns it
after two probes. -/
theorem findElementFast_first_visible_witness :
    findElementFast readyBot cameraSelectors 1000 cameraWorld [] =
      (Outcome.ret ("button[aria-label*='camera']", none),
        [Act.waitFor (Loc.css "div[data-tooltip*='camera']") 1000,
         Act.waitFor (Loc.css "button[aria-label*='camera']") 1000]) :=
  findElementFast_first_visible cameraWorld readyBot 1000
    ["div[data-tooltip*='camera']"] "button[aria-label*='camera']"
    ["div[aria-label*='Turn off camera']", "button[data-tooltip*='Turn off camera']"] [] rfl
    (by
      intro p1 x p2 h
      have hx : x ∈ ["div[data-tooltip*='camera']"] := by rw [h]; simp
      simp only [List.mem_singleton] at hx
      subst hx
      simp [cameraWorld, scriptWorld, Resp.failure])
    (by simp [cameraWorld, scriptWorld, Resp.success])

/-- C2: when no selector's visibility wait succeeds (the empty list included),
`findElementFast` returns the empty selector with the resolution-failure error, after
probing each selector exactly once, in order, with the given timeout; none of the calls
it issued is a click, typing or a key press. -/
theorem findElementFast_none_visible (w : World) (b : Bot) (timeout : Int)
    (selectors : List String) (t : List Act)
    (hpage : selectors = [] ∨ b.page = true)
    (hall : ∀ p1 x p2, selectors = p1 ++ x :: p2 →
      (w.resp (t ++ probes timeout p1) (Act.waitFor (Loc.css x) timeout)).err ≠ none) :
    findElementFast b selectors timeout w t =
      (Outcome.ret ("", some ("none of the selectors found an element within " ++
        toString timeout ++ "ms")), t ++ probes timeout selectors) ∧
    ∀ a ∈ probes timeout selectors, a.isInteraction = false := by
  refine ⟨?_, ?_⟩
  · induction selectors generalizing t with
    | nil => simp [findElementFast, probes]
    | cons a rest ih =>
      have hp : b.page = true := by
        rcases hpage with h | h
        · cases h
        · exact h
      have ha := hall [] a rest rfl
      simp only [probes, List.map_nil, List.append_nil] at ha
      obtain ⟨e, he⟩ := Option.ne_none_iff_exists'.mp ha
      simp only [findElementFast, run_bind]
      rw [bind_ret _ _ _ _ _ _ (run_pageCall b _ w t hp)]
      simp only [he]
      rw [ih (t ++ [Act.waitFor (Loc.css a) timeout]) (Or.inr hp)]
      · simp [probes]
      · intro p1 x p2 h
        have := hall (a :: p1) x p2 (by simp [h])
        simpa [probes] using this
  · intro a ha
    simp only [probes, List.mem_map] at ha
    obtain ⟨s, _, rfl⟩ := ha
    rfl

/-- Witness of C2: on a page where nothing is visible, the microphone candidates are
each probed once and the resolver reports the failure. -/
theorem findElementFast_none_visible_witness :
    findElementFast readyBot micSelectors 1000 deadWorld [] =
      (Outcome.ret ("", some ("none of the selectors found an element within " ++
        toString (1000 : Int) ++ "ms")), [] ++ probes 1000 micSelectors) ∧
    ∀ a ∈ probes 1000 micSelectors, a.isInteraction = false :=
  findElementFast_none_visible deadWorld readyBot 1000 micSelectors [] (Or.inr rfl)
    (by intro p1 x p2 _; simp [deadWorld, Resp.failure])

/-- C3: on a Bot whose `running` flag is false, `GoogleLogin`, `JoinGoogleMeet`,
`LeaveMeeting`, `EnableMicrophone`, `IsLoggedIn` and `TakeScreenshot` each return the
error "bot not initialized" and issue no call at all: the history is unchanged.  None of
them returns a modified Bot. -/
theorem not_running_precondition (w : World) (b : Bot) (meetingURL : String) (t : List Act)
    (h : b.running = false) :
    GoogleLogin b w t = (Outcome.ret (some "bot not initialized"), t) ∧
    JoinGoogleMeet b meetingURL w t = (Outcome.ret (some "bot not initialized"), t) ∧
    LeaveMeeting b w t = (Outcome.ret (some "bot not initialized"), t) ∧
    EnableMicrophone b w t = (Outcome.ret (some "bot not initialized"), t) ∧
    IsLoggedIn b w t = (Outcome.ret (false, some "bot not initialized"), t) ∧
    TakeScreenshot b w t = (Outcome.ret ([], some "bot not initialized"), t) := by
  refine ⟨?_, ?_, ?_, ?_, ?_, ?_⟩
  · simp [GoogleLogin, h]
  · simp [JoinGoogleMeet, h]
  · simp [LeaveMeeting, h]
  · simp [EnableMicrophone, h]
  · simp [IsLoggedIn, h]
  · simp [TakeScreenshot, h]

/-- Witness of C3: a Bot that was never initialized. -/
theorem not_running_precondition_witness :
    GoogleLogin freshBot deadWorld [] = (Outcome.ret (some "bot not initialized"), []) ∧
    JoinGoogleMeet freshBot "https://meet.google.com/abc-defg-hij" deadWorld [] =
      (Outcome.ret (some "bot not initialized"), []) ∧
    LeaveMeeting freshBot deadWorld [] = (Outcome.ret (some "bot not initialized"), []) ∧
    EnableMicrophone freshBot deadWorld [] = (Outcome.ret (some "bot not initialized"), []) ∧
    IsLoggedIn freshBot deadWorld [] = (Outcome.ret (false, some "bot not initialized"), []) ∧
    TakeScreenshot freshBot deadWorld [] =
      (Outcome.ret ([], some "bot not initialized"), []) :=
  not_running_precondition deadWorld freshBot "https://meet.google.com/abc-defg-hij" [] rfl

/-! ## The popup sweep on a Bot that is not running -/

/-- C4: `ClearPopups` does not check the `running` flag.  On a Bot that was created but
never initialized it panics at the first lookup, in any world, instead of returning a
precondition error, and so does `clearPopupsHandler`; on a Bot that was closed it looks
up all 29 catalogue patterns on the page. -/
theorem ClearPopups_ignores_running :
    freshBot.running = false ∧ closedBot.running = false ∧
    (∀ w t, ClearPopups freshBot w t = (Outcome.panic, t)) ∧
    (∀ w t, clearPopupsHandler (postRequest "") (some freshBot) w t = (Outcome.panic, t)) ∧
    ClearPopups closedBot deadWorld [] =
      (Outcome.ret (), popupSelectors.map Act.all ++ [Act.sleep 1000]) := by
  refine ⟨rfl, rfl, ?_, ?_, ?_⟩
  · intro w t
    rfl
  · intro w t
    rfl
  · rfl

/-! ## Initialization -/

theorem fullLaunch_ne_fallbackLaunch (b : Bot) : fullLaunch b ≠ fallbackLaunch b := by
  simp [fullLaunch, fallbackLaunch, launchArgs, fallbackArgs]

theorem fullLaunch_ne_sleep (b : Bot) (ms : Nat) : fullLaunch b ≠ Act.sleep ms := by
  simp [fullLaunch]

theorem fallbackLaunch_ne_sleep (b : Bot) (ms : Nat) : fallbackLaunch b ≠ Act.sleep ms := by
  simp [fallbackLaunch]

theorem launchLoop_zero (b : Bot) (attempt : Nat) (w : World) (h : List Act) :
    Initialize.launchLoop b 0 attempt w h = (Outcome.ret none, h) := rfl

theorem launchLoop_succ (b : Bot) (k attempt : Nat) (w : World) (h : List Act) :
    Initialize.launchLoop b (k + 1) attempt w h =
      (match (w.resp h (fullLaunch b)).err with
       | none => (Outcome.ret none, h ++ [fullLaunch b])
       | some _ =>
         if attempt < launchMaxRetries then
           Initialize.launchLoop b k (attempt + 1) w (h ++ [fullLaunch b, Act.sleep 2000])
         else
           match (w.resp (h ++ [fullLaunch b]) (fallbackLaunch b)).err with
           | some err => (Outcome.ret (some ("failed to launch chromium browser after " ++
               toString launchMaxRetries ++ " attempts and fallback: " ++ err)),
               h ++ [fullLaunch b, fallbackLaunch b])
           | none =>
             Initialize.launchLoop b k (attempt + 1) w (h ++ [fullLaunch b, fallbackLaunch b])) := by
  rw [Initialize.launchLoop]
  simp only [run_bind, M.bind, run_call]
  cases h1 : (w.resp h (fullLaunch b)).err with
  | none => simp
  | some e =>
    simp only []
    by_cases hlt : attempt < launchMaxRetries
    · simp [hlt, M.bind]
    · simp only [hlt, if_false, run_bind, M.bind, run_call]
      cases h2 : (w.resp (h ++ [fullLaunch b]) (fallbackLaunch b)).err with
      | none => simp
      | some e2 => simp

theorem Initialize_after_run (w : World) (b : Bot) (t : List Act)
    (hrun : (w.resp t Act.playwrightRun).err = none) :
    Initialize b w t =
      (match launchPhase b w t with
       | (Outcome.ret (some e), t1) => (Outcome.ret (some e, { b with pw := true }), t1)
       | (Outcome.ret none, t1) => Initialize.connect { b with pw := true } w t1
       | (Outcome.panic, t1) => (Outcome.panic, t1)) := by
  simp only [Initialize, run_bind, M.bind, run_call, hrun, launchPhase]
  split <;> rename_i heq <;> simp only [heq]
  split <;> simp

theorem Initialize_run_failed (w : World) (b : Bot) (t : List Act) (e : String)
    (hrun : (w.resp t Act.playwrightRun).err = some e) :
    Initialize b w t =
      (Outcome.ret (some ("failed to run playwright: " ++ e), b), t ++ [Act.playwrightRun]) := by
  simp [Initialize, M.bind, hrun]

theorem launchPhase_result (w : World) (b : Bot) (t : List Act) :
    ((launchPhase b w t).1 = Outcome.ret none ∧ launchFails b w t = false) ∨
    (∃ e, (launchPhase b w t).1 = Outcome.ret (some e) ∧ launchFails b w t = true) := by
  have hL : fullLaunch { b with pw := true } = fullLaunch b := rfl
  have hF : fallbackLaunch { b with pw := true } = fallbackLaunch b := rfl
  rcases Option.eq_none_or_eq_some
    (w.resp (t ++ [Act.playwrightRun]) (fullLaunch b)).err with h1 | ⟨e1, h1⟩ <;>
  rcases Option.eq_none_or_eq_some
    (w.resp (t ++ [Act.playwrightRun] ++ [fullLaunch b, Act.sleep 2000])
      (fullLaunch b)).err with h2 | ⟨e2, h2⟩ <;>
  rcases Option.eq_none_or_eq_some
    (w.resp (t ++ [Act.playwrightRun] ++ [fullLaunch b, Act.sleep 2000] ++
      [fullLaunch b, Act.sleep 2000]) (fullLaunch b)).err with h3 | ⟨e3, h3⟩ <;>
  rcases Option.eq_none_or_eq_some
    (w.resp (t ++ [Act.playwrightRun] ++ [fullLaunch b, Act.sleep 2000] ++
      [fullLaunch b, Act.sleep 2000] ++ [fullLaunch b]) (fallbackLaunch b)).err
    with h4 | ⟨e4, h4⟩ <;>
  simp only [List.append_assoc, List.cons_append, List.nil_append] at h2 h3 h4 <;>
  simp [launchFails, launchPhase, attemptFails, fallbackFails, beforeAttempt, World.fails,
    launchMaxRetries, launchLoop_succ, launchLoop_zero, hL, hF, h1, h2, h3, h4]

theorem Initialize_connect_eq (w : World) (b : Bot) (h : List Act) :
    Initialize.connect b w h =
      (if (w.resp (h ++ [Act.onDisconnected]) Act.isConnected).b = false then
        (Outcome.ret (some "browser disconnected immediately after launch",
          { b with browser := true }), h ++ [Act.onDisconnected, Act.isConnected])
      else match (w.resp (h ++ [Act.onDisconnected, Act.isConnected])
          (Act.newContext ["camera", "microphone"])).err with
        | some err => (Outcome.ret (some ("failed to create browser context: " ++ err),
            { b with browser := true }),
            h ++ [Act.onDisconnected, Act.isConnected, Act.newContext ["camera", "microphone"]])
        | none =>
          match (w.resp (h ++ [Act.onDisconnected, Act.isConnected,
              Act.newContext ["camera", "microphone"]]) Act.newPage).err with
          | some err => (Outcome.ret (some ("failed to create page: " ++ err),
              { b with browser := true }),
              h ++ [Act.onDisconnected, Act.isConnected,
                Act.newContext ["camera", "microphone"], Act.newPage])
          | none =>
            match (w.resp (h ++ [Act.onDisconnected, Act.isConnected,
                Act.newContext ["camera", "microphone"], Act.newPage]) probeNavigation).err with
            | some err => (Outcome.ret (some ("failed to navigate to test page: " ++ err),
                { b with browser := true }),
                h ++ [Act.onDisconnected, Act.isConnected,
                  Act.newContext ["camera", "microphone"], Act.newPage, probeNavigation])
            | none => (Outcome.ret (none,
                { b with browser := true, page := true, running := true }),
                h ++ [Act.onDisconnected, Act.isConnected,
                  Act.newContext ["camera", "microphone"], Act.newPage, probeNavigation])) := by
  simp only [Initialize.connect, run_bind, M.bind, run_call, List.append_assoc,
    List.cons_append, List.nil_append, probeNavigation]
  rcases Bool.eq_false_or_eq_true (w.resp (h ++ [Act.onDisconnected]) Act.isConnected).b
    with hc | hc
  · rcases Option.eq_none_or_eq_some (w.resp (h ++ [Act.onDisconnected, Act.isConnected])
      (Act.newContext ["camera", "microphone"])).err with hx | ⟨ex, hx⟩
    · rcases Option.eq_none_or_eq_some (w.resp (h ++ [Act.onDisconnected, Act.isConnected,
        Act.newContext ["camera", "microphone"]]) Act.newPage).err with hp | ⟨ep, hp⟩
      · rcases Option.eq_none_or_eq_some (w.resp (h ++ [Act.onDisconnected, Act.isConnected,
          Act.newContext ["camera", "microphone"], Act.newPage])
          (Act.goto "data:text/html,<html><body><h1>Browser Test</h1></body></html>"
            "load" (some 10000))).err with hg | ⟨eg, hg⟩
        · simp [hc, hx, hp, hg, M.bind]
        · simp [hc, hx, hp, hg, M.bind]
      · simp [hc, hx, hp, M.bind]
    · simp [hc, hx, M.bind]
  · simp [hc]

/-- C5: the launch phase of `Initialize`.  The full-option launch is attempted until its
first success and at most 3 times, a failed attempt other than the third being followed
by the 2 second delay; the fallback launch is invoked exactly once if all 3 attempts
failed and not at all otherwise; the phase fails exactly when the 3 attempts and the
fallback fail, and `Initialize` then returns its error, while it goes on with the
connection steps otherwise.  When the launch fails twice and then succeeds, the third
full-option attempt is the last call of the phase and the fallback is not invoked. -/
theorem Initialize_launch_policy (w : World) (b : Bot) (t : List Act)
    (hrun : (w.resp t Act.playwrightRun).err = none) :
    launchCalls b w t =
      (if !attemptFails b w t 0 then [fullLaunch b]
       else if !attemptFails b w t 1 then [fullLaunch b, Act.sleep 2000, fullLaunch b]
       else if !attemptFails b w t 2 then
         [fullLaunch b, Act.sleep 2000, fullLaunch b, Act.sleep 2000, fullLaunch b]
       else
         [fullLaunch b, Act.sleep 2000, fullLaunch b, Act.sleep 2000, fullLaunch b,
          fallbackLaunch b]) ∧
    (launchPhase b w t).2 = t ++ [Act.playwrightRun] ++ launchCalls b w t ∧
    (launchCalls b w t).count (fullLaunch b) ≤ 3 ∧
    (launchCalls b w t).count (fallbackLaunch b) =
      (if attemptFails b w t 0 && attemptFails b w t 1 && attemptFails b w t 2 then 1 else 0) ∧
    ((∃ e, (launchPhase b w t).1 = Outcome.ret (some e)) ↔
      (attemptFails b w t 0 = true ∧ attemptFails b w t 1 = true ∧
        attemptFails b w t 2 = true ∧ fallbackFails b w t = true)) ∧
    ((launchPhase b w t).1 = Outcome.ret none ↔
      ¬ (attemptFails b w t 0 = true ∧ attemptFails b w t 1 = true ∧
        attemptFails b w t 2 = true ∧ fallbackFails b w t = true)) ∧
    (∀ e, (launchPhase b w t).1 = Outcome.ret (some e) →
      Initialize b w t =
        (Outcome.ret (some e, { b with pw := true }), (launchPhase b w t).2)) ∧
    ((launchPhase b w t).1 = Outcome.ret none →
      Initialize b w t = Initialize.connect { b with pw := true } w (launchPhase b w t).2) ∧
    (attemptFails b w t 0 = true → attemptFails b w t 1 = true →
      attemptFails b w t 2 = false →
      (launchPhase b w t).1 = Outcome.ret none ∧
      launchCalls b w t =
        [fullLaunch b, Act.sleep 2000, fullLaunch b, Act.sleep 2000, fullLaunch b]) := by
  have hL : fullLaunch { b with pw := true } = fullLaunch b := rfl
  have hF : fallbackLaunch { b with pw := true } = fallbackLaunch b := rfl
  have hne := fullLaunch_ne_fallbackLaunch b
  have hne2 := fullLaunch_ne_sleep b 2000
  have hne3 := fallbackLaunch_ne_sleep b 2000
  rw [Initialize_after_run w b t hrun]
  rcases Option.eq_none_or_eq_some
    (w.resp (t ++ [Act.playwrightRun]) (fullLaunch b)).err with h1 | ⟨e1, h1⟩ <;>
  rcases Option.eq_none_or_eq_some
    (w.resp (t ++ [Act.playwrightRun] ++ [fullLaunch b, Act.sleep 2000])
      (fullLaunch b)).err with h2 | ⟨e2, h2⟩ <;>
  rcases Option.eq_none_or_eq_some
    (w.resp (t ++ [Act.playwrightRun] ++ [fullLaunch b, Act.sleep 2000] ++
      [fullLaunch b, Act.sleep 2000]) (fullLaunch b)).err with h3 | ⟨e3, h3⟩ <;>
  rcases Option.eq_none_or_eq_some
    (w.resp (t ++ [Act.playwrightRun] ++ [fullLaunch b, Act.sleep 2000] ++
      [fullLaunch b, Act.sleep 2000] ++ [fullLaunch b]) (fallbackLaunch b)).err
    with h4 | ⟨e4, h4⟩ <;>
  simp only [List.append_assoc, List.cons_append, List.nil_append] at h2 h3 h4 <;>
  simp [launchCalls, launchPhase, attemptFails, fallbackFails, beforeAttempt, World.fails,
    launchMaxRetries, launchLoop_succ, launchLoop_zero, hL, hF, h1, h2, h3, h4,
    List.count_cons, Ne.symm hne, Ne.symm hne2, Ne.symm hne3]

/-- Witness of C5: a launch that fails exactly twice and then succeeds. -/
theorem Initialize_launch_policy_witness :
    (launchPhase freshBot flakyLaunchWorld []).1 = Outcome.ret none ∧
    launchCalls freshBot flakyLaunchWorld [] =
      [fullLaunch freshBot, Act.sleep 2000, fullLaunch freshBot, Act.sleep 2000,
       fullLaunch freshBot] :=
  (Initialize_launch_policy flakyLaunchWorld freshBot [] rfl).2.2.2.2.2.2.2.2 rfl rfl rfl

/-- C6: on a Bot that is not running, `Initialize` always returns, and it returns an error
exactly when one of its sub-steps fails: the driver start, the browser launch (all three
full-option attempts and the fallback), the connection check, the context creation, the
page creation or the probe navigation.  When it returns an error the Bot is still not
running; the Bot is running afterwards exactly when `Initialize` returned nil. -/
theorem Initialize_error_iff (w : World) (b : Bot) (t : List Act) (hb : b.running = false) :
    ∃ r, (Initialize b w t).1 = Outcome.ret r ∧
      (r.1.isSome = (driverStartFails w t || launchFails b w t ||
        connectionCheckFails b w t || contextCreationFails b w t ||
        pageCreationFails b w t || probeNavigationFails b w t)) ∧
      (r.1.isSome = true → r.2.running = false) ∧
      (r.2.running = true ↔ r.1 = none) := by
  rcases Option.eq_none_or_eq_some (w.resp t Act.playwrightRun).err with hrun | ⟨e, hrun⟩
  · rw [Initialize_after_run w b t hrun]
    rcases launchPhase_result w b t with ⟨h1, h2⟩ | ⟨e, h1, h2⟩
    · have hp : launchPhase b w t = (Outcome.ret none, (launchPhase b w t).2) :=
        Prod.ext h1 rfl
      rw [hp]
      simp only []
      rw [Initialize_connect_eq]
      rcases Bool.eq_false_or_eq_true
        (w.resp ((launchPhase b w t).2 ++ [Act.onDisconnected]) Act.isConnected).b
        with hc | hc
      · rcases Option.eq_none_or_eq_some
          (w.resp ((launchPhase b w t).2 ++ [Act.onDisconnected, Act.isConnected])
          (Act.newContext ["camera", "microphone"])).err with hx | ⟨ex, hx⟩
        · rcases Option.eq_none_or_eq_some
            (w.resp ((launchPhase b w t).2 ++ [Act.onDisconnected, Act.isConnected,
            Act.newContext ["camera", "microphone"]]) Act.newPage).err with hq | ⟨eq, hq⟩
          · rcases Option.eq_none_or_eq_some
              (w.resp ((launchPhase b w t).2 ++ [Act.onDisconnected, Act.isConnected,
              Act.newContext ["camera", "microphone"], Act.newPage]) probeNavigation).err
              with hg | ⟨eg, hg⟩
            · simp [hc, hx, hq, hg, driverStartFails, connectionCheckFails,
                contextCreationFails, pageCreationFails, probeNavigationFails, afterLaunch,
                World.fails, hrun, h2]
            · simp [hc, hx, hq, hg, driverStartFails, connectionCheckFails,
                contextCreationFails, pageCreationFails, probeNavigationFails, afterLaunch,
                World.fails, hrun, h2, hb]
          · simp [hc, hx, hq, driverStartFails, connectionCheckFails,
              contextCreationFails, pageCreationFails, probeNavigationFails, afterLaunch,
              World.fails, hrun, h2, hb]
        · simp [hc, hx, driverStartFails, connectionCheckFails,
            contextCreationFails, pageCreationFails, probeNavigationFails, afterLaunch,
            World.fails, hrun, h2, hb]
      · simp [hc, driverStartFails, connectionCheckFails,
          contextCreationFails, pageCreationFails, probeNavigationFails, afterLaunch,
          World.fails, hrun, h2, hb]
    · have hp : launchPhase b w t = (Outcome.ret (some e), (launchPhase b w t).2) :=
        Prod.ext h1 rfl
      rw [hp]
      simp [h2, hb]
  · rw [Initialize_run_failed w b t e hrun]
    simp [driverStartFails, World.fails, hrun, hb]

/-- Witness of C6: a Bot from `NewBot` in a world where every call fails, so that the
driver start fails. -/
theorem Initialize_error_iff_witness :
    ∃ r, (Initialize freshBot deadWorld []).1 = Outcome.ret r ∧
      (r.1.isSome = (driverStartFails deadWorld [] || launchFails freshBot deadWorld [] ||
        connectionCheckFails freshBot deadWorld [] || contextCreationFails freshBot deadWorld [] ||
        pageCreationFails freshBot deadWorld [] || probeNavigationFails freshBot deadWorld [])) ∧
      (r.1.isSome = true → r.2.running = false) ∧
      (r.2.running = true ↔ r.1 = none) :=
  Initialize_error_iff deadWorld freshBot [] rfl

/-! ## Closing and the initialize request -/

/-- C7: when `browser.Close()` fails on a running Bot, `Close` returns that error before
it reaches `b.running = false`: it does not call `pw.Stop()`, the Bot is still running,
and a later `TakeScreenshot` passes the running check and takes a screenshot instead of
failing with "bot not initialized". -/
theorem Close_failure_keeps_running :
    Close readyBot closeFailsWorld [] =
      (Outcome.ret (some "timeout", readyBot), [Act.browserClose]) ∧
    readyBot.running = true ∧
    TakeScreenshot readyBot closeFailsWorld [Act.browserClose] =
      (Outcome.ret ([], none), [Act.browserClose, Act.screenshot false "jpeg" 80]) := by
  refine ⟨rfl, rfl, rfl⟩

/-- C8: when the driver cannot be started, a first initialize request stores the new Bot
in `globalBot`, fails in `Initialize` and answers 500; `globalBot` is then non-nil and not
running.  A second initialize request skips `NewBot` and `Initialize` and answers 200
"Bot initialized successfully" although the Bot is still not running. -/
theorem initBotHandler_success_without_ready :
    initBotHandler (postRequest "") none noDriverWorld [] =
      (Outcome.ret (httpError
        "Failed to initialize bot: failed to run playwright: driver missing" 500,
        some noDriverBot),
       [Act.pgrepKeepalive, Act.loadEnv, Act.getenv "GOOGLE_EMAIL",
        Act.getenv "GOOGLE_PASSWORD", Act.playwrightRun]) ∧
    noDriverBot.running = false ∧
    initBotHandler (postRequest "") (some noDriverBot) noDriverWorld
        [Act.pgrepKeepalive, Act.loadEnv, Act.getenv "GOOGLE_EMAIL",
         Act.getenv "GOOGLE_PASSWORD", Act.playwrightRun] =
      (Outcome.ret ({ status := 200, body := "Bot initialized successfully" },
        some noDriverBot),
       [Act.pgrepKeepalive, Act.loadEnv, Act.getenv "GOOGLE_EMAIL",
        Act.getenv "GOOGLE_PASSWORD", Act.playwrightRun, Act.pgrepKeepalive]) := by
  refine ⟨rfl, rfl, rfl⟩

/-! ## Composition rules for tame computations -/

theorem withoutCameraMic_append (t1 t2 : List Act) :
    withoutCameraMic (t1 ++ t2) = withoutCameraMic t1 ++ withoutCameraMic t2 := by
  simp [withoutCameraMic]

theorem withoutCameraMic_hidden (ext : List Act) (h : ∀ a ∈ ext, isCameraMicCall a = true) :
    withoutCameraMic ext = [] := by
  simp only [withoutCameraMic, List.filter_eq_nil_iff]
  intro a ha
  simp [h a ha]

theorem tame_pure {α : Type} {safe : Prop} {P : Act → Prop} {Q : α → Prop} (a : α)
    (hq : Q a) : Tame safe P Q (pure a : M α) where
  emits := fun w t => ⟨[], by simp, by simp⟩
  post := fun w t x hx => by
    simp only [run_pure, Outcome.ret.injEq] at hx
    exact hx ▸ hq
  returns := fun _ w t => by simp
  sim := fun w1 w2 _ h1 h2 he => by simp [he]

theorem tame_throwPanic {α : Type} {safe : Prop} {P : Act → Prop} {Q : α → Prop}
    (hs : ¬ safe) : Tame safe P Q (throwPanic : M α) where
  emits := fun w t => ⟨[], by simp, by simp⟩
  post := fun w t x hx => by simp at hx
  returns := fun h => absurd h hs
  sim := fun w1 w2 _ h1 h2 he => by simp [he]

theorem tame_call {safe : Prop} {P : Act → Prop} (a : Act)
    (hp : P a) (hc : isCameraMicCall a = false) : Tame safe P (fun _ => True) (call a) where
  emits := fun w t => ⟨[a], by simp, by simpa using hp⟩
  post := fun w t x _ => trivial
  returns := fun _ w t => by simp
  sim := fun w1 w2 hw h1 h2 he => by
    refine ⟨?_, ?_⟩
    · simp only [run_call, Outcome.ret.injEq]
      exact hw h1 h2 a hc he
    · simp only [run_call, withoutCameraMic_append, he]

theorem tame_pageCall {P : Act → Prop} (b : Bot) (a : Act)
    (hp : P a) (hc : isCameraMicCall a = false) :
    Tame (b.page = true) P (fun _ => True) (pageCall b a) := by
  unfold Meetbot.pageCall
  split
  · exact tame_call a hp hc
  · rename_i h
    exact tame_throwPanic h

theorem tame_bind {α β : Type} {safe : Prop} {P : Act → Prop} {Q : α → Prop} {R : β → Prop}
    {m : M α} {f : α → M β} (hm : Tame safe P Q m) (hf : ∀ x, Q x → Tame safe P R (f x)) :
    Tame safe P R (m >>= f) where
  emits := fun w t => by
    obtain ⟨e1, h1, hp1⟩ := hm.emits w t
    simp only [run_bind, M.bind]
    rcases hmr : m w t with ⟨o, t1⟩
    rw [hmr] at h1
    simp only at h1
    subst h1
    cases o with
    | panic => exact ⟨e1, rfl, hp1⟩
    | ret x =>
      have hq : Q x := hm.post w t x (by rw [hmr])
      obtain ⟨e2, h2, hp2⟩ := (hf x hq).emits w (t ++ e1)
      refine ⟨e1 ++ e2, ?_, ?_⟩
      · simp only [h2, List.append_assoc]
      · intro a ha
        rcases List.mem_append.mp ha with h | h
        · exact hp1 a h
        · exact hp2 a h
  post := fun w t y hy => by
    simp only [run_bind, M.bind] at hy
    rcases hmr : m w t with ⟨o, t1⟩
    rw [hmr] at hy
    cases o with
    | panic => simp at hy
    | ret x =>
      have hq : Q x := hm.post w t x (by rw [hmr])
      exact (hf x hq).post w t1 y hy
  returns := fun hs w t => by
    simp only [run_bind, M.bind]
    rcases hmr : m w t with ⟨o, t1⟩
    cases o with
    | panic => exact absurd (by rw [hmr]) (hm.returns hs w t)
    | ret x =>
      have hq : Q x := hm.post w t x (by rw [hmr])
      exact (hf x hq).returns hs w t1
  sim := fun w1 w2 hw h1 h2 he => by
    obtain ⟨hr, ht⟩ := hm.sim w1 w2 hw h1 h2 he
    simp only [run_bind, M.bind]
    rcases hm1 : m w1 h1 with ⟨o1, t1⟩
    rcases hm2 : m w2 h2 with ⟨o2, t2⟩
    rw [hm1, hm2] at hr ht
    simp only at hr ht
    subst hr
    cases o1 with
    | panic => exact ⟨rfl, ht⟩
    | ret x =>
      have hq : Q x := hm.post w1 h1 x (by rw [hm1])
      exact (hf x hq).sim w1 w2 hw t1 t2 ht

theorem tame_mono {α : Type} {safe : Prop} {P P2 : Act → Prop} {Q Q2 : α → Prop} {m : M α}
    (hm : Tame safe P Q m) (hP : ∀ a, P a → P2 a) (hQ : ∀ x, Q x → Q2 x) :
    Tame safe P2 Q2 m where
  emits := fun w t => by
    obtain ⟨e, h, hp⟩ := hm.emits w t
    exact ⟨e, h, fun a ha => hP a (hp a ha)⟩
  post := fun w t x hx => hQ x (hm.post w t x hx)
  returns := hm.returns
  sim := hm.sim

theorem isPlainCall_not_cameraMic (a : Act) (h : isPlainCall a = true) :
    isCameraMicCall a = false := by
  simp only [isPlainCall, Bool.and_eq_true, Bool.not_eq_true'] at h
  exact h.2

theorem isPlainCall_not_join (a : Act) (h : isPlainCall a = true) : isJoinCall a = false := by
  simp only [isPlainCall, Bool.and_eq_true, Bool.not_eq_true'] at h
  exact h.1

theorem tame_plainCall {safe : Prop} (a : Act) (h : isPlainCall a = true) :
    Tame safe (fun x => isPlainCall x = true) (fun _ => True) (call a) :=
  tame_call a h (isPlainCall_not_cameraMic a h)

theorem tame_plainPageCall (b : Bot) (a : Act) (h : isPlainCall a = true) :
    Tame (b.page = true) (fun x => isPlainCall x = true) (fun _ => True) (pageCall b a) :=
  tame_pageCall b a h (isPlainCall_not_cameraMic a h)

/-! ## The building blocks are tame -/

theorem firstVisible_tame (b : Bot) (P : Act → Prop) (timeout : Int) (selectors : List String)
    (h : ∀ s ∈ selectors, P (Act.waitFor (Loc.css s) timeout) ∧
      isCameraMicCall (Act.waitFor (Loc.css s) timeout) = false) :
    Tame (b.page = true) P (fun x => x = "" ∨ x ∈ selectors)
      (firstVisible b timeout selectors) := by
  induction selectors with
  | nil => exact tame_pure "" (Or.inl rfl)
  | cons s rest ih =>
    have hs := h s (List.mem_cons_self s rest)
    unfold firstVisible
    refine tame_bind (tame_pageCall b _ hs.1 hs.2) ?_
    intro r _
    split
    · exact tame_pure s (Or.inr (List.mem_cons_self s rest))
    · refine tame_mono (ih ?_) (fun _ hp => hp) ?_
      · intro x hx
        exact h x (List.mem_cons_of_mem s hx)
      · intro x hx
        rcases hx with hx | hx
        · exact Or.inl hx
        · exact Or.inr (List.mem_cons_of_mem s hx)

theorem anyVisible_tame (b : Bot) (P : Act → Prop) (timeout : Int) (selectors : List String)
    (h : ∀ s ∈ selectors, P (Act.waitFor (Loc.css s) timeout) ∧
      isCameraMicCall (Act.waitFor (Loc.css s) timeout) = false) :
    Tame (b.page = true) P (fun _ => True) (anyVisible b timeout selectors) := by
  induction selectors with
  | nil => exact tame_pure false trivial
  | cons s rest ih =>
    have hs := h s (List.mem_cons_self s rest)
    unfold anyVisible
    refine tame_bind (tame_pageCall b _ hs.1 hs.2) ?_
    intro r _
    split
    · exact tame_pure true trivial
    · exact ih (fun x hx => h x (List.mem_cons_of_mem s hx))

theorem clickWithLogging_tame (b : Bot) (P : Act → Prop) (selector action context : String)
    (hl : P (Act.logButtonClick action selector context) ∧
      isCameraMicCall (Act.logButtonClick action selector context) = false)
    (hc : P (Act.click (Loc.css selector) none) ∧
      isCameraMicCall (Act.click (Loc.css selector) none) = false) :
    Tame (b.page = true) P (fun _ => True) (clickWithLogging b selector action context) := by
  unfold clickWithLogging
  refine tame_bind (tame_call _ hl.1 hl.2) ?_
  intro _ _
  refine tame_bind (tame_pageCall b _ hc.1 hc.2) ?_
  intro r _
  exact tame_pure _ trivial

theorem ClearPopups_dismiss_tame (safe : Prop) (selector : String) (i : Nat) :
    Tame safe (fun x => isPlainCall x = true) (fun _ => True)
      (ClearPopups.dismiss selector i) := by
  unfold ClearPopups.dismiss
  refine tame_bind (tame_plainCall _ rfl) ?_
  intro v _
  split
  · exact tame_pure () trivial
  · refine tame_bind (tame_plainCall _ rfl) ?_
    intro c _
    split
    · exact tame_pure () trivial
    · refine tame_bind (tame_plainCall _ rfl) ?_
      intro _ _
      exact tame_pure () trivial

theorem ClearPopups_elements_tame (safe : Prop) (selector : String) (elements : List Nat) :
    Tame safe (fun x => isPlainCall x = true) (fun _ => True)
      (ClearPopups.elements selector elements) := by
  induction elements with
  | nil => exact tame_pure () trivial
  | cons i rest ih =>
    unfold ClearPopups.elements
    exact tame_bind (ClearPopups_dismiss_tame safe selector i) (fun _ _ => ih)

theorem ClearPopups_sweep_tame (b : Bot) (selectors : List String) :
    Tame (b.page = true) (fun x => isPlainCall x = true) (fun _ => True)
      (ClearPopups.sweep b selectors) := by
  induction selectors with
  | nil => exact tame_pure () trivial
  | cons s rest ih =>
    unfold ClearPopups.sweep
    refine tame_bind (tame_plainPageCall b _ rfl) ?_
    intro r _
    split
    · exact ih
    · exact tame_bind (ClearPopups_elements_tame _ s _) (fun _ _ => ih)

theorem ClearPopups_tame (b : Bot) :
    Tame (b.page = true) (fun x => isPlainCall x = true) (fun _ => True) (ClearPopups b) := by
  unfold ClearPopups
  refine tame_bind (ClearPopups_sweep_tame b popupSelectors) ?_
  intro _ _
  refine tame_bind (tame_plainCall _ rfl) ?_
  intro _ _
  exact tame_pure () trivial

theorem plain_of_selector (s : String) (h : isPlainSelector s = true) :
    (∀ timeout, isPlainCall (Act.waitFor (Loc.css s) timeout) = true) ∧
    (∀ timeout, isPlainCall (Act.click (Loc.css s) timeout) = true) ∧
    (∀ action context, isPlainCall (Act.logButtonClick action s context) = true) := by
  simp only [isPlainSelector, List.mem_append, not_or, decide_eq_true_eq] at h
  obtain ⟨hj, hc, hm⟩ := h
  simp [isPlainCall, isJoinCall, isCameraMicCall, isCameraCall, isMicCall, Act.addresses, Act.selector,
    hj, hc, hm]

theorem firstVisible_plain (b : Bot) (timeout : Int) (selectors : List String)
    (h : ∀ s ∈ selectors, isPlainSelector s = true) :
    Tame (b.page = true) (fun x => isPlainCall x = true)
      (fun x => x ≠ "" → isPlainSelector x = true) (firstVisible b timeout selectors) := by
  refine tame_mono (firstVisible_tame b _ timeout selectors ?_) (fun _ hp => hp) ?_
  · intro s hs
    have hp := (plain_of_selector s (h s hs)).1 timeout
    exact ⟨hp, isPlainCall_not_cameraMic _ hp⟩
  · intro x hx hne
    rcases hx with hx | hx
    · exact absurd hx hne
    · exact h x hx

theorem anyVisible_plain (b : Bot) (timeout : Int) (selectors : List String)
    (h : ∀ s ∈ selectors, isPlainSelector s = true) :
    Tame (b.page = true) (fun x => isPlainCall x = true) (fun _ => True)
      (anyVisible b timeout selectors) := by
  refine anyVisible_tame b _ timeout selectors ?_
  intro s hs
  have hp := (plain_of_selector s (h s hs)).1 timeout
  exact ⟨hp, isPlainCall_not_cameraMic _ hp⟩

theorem clickWithLogging_plain (b : Bot) (selector action context : String)
    (h : isPlainSelector selector = true) :
    Tame (b.page = true) (fun x => isPlainCall x = true) (fun _ => True)
      (clickWithLogging b selector action context) := by
  have hl := (plain_of_selector selector h).2.2 action context
  have hc := (plain_of_selector selector h).2.1 none
  exact clickWithLogging_tame b _ selector action context
    ⟨hl, isPlainCall_not_cameraMic _ hl⟩ ⟨hc, isPlainCall_not_cameraMic _ hc⟩

/-! ## The login automaton is tame -/

theorem passwordLoop_tame (b : Bot) (selectors : List String)
    (h : ∀ s ∈ selectors, isPlainSelector s = true) :
    Tame (b.page = true) (fun x => isPlainCall x = true) (fun _ => True)
      (GoogleLogin.passwordLoop b selectors) := by
  induction selectors with
  | nil => exact tame_pure "" trivial
  | cons s rest ih =>
    have hrest := ih (fun x hx => h x (List.mem_cons_of_mem s hx))
    unfold GoogleLogin.passwordLoop
    refine tame_bind (tame_plainPageCall b _
      ((plain_of_selector s (h s (List.mem_cons_self s rest))).1 800)) ?_
    intro r _
    split
    · exact hrest
    · refine tame_bind (tame_plainPageCall b _ rfl) ?_
      intro c _
      split
      · exact tame_pure _ trivial
      · split
        · exact hrest
        · exact tame_pure _ trivial

theorem GoogleLogin_outcome_tame (b : Bot) :
    Tame (b.page = true) (fun x => isPlainCall x = true) (fun _ => True)
      (GoogleLogin.outcome b) := by
  unfold GoogleLogin.outcome
  refine tame_bind (tame_plainPageCall b _ rfl) ?_
  intro r1 _
  split
  · exact tame_pure _ trivial
  · refine tame_bind (tame_plainPageCall b _ rfl) ?_
    intro r2 _
    split
    · exact tame_pure _ trivial
    · refine tame_bind (anyVisible_plain b 5000 successSelectors (by decide)) ?_
      intro found _
      split
      · exact tame_pure _ trivial
      · refine tame_bind (tame_plainPageCall b _ rfl) ?_
        intro u _
        dsimp only
        split
        · exact tame_pure _ trivial
        · refine tame_bind (tame_plainPageCall b _ (by decide)) ?_
          intro e _
          split
          · refine tame_bind (tame_plainCall _ rfl) ?_
            intro txt _
            exact tame_pure _ trivial
          · exact tame_pure _ trivial

theorem GoogleLogin_submit_tame (b : Bot) :
    Tame (b.page = true) (fun x => isPlainCall x = true) (fun _ => True)
      (GoogleLogin.submit b) := by
  unfold GoogleLogin.submit
  refine tame_bind (firstVisible_plain b 2000 nextButtonSelectors (by decide)) ?_
  intro nextButton hq
  split
  · rename_i hne
    refine tame_bind (clickWithLogging_plain b nextButton _ _ (hq hne)) ?_
    intro e _
    split
    · exact tame_pure _ trivial
    · exact GoogleLogin_outcome_tame b
  · refine tame_bind (tame_plainPageCall b _ rfl) ?_
    intro k _
    split
    · exact tame_pure _ trivial
    · exact GoogleLogin_outcome_tame b

theorem GoogleLogin_passwordStep_tame (b : Bot) :
    Tame (b.page = true) (fun x => isPlainCall x = true) (fun _ => True)
      (GoogleLogin.passwordStep b) := by
  unfold GoogleLogin.passwordStep
  refine tame_bind (passwordLoop_tame b passwordSelectors (by decide)) ?_
  intro passwordInput _
  split
  · refine tame_bind (tame_plainPageCall b _ rfl) ?_
    intro l _
    split
    · refine tame_bind (tame_plainCall _ rfl) ?_
      intro p _
      split
      · exact tame_pure _ trivial
      · exact GoogleLogin_submit_tame b
    · exact tame_pure _ trivial
  · refine tame_bind (tame_plainPageCall b _ rfl) ?_
    intro p _
    split
    · exact tame_pure _ trivial
    · exact GoogleLogin_submit_tame b

theorem GoogleLogin_tame (b : Bot) :
    Tame (b.page = true) (fun x => isPlainCall x = true) (fun _ => True) (GoogleLogin b) := by
  unfold GoogleLogin
  split
  · exact tame_pure _ trivial
  · refine tame_bind (tame_plainPageCall b _ rfl) ?_
    intro g _
    split
    · exact tame_pure _ trivial
    · refine tame_bind (firstVisible_plain b 1000 emailSelectors (by decide)) ?_
      intro emailInput _
      split
      · exact tame_pure _ trivial
      · refine tame_bind (tame_plainPageCall b _ rfl) ?_
        intro p _
        split
        · exact tame_pure _ trivial
        · refine tame_bind (firstVisible_plain b 1000 emailNextSelectors (by decide)) ?_
          intro emailNextButton hq
          split
          · exact tame_pure _ trivial
          · rename_i hne
            refine tame_bind (clickWithLogging_plain b emailNextButton _ _ (hq hne)) ?_
            intro e _
            split
            · exact tame_pure _ trivial
            · refine tame_bind (tame_plainPageCall b _ rfl) ?_
              intro _ _
              exact GoogleLogin_passwordStep_tame b

/-! ## The steps of `JoinGoogleMeet` are tame -/

theorem navigate_tame (b : Bot) (meetingURL : String) :
    Tame (b.page = true) (fun x => isPlainCall x = true) (fun _ => True)
      (JoinGoogleMeet.navigate b meetingURL) := by
  unfold JoinGoogleMeet.navigate
  refine tame_bind (tame_plainPageCall b _ rfl) ?_
  intro g _
  split
  · exact tame_pure _ trivial
  · refine tame_bind (tame_plainPageCall b _ rfl) ?_
    intro l _
    split
    · exact tame_pure _ trivial
    · refine tame_bind (tame_plainPageCall b _ rfl) ?_
      intro u _
      dsimp only
      split
      · refine tame_bind (GoogleLogin_tame b) ?_
        intro e _
        split
        · exact tame_pure _ trivial
        · refine tame_bind (tame_plainPageCall b _ rfl) ?_
          intro g2 _
          split
          · exact tame_pure _ trivial
          · exact tame_pure _ trivial
      · exact tame_pure _ trivial

theorem joinSelector_not_cameraMic (s : String) (hs : s ∈ joinSelectors) :
    (∀ timeout, isCameraMicCall (Act.waitFor (Loc.css s) timeout) = false) ∧
    (∀ timeout, isCameraMicCall (Act.click (Loc.css s) timeout) = false) ∧
    (∀ action context, isCameraMicCall (Act.logButtonClick action s context) = false) := by
  have h : ∀ x ∈ joinSelectors, x ∉ cameraSelectors ∧ x ∉ micSelectors := by decide
  obtain ⟨hc, hm⟩ := h s hs
  simp [isCameraMicCall, isCameraCall, isMicCall, Act.addresses, Act.selector, hc, hm]

theorem scan_tame (b : Bot) (retry : Nat) (selectors : List String)
    (h : ∀ s ∈ selectors, s ∈ joinSelectors) :
    Tame (b.page = true) (fun x => isCameraMicCall x = false) (fun _ => True)
      (JoinGoogleMeet.scan b retry selectors) := by
  induction selectors with
  | nil => exact tame_pure _ trivial
  | cons s rest ih =>
    have hrest := ih (fun x hx => h x (List.mem_cons_of_mem s hx))
    obtain ⟨hw, hc, hl⟩ := joinSelector_not_cameraMic s (h s (List.mem_cons_self s rest))
    unfold JoinGoogleMeet.scan
    refine tame_bind (tame_pageCall b _ (hw 1500) (hw 1500)) ?_
    intro r _
    split
    · exact hrest
    · refine tame_bind (clickWithLogging_tame b _ s _ _ ⟨hl _ _, hl _ _⟩
        ⟨hc none, hc none⟩) ?_
      intro e _
      split
      · split
        · exact hrest
        · exact tame_pure _ trivial
      · exact tame_pure _ trivial

theorem ClearPopups_notCameraMic (b : Bot) :
    Tame (b.page = true) (fun x => isCameraMicCall x = false) (fun _ => True)
      (ClearPopups b) :=
  tame_mono (ClearPopups_tame b) isPlainCall_not_cameraMic (fun _ h => h)

theorem joinLoop_tame (b : Bot) (k retry : Nat) :
    Tame (b.page = true) (fun x => isCameraMicCall x = false) (fun _ => True)
      (JoinGoogleMeet.joinLoop b k retry) := by
  induction k generalizing retry with
  | zero => exact tame_pure _ trivial
  | succ k ih =>
    unfold JoinGoogleMeet.joinLoop
    refine tame_bind (Q := fun _ => True) ?_ ?_
    · split
      · exact ClearPopups_notCameraMic b
      · exact tame_pure _ trivial
    · intro _ _
      refine tame_bind (scan_tame b retry joinSelectors (fun _ hs => hs)) ?_
      intro s _
      split
      · exact tame_pure _ trivial
      · exact ih (retry + 1)
      · exact tame_pure _ trivial

theorem join_tame (b : Bot) :
    Tame (b.page = true) (fun x => isCameraMicCall x = false) (fun _ => True)
      (JoinGoogleMeet.join b) := by
  unfold JoinGoogleMeet.join
  refine tame_bind (joinLoop_tame b joinMaxRetries 0) ?_
  intro j _
  split
  · exact tame_pure _ trivial
  · refine tame_bind (anyVisible_tame b _ 3000 meetingSelectors (by decide)) ?_
    intro _ _
    exact tame_pure _ trivial

/-! ## The join step -/

theorem tame_run {α : Type} {safe : Prop} {P : Act → Prop} {Q : α → Prop} {m : M α}
    (h : Tame safe P Q m) (hs : safe) (w : World) (t : List Act) :
    ∃ x ext, m w t = (Outcome.ret x, t ++ ext) ∧ Q x ∧ ∀ a ∈ ext, P a := by
  obtain ⟨ext, he, hp⟩ := h.emits w t
  have hr := h.returns hs w t
  rcases hm : m w t with ⟨o, t1⟩
  rw [hm] at he hr
  simp only at he hr
  subst he
  cases o with
  | panic => exact absurd rfl hr
  | ret x => exact ⟨x, ext, rfl, h.post w t x (by rw [hm]), hp⟩

theorem run_clickWithLogging (b : Bot) (hpage : b.page = true)
    (selector action context : String) (w : World) (t : List Act) :
    clickWithLogging b selector action context w t =
      (Outcome.ret (w.resp (t ++ [Act.logButtonClick action selector context])
        (Act.click (Loc.css selector) none)).err,
       t ++ [Act.logButtonClick action selector context, Act.click (Loc.css selector) none]) := by
  simp [clickWithLogging, M.bind, pageCall, hpage]

theorem clickSucceeded_shift (candidates : List String) (w : World) (t p calls : List Act)
    (h : clickSucceeded candidates w (t ++ p) calls) :
    clickSucceeded candidates w t (p ++ calls) := by
  obtain ⟨pre, s, post, hc, hs, hok⟩ := h
  refine ⟨p ++ pre, s, post, ?_, hs, ?_⟩
  · simp [hc]
  · simpa [List.append_assoc] using hok

theorem clickSucceeded_extend (candidates : List String) (w : World) (t calls q : List Act)
    (h : clickSucceeded candidates w t calls) :
    clickSucceeded candidates w t (calls ++ q) := by
  obtain ⟨pre, s, post, hc, hs, hok⟩ := h
  exact ⟨pre, s, post ++ q, by simp [hc], hs, hok⟩

theorem clickSucceeded_mono (c1 c2 : List String) (w : World) (t calls : List Act)
    (hsub : ∀ s ∈ c1, s ∈ c2) (h : clickSucceeded c1 w t calls) :
    clickSucceeded c2 w t calls := by
  obtain ⟨pre, s, post, hc, hs, hok⟩ := h
  exact ⟨pre, s, post, hc, hsub s hs, hok⟩

theorem scan_spec (w : World) (b : Bot) (retry : Nat) (hpage : b.page = true)
    (selectors : List String) :
    ∀ t, ∃ calls res, JoinGoogleMeet.scan b retry selectors w t = (Outcome.ret res, t ++ calls) ∧
      (res = ScanResult.found → clickSucceeded selectors w t calls) ∧
      (∀ s, calls.count (Act.waitFor (Loc.css s) 1500) ≤ selectors.count s) := by
  induction selectors with
  | nil =>
    intro t
    refine ⟨[], ScanResult.notFound, by simp [JoinGoogleMeet.scan], ?_, by simp⟩
    intro h
    cases h
  | cons a rest ih =>
    intro t
    unfold JoinGoogleMeet.scan
    simp only [run_bind]
    rw [bind_ret _ _ _ _ _ _ (run_pageCall b _ w t hpage)]
    have hcount : ∀ (calls : List Act) (s : String),
        calls.count (Act.waitFor (Loc.css s) 1500) ≤ rest.count s →
        (Act.waitFor (Loc.css a) 1500 :: calls).count (Act.waitFor (Loc.css s) 1500)
          ≤ (a :: rest).count s := by
      intro calls s h
      by_cases hs : a = s
      · subst hs
        simpa using h
      · have hne : Act.waitFor (Loc.css a) 1500 ≠ Act.waitFor (Loc.css s) 1500 := by
          simpa using hs
        rw [List.count_cons_of_ne (Ne.symm hne), List.count_cons_of_ne (Ne.symm hs)]
        exact h
    rcases Option.eq_none_or_eq_some
      (w.resp t (Act.waitFor (Loc.css a) 1500)).err with h1 | ⟨e1, h1⟩
    · simp only [h1, run_bind]
      rw [bind_ret _ _ _ _ _ _ (run_clickWithLogging b hpage _ _ _ w _)]
      rcases Option.eq_none_or_eq_some
        (w.resp (t ++ [Act.waitFor (Loc.css a) 1500] ++
          [Act.logButtonClick "JOIN_MEETING" a "Google Meet - Join Meeting"])
          (Act.click (Loc.css a) none)).err with h2 | ⟨e2, h2⟩
      · simp only [h2, run_pure]
        refine ⟨[Act.waitFor (Loc.css a) 1500,
          Act.logButtonClick "JOIN_MEETING" a "Google Meet - Join Meeting",
          Act.click (Loc.css a) none], ScanResult.found, by simp, ?_, ?_⟩
        · intro _
          exact ⟨[Act.waitFor (Loc.css a) 1500,
            Act.logButtonClick "JOIN_MEETING" a "Google Meet - Join Meeting"], a, [],
            by simp, List.mem_cons_self a rest, by simpa using h2⟩
        · intro s
          refine hcount _ s ?_
          simp
      · simp only [h2]
        by_cases hr : retry < joinMaxRetries - 1
        · simp only [hr, if_true]
          obtain ⟨calls, res, he, hf, hc⟩ := ih (t ++ [Act.waitFor (Loc.css a) 1500] ++
            [Act.logButtonClick "JOIN_MEETING" a "Google Meet - Join Meeting",
             Act.click (Loc.css a) none])
          refine ⟨[Act.waitFor (Loc.css a) 1500,
            Act.logButtonClick "JOIN_MEETING" a "Google Meet - Join Meeting",
            Act.click (Loc.css a) none] ++ calls, res,
            by simpa [List.append_assoc] using he, ?_, ?_⟩
          · intro hres
            refine clickSucceeded_shift _ w t _ calls ?_
            refine clickSucceeded_mono rest (a :: rest) w _ calls
              (fun s hs => List.mem_cons_of_mem a hs) ?_
            simpa [List.append_assoc] using hf hres
          · intro s
            refine hcount _ s ?_
            simpa [List.count_cons] using hc s
        · simp only [hr, if_false, run_pure]
          refine ⟨[Act.waitFor (Loc.css a) 1500,
            Act.logButtonClick "JOIN_MEETING" a "Google Meet - Join Meeting",
            Act.click (Loc.css a) none],
            ScanResult.fatal ("failed to click join button after " ++
              toString joinMaxRetries ++ " attempts: " ++ e2), by simp, ?_, ?_⟩
          · intro h
            cases h
          · intro s
            refine hcount _ s ?_
            simp
    · simp only [h1]
      obtain ⟨calls, res, he, hf, hc⟩ := ih (t ++ [Act.waitFor (Loc.css a) 1500])
      refine ⟨Act.waitFor (Loc.css a) 1500 :: calls, res,
        by simpa [List.append_assoc] using he, ?_, ?_⟩
      · intro hres
        refine clickSucceeded_shift _ w t [Act.waitFor (Loc.css a) 1500] calls ?_
        exact clickSucceeded_mono rest (a :: rest) w _ calls
          (fun s hs => List.mem_cons_of_mem a hs) (hf hres)
      · intro s
        exact hcount _ s (hc s)

theorem joinProbe_not_mem (calls : List Act) (P : Act → Prop)
    (hP : ∀ a, P a → isJoinCall a = false) (h : ∀ a ∈ calls, P a)
    (s : String) (hs : s ∈ joinSelectors) (timeout : Int) :
    calls.count (Act.waitFor (Loc.css s) timeout) = 0 := by
  rw [List.count_eq_zero]
  intro hmem
  have := hP _ (h _ hmem)
  simp [isJoinCall, Act.addresses, Act.selector, hs] at this

theorem joinClick_not_mem (calls : List Act) (P : Act → Prop)
    (hP : ∀ a, P a → isJoinCall a = false) (h : ∀ a ∈ calls, P a)
    (s : String) (hs : s ∈ joinSelectors) :
    Act.click (Loc.css s) none ∉ calls := by
  intro hmem
  have := hP _ (h _ hmem)
  simp [isJoinCall, Act.addresses, Act.selector, hs] at this

theorem joinSelectors_count_le_one (s : String) : joinSelectors.count s ≤ 1 := by
  have h : joinSelectors.Nodup := by decide
  exact List.nodup_iff_count_le_one.mp h s

theorem joinLoop_succ (b : Bot) (k retry : Nat) (w : World) (t : List Act) :
    JoinGoogleMeet.joinLoop b (k + 1) retry w t =
      M.bind (if retry > 0 then ClearPopups b else pure ())
        (fun _ => M.bind (JoinGoogleMeet.scan b retry joinSelectors)
          (fun s => match s with
            | ScanResult.found => pure none
            | ScanResult.notFound => JoinGoogleMeet.joinLoop b k (retry + 1)
            | ScanResult.fatal err => pure (some err))) w t := rfl

theorem joinLoop_retry_spec (w : World) (b : Bot) (hpage : b.page = true) (t : List Act) :
    ∃ calls r, JoinGoogleMeet.joinLoop b 1 1 w t = (Outcome.ret r, t ++ calls) ∧
      (r = none → clickSucceeded joinSelectors w t calls) ∧
      (∀ s ∈ joinSelectors, calls.count (Act.waitFor (Loc.css s) 1500) ≤ 1) := by
  rw [show (1 : Nat) = 0 + 1 from rfl, joinLoop_succ]
  simp only [Nat.zero_add, Nat.lt_add_one, gt_iff_lt, if_true]
  obtain ⟨_, p, hp, _, hplain⟩ := tame_run (ClearPopups_tame b) hpage w t
  rw [bind_ret _ _ _ _ _ _ hp]
  obtain ⟨calls, res, hs, hf, hc⟩ := scan_spec w b 1 hpage joinSelectors (t ++ p)
  rw [bind_ret _ _ _ _ _ _ hs]
  have hcount : ∀ s ∈ joinSelectors,
      (p ++ calls).count (Act.waitFor (Loc.css s) 1500) ≤ 1 := by
    intro s hsel
    rw [List.count_append,
      joinProbe_not_mem p _ (fun a ha => isPlainCall_not_join a ha) hplain s hsel]
    exact (Nat.zero_add _).symm ▸ le_trans (hc s) (joinSelectors_count_le_one s)
  cases res with
  | found =>
    refine ⟨p ++ calls, none, by simp, ?_, hcount⟩
    intro _
    exact clickSucceeded_shift _ w t p calls (hf rfl)
  | notFound =>
    refine ⟨p ++ calls, some _, by simp [JoinGoogleMeet.joinLoop]; rfl, ?_, hcount⟩
    intro h
    cases h
  | fatal err =>
    refine ⟨p ++ calls, some err, by simp, ?_, hcount⟩
    intro h
    cases h

theorem joinLoop_spec (w : World) (b : Bot) (hpage : b.page = true) (t : List Act) :
    ∃ calls r, JoinGoogleMeet.joinLoop b joinMaxRetries 0 w t = (Outcome.ret r, t ++ calls) ∧
      (r = none → clickSucceeded joinSelectors w t calls) ∧
      (∀ s ∈ joinSelectors, calls.count (Act.waitFor (Loc.css s) 1500) ≤ 2) ∧
      (∀ a ∈ calls, isCameraMicCall a = false) := by
  have hcm : ∀ calls r, JoinGoogleMeet.joinLoop b joinMaxRetries 0 w t =
      (Outcome.ret r, t ++ calls) → ∀ a ∈ calls, isCameraMicCall a = false := by
    intro calls r h
    obtain ⟨ext, he, hp⟩ := (joinLoop_tame b joinMaxRetries 0).emits w t
    rw [h] at he
    have : calls = ext := List.append_cancel_left he
    exact this ▸ hp
  suffices hmain : ∃ calls r,
      JoinGoogleMeet.joinLoop b joinMaxRetries 0 w t = (Outcome.ret r, t ++ calls) ∧
      (r = none → clickSucceeded joinSelectors w t calls) ∧
      (∀ s ∈ joinSelectors, calls.count (Act.waitFor (Loc.css s) 1500) ≤ 2) by
    obtain ⟨calls, r, h1, h2, h3⟩ := hmain
    exact ⟨calls, r, h1, h2, h3, hcm calls r h1⟩
  rw [show joinMaxRetries = 1 + 1 from rfl, joinLoop_succ]
  simp only [gt_iff_lt, Nat.lt_irrefl, if_false, Nat.zero_add]
  rw [bind_ret _ _ _ _ _ _ (run_pure () w t)]
  obtain ⟨calls, res, hs, hf, hc⟩ := scan_spec w b 0 hpage joinSelectors t
  rw [bind_ret _ _ _ _ _ _ hs]
  have hcount : ∀ s ∈ joinSelectors, calls.count (Act.waitFor (Loc.css s) 1500) ≤ 1 :=
    fun s _ => le_trans (hc s) (joinSelectors_count_le_one s)
  cases res with
  | found =>
    refine ⟨calls, none, by simp, fun _ => hf rfl, ?_⟩
    intro s hsel
    exact le_trans (hcount s hsel) (by decide)
  | notFound =>
    obtain ⟨calls2, r, h2, hf2, hc2⟩ := joinLoop_retry_spec w b hpage (t ++ calls)
    refine ⟨calls ++ calls2, r, by simp [h2], ?_, ?_⟩
    · intro hr
      exact clickSucceeded_shift _ w t calls calls2 (hf2 hr)
    · intro s hsel
      rw [List.count_append]
      exact Nat.add_le_add (hcount s hsel) (hc2 s hsel)
  | fatal err =>
    refine ⟨calls, some err, by simp, ?_, ?_⟩
    · intro h
      cases h
    · intro s hsel
      exact le_trans (hcount s hsel) (by decide)

theorem join_spec (w : World) (b : Bot) (hpage : b.page = true) (t : List Act) :
    ∃ calls r, JoinGoogleMeet.join b w t = (Outcome.ret r, t ++ calls) ∧
      (r = none → clickSucceeded joinSelectors w t calls) ∧
      (∀ s ∈ joinSelectors, calls.count (Act.waitFor (Loc.css s) 1500) ≤ 2) ∧
      (∀ a ∈ calls, isCameraMicCall a = false) := by
  unfold JoinGoogleMeet.join
  simp only [run_bind]
  obtain ⟨calls, r, hj, hf, hc, hcm⟩ := joinLoop_spec w b hpage t
  rw [bind_ret _ _ _ _ _ _ hj]
  cases r with
  | some err =>
    refine ⟨calls, some err, by simp, ?_, hc, hcm⟩
    intro h
    cases h
  | none =>
    obtain ⟨_, conf, hv, _, hplain⟩ :=
      tame_run (anyVisible_plain b 3000 meetingSelectors (by decide)) hpage w (t ++ calls)
    simp only [run_bind]
    rw [bind_ret _ _ _ _ _ _ hv]
    refine ⟨calls ++ conf, none, by simp, ?_, ?_, ?_⟩
    · intro _
      exact clickSucceeded_extend _ w t calls conf (hf rfl)
    · intro s hsel
      rw [List.count_append,
        joinProbe_not_mem conf _ (fun a ha => isPlainCall_not_join a ha) hplain s hsel]
      exact hc s hsel
    · intro a ha
      rcases List.mem_append.mp ha with h | h
      · exact hcm a h
      · exact isPlainCall_not_cameraMic a (hplain a h)

/-! ## The camera and microphone steps -/

theorem addresses_mono (c1 c2 : List String) (hsub : ∀ s ∈ c1, s ∈ c2) (a : Act)
    (h : a.addresses c1 = true) : a.addresses c2 = true := by
  unfold Act.addresses at h ⊢
  cases hsel : a.selector with
  | none => simp [hsel] at h
  | some s =>
    simp only [hsel, decide_eq_true_eq] at h ⊢
    exact hsub s h

theorem findElementFast_run (b : Bot) (hpage : b.page = true) (timeout : Int) (w : World)
    (selectors : List String) :
    ∀ t, ∃ ext r, findElementFast b selectors timeout w t = (Outcome.ret r, t ++ ext) ∧
      (∀ a ∈ ext, a.addresses selectors = true) ∧
      (r.2 = none → r.1 ∈ selectors) ∧
      (∀ s0 rest, selectors = s0 :: rest →
        ∃ more, ext = Act.waitFor (Loc.css s0) timeout :: more) := by
  induction selectors with
  | nil =>
    intro t
    refine ⟨[], _, by simp [findElementFast]; rfl, by simp, ?_, ?_⟩
    · intro h
      cases h
    · intro s0 rest h
      cases h
  | cons s rest ih =>
    intro t
    unfold findElementFast
    simp only [run_bind]
    rw [bind_ret _ _ _ _ _ _ (run_pageCall b _ w t hpage)]
    rcases Option.eq_none_or_eq_some
      (w.resp t (Act.waitFor (Loc.css s) timeout)).err with h1 | ⟨e1, h1⟩
    · simp only [h1, run_pure]
      refine ⟨[Act.waitFor (Loc.css s) timeout], (s, none), rfl, ?_, ?_, ?_⟩
      · simp [Act.addresses, Act.selector]
      · intro _
        exact List.mem_cons_self s rest
      · intro s0 r0 h
        cases h
        exact ⟨[], rfl⟩
    · simp only [h1]
      obtain ⟨ext, r, he, ha, hr, _⟩ := ih (t ++ [Act.waitFor (Loc.css s) timeout])
      refine ⟨Act.waitFor (Loc.css s) timeout :: ext, r,
        by simpa [List.append_assoc] using he, ?_, ?_, ?_⟩
      · intro a hmem
        rcases List.mem_cons.mp hmem with h | h
        · subst h
          simp [Act.addresses, Act.selector]
        · exact addresses_mono rest (s :: rest) (fun x hx => List.mem_cons_of_mem s hx) a
            (ha a h)
      · intro h
        exact List.mem_cons_of_mem s (hr h)
      · intro s0 r0 h
        cases h
        exact ⟨ext, rfl⟩

theorem toggle_run (b : Bot) (hpage : b.page = true) (s0 : String) (rest : List String)
    (action context : String) (w : World) (t : List Act) :
    ∃ ext, (do
        let r ← findElementFast b (s0 :: rest) 1000
        match r.2 with
        | none => do
          let _ ← clickWithLogging b r.1 action context
          pure ()
        | some _ => pure () : M Unit) w t =
        (Outcome.ret (), t ++ Act.waitFor (Loc.css s0) 1000 :: ext) ∧
      ∀ a ∈ Act.waitFor (Loc.css s0) 1000 :: ext, a.addresses (s0 :: rest) = true := by
  obtain ⟨ext, r, he, ha, hr, hfirst⟩ := findElementFast_run b hpage 1000 w (s0 :: rest) t
  obtain ⟨more, hm⟩ := hfirst s0 rest rfl
  subst hm
  simp only [run_bind]
  rw [bind_ret _ _ _ _ _ _ he]
  cases h2 : r.2 with
  | some e =>
    simp only [run_pure]
    exact ⟨more, rfl, ha⟩
  | none =>
    have hsel := hr h2
    simp only [run_bind]
    rw [bind_ret _ _ _ _ _ _ (run_clickWithLogging b hpage _ _ _ w _)]
    simp only [run_pure]
    refine ⟨more ++ [Act.logButtonClick action r.1 context, Act.click (Loc.css r.1) none],
      by simp, ?_⟩
    intro a hmem
    rw [← List.cons_append] at hmem
    rcases List.mem_append.mp hmem with h | h
    · exact ha a h
    · simp only [List.mem_cons, List.mem_singleton, List.not_mem_nil, or_false] at h
      rcases h with h | h <;> subst h <;>
        simpa [Act.addresses, Act.selector] using hsel

theorem toggle_panic (b : Bot) (hpage : b.page = false) (s0 : String) (rest : List String)
    (action context : String) (w : World) (t : List Act) :
    (do
        let r ← findElementFast b (s0 :: rest) 1000
        match r.2 with
        | none => do
          let _ ← clickWithLogging b r.1 action context
          pure ()
        | some _ => pure () : M Unit) w t = (Outcome.panic, t) := by
  simp [findElementFast, M.bind, pageCall, hpage]

theorem camera_run (b : Bot) (hpage : b.page = true) (w : World) (t : List Act) :
    ∃ ext, JoinGoogleMeet.camera b w t =
        (Outcome.ret (), t ++ Act.waitFor (Loc.css "div[data-tooltip*='camera']") 1000 :: ext) ∧
      ∀ a ∈ Act.waitFor (Loc.css "div[data-tooltip*='camera']") 1000 :: ext,
        isCameraCall a = true :=
  toggle_run b hpage _ _ _ _ w t

theorem microphone_run (b : Bot) (hpage : b.page = true) (w : World) (t : List Act) :
    ∃ ext, JoinGoogleMeet.microphone b w t =
        (Outcome.ret (),
          t ++ Act.waitFor (Loc.css "div[data-tooltip*='microphone']") 1000 :: ext) ∧
      ∀ a ∈ Act.waitFor (Loc.css "div[data-tooltip*='microphone']") 1000 :: ext,
        isMicCall a = true :=
  toggle_run b hpage _ _ _ _ w t

theorem hidden_tame {m : M Unit} {b : Bot} {P : Act → Prop}
    (hP : ∀ a, P a → isCameraMicCall a = true)
    (hrun : b.page = true → ∀ w t, ∃ ext, m w t = (Outcome.ret (), t ++ ext) ∧ ∀ a ∈ ext, P a)
    (hpanic : b.page = false → ∀ w t, m w t = (Outcome.panic, t)) :
    Tame (b.page = true) P (fun _ => True) m where
  emits := fun w t => by
    rcases Bool.eq_false_or_eq_true b.page with hp | hp
    · obtain ⟨ext, he, ha⟩ := hrun hp w t
      exact ⟨ext, by rw [he], ha⟩
    · exact ⟨[], by rw [hpanic hp w t]; simp, by simp⟩
  post := fun _ _ _ _ => trivial
  returns := fun hp w t => by
    obtain ⟨ext, he, _⟩ := hrun hp w t
    rw [he]
    simp
  sim := fun w1 w2 _ h1 h2 he => by
    rcases Bool.eq_false_or_eq_true b.page with hp | hp
    · obtain ⟨e1, hr1, ha1⟩ := hrun hp w1 h1
      obtain ⟨e2, hr2, ha2⟩ := hrun hp w2 h2
      rw [hr1, hr2]
      simp only [withoutCameraMic_append, true_and]
      rw [withoutCameraMic_hidden e1 (fun a ha => hP a (ha1 a ha)),
        withoutCameraMic_hidden e2 (fun a ha => hP a (ha2 a ha)), he]
    · rw [hpanic hp w1 h1, hpanic hp w2 h2]
      exact ⟨rfl, he⟩

theorem camera_tame (b : Bot) :
    Tame (b.page = true) (fun a => isCameraCall a = true) (fun _ => True)
      (JoinGoogleMeet.camera b) :=
  hidden_tame (fun a h => by simp [isCameraMicCall, h])
    (fun hp w t => by
      obtain ⟨ext, he, ha⟩ := camera_run b hp w t
      exact ⟨_, he, ha⟩)
    (fun hp w t => toggle_panic b hp _ _ _ _ w t)

theorem microphone_tame (b : Bot) :
    Tame (b.page = true) (fun a => isMicCall a = true) (fun _ => True)
      (JoinGoogleMeet.microphone b) :=
  hidden_tame (fun a h => by simp [isCameraMicCall, h])
    (fun hp w t => by
      obtain ⟨ext, he, ha⟩ := microphone_run b hp w t
      exact ⟨_, he, ha⟩)
    (fun hp w t => toggle_panic b hp _ _ _ _ w t)

theorem addresses_disjoint (c1 c2 : List String) (hdis : ∀ s ∈ c1, s ∉ c2) (a : Act)
    (h : a.addresses c1 = true) : a.addresses c2 = false := by
  unfold Act.addresses at h ⊢
  cases hsel : a.selector with
  | none => simp [hsel] at h
  | some s =>
    simp only [hsel, decide_eq_true_eq] at h
    simp [hdis s h]

theorem camera_not_mic (a : Act) (h : isCameraCall a = true) : isMicCall a = false :=
  addresses_disjoint cameraSelectors micSelectors (by decide) a h

theorem mic_not_camera (a : Act) (h : isMicCall a = true) : isCameraCall a = false :=
  addresses_disjoint micSelectors cameraSelectors (by decide) a h

theorem camera_not_join (a : Act) (h : isCameraCall a = true) : isJoinCall a = false :=
  addresses_disjoint cameraSelectors joinSelectors (by decide) a h

theorem mic_not_join (a : Act) (h : isMicCall a = true) : isJoinCall a = false :=
  addresses_disjoint micSelectors joinSelectors (by decide) a h

theorem not_cameraMic_split (a : Act) (h : isCameraMicCall a = false) :
    isCameraCall a = false ∧ isMicCall a = false := by
  simpa [isCameraMicCall] using h

/-- The run of `JoinGoogleMeet` on a running Bot with a page: either the navigation fails,
after plain calls only, or the run goes on with the join step after plain calls, the
camera step, the microphone step and plain calls again. -/
theorem JoinGoogleMeet_run (w : World) (b : Bot) (meetingURL : String) (t : List Act)
    (hrun : b.running = true) (hpage : b.page = true) :
    (∃ A err, JoinGoogleMeet b meetingURL w t = (Outcome.ret (some err), t ++ A) ∧
      (∀ a ∈ A, isPlainCall a = true)) ∨
    (∃ A C Mi B, JoinGoogleMeet b meetingURL w t =
        JoinGoogleMeet.join b w (t ++ (A ++
          (Act.waitFor (Loc.css "div[data-tooltip*='camera']") 1000 :: C ++
          (Act.waitFor (Loc.css "div[data-tooltip*='microphone']") 1000 :: Mi ++ B)))) ∧
      (∀ a ∈ A, isPlainCall a = true) ∧
      (∀ a ∈ Act.waitFor (Loc.css "div[data-tooltip*='camera']") 1000 :: C,
        isCameraCall a = true) ∧
      (∀ a ∈ Act.waitFor (Loc.css "div[data-tooltip*='microphone']") 1000 :: Mi,
        isMicCall a = true) ∧
      (∀ a ∈ B, isPlainCall a = true)) := by
  unfold JoinGoogleMeet
  simp only [hrun, Bool.not_true, Bool.false_eq_true, if_false, run_bind]
  obtain ⟨n, A, hn, _, hA⟩ := tame_run (navigate_tame b meetingURL) hpage w t
  rw [bind_ret _ _ _ _ _ _ hn]
  cases n with
  | some err => exact Or.inl ⟨A, err, by simp, hA⟩
  | none =>
    right
    simp only [run_bind]
    obtain ⟨_, B1, hb1, _, hB1⟩ := tame_run (ClearPopups_tame b) hpage w (t ++ A)
    rw [bind_ret _ _ _ _ _ _ hb1]
    simp only [run_bind]
    obtain ⟨C, hc, hC⟩ := camera_run b hpage w (t ++ A ++ B1)
    rw [bind_ret _ _ _ _ _ _ hc]
    simp only [run_bind]
    obtain ⟨Mi, hm, hMi⟩ := microphone_run b hpage w
      (t ++ A ++ B1 ++ Act.waitFor (Loc.css "div[data-tooltip*='camera']") 1000 :: C)
    rw [bind_ret _ _ _ _ _ _ hm]
    simp only [run_bind]
    obtain ⟨_, B2, hb2, _, hB2⟩ := tame_run (ClearPopups_tame b) hpage w
      (t ++ A ++ B1 ++ Act.waitFor (Loc.css "div[data-tooltip*='camera']") 1000 :: C ++
        Act.waitFor (Loc.css "div[data-tooltip*='microphone']") 1000 :: Mi)
    rw [bind_ret _ _ _ _ _ _ hb2]
    refine ⟨A ++ B1, C, Mi, B2, ?_, ?_, hC, hMi, hB2⟩
    · simp only [List.append_assoc, List.cons_append]
    · intro a ha
      rcases List.mem_append.mp ha with h | h
      · exact hA a h
      · exact hB1 a h

theorem JoinGoogleMeet_not_running (w : World) (b : Bot) (meetingURL : String) (t : List Act)
    (hrun : b.running = false) :
    JoinGoogleMeet b meetingURL w t = (Outcome.ret (some "bot not initialized"), t) := by
  simp [JoinGoogleMeet, hrun]

/-- C9: every run of `JoinGoogleMeet` on a Bot with a page returns; it returns success
only if, among the calls it issued, a click on one of the join / ask-to-join candidates
succeeded; each candidate is probed at most 2 times, so the candidate list is scanned at
most twice; and if no click on a candidate succeeded it returns an error. -/
theorem JoinGoogleMeet_join_step (w : World) (b : Bot) (meetingURL : String) (t : List Act)
    (hpage : b.page = true) :
    ∃ r calls, JoinGoogleMeet b meetingURL w t = (Outcome.ret r, t ++ calls) ∧
      (r = none → clickSucceeded joinSelectors w t calls) ∧
      (∀ s ∈ joinSelectors, calls.count (Act.waitFor (Loc.css s) 1500) ≤ 2) ∧
      (¬ clickSucceeded joinSelectors w t calls → ∃ e, r = some e) := by
  suffices hmain : ∃ r calls, JoinGoogleMeet b meetingURL w t = (Outcome.ret r, t ++ calls) ∧
      (r = none → clickSucceeded joinSelectors w t calls) ∧
      (∀ s ∈ joinSelectors, calls.count (Act.waitFor (Loc.css s) 1500) ≤ 2) by
    obtain ⟨r, calls, h1, h2, h3⟩ := hmain
    refine ⟨r, calls, h1, h2, h3, ?_⟩
    intro hno
    cases r with
    | none => exact absurd (h2 rfl) hno
    | some e => exact ⟨e, rfl⟩
  rcases Bool.eq_false_or_eq_true b.running with hrun | hrun
  · rcases JoinGoogleMeet_run w b meetingURL t hrun hpage with
      ⟨A, err, hr, hA⟩ | ⟨A, C, Mi, B, hr, hA, hC, hMi, hB⟩
    · refine ⟨some err, A, hr, ?_, ?_⟩
      · intro h
        cases h
      · intro s hs
        rw [joinProbe_not_mem A _ (fun a ha => isPlainCall_not_join a ha) hA s hs]
        exact Nat.zero_le 2
    · obtain ⟨calls, r, hj, hf, hc, _⟩ := join_spec w b hpage
        (t ++ (A ++ (Act.waitFor (Loc.css "div[data-tooltip*='camera']") 1000 :: C ++
          (Act.waitFor (Loc.css "div[data-tooltip*='microphone']") 1000 :: Mi ++ B))))
      refine ⟨r, (A ++ (Act.waitFor (Loc.css "div[data-tooltip*='camera']") 1000 :: C ++
          (Act.waitFor (Loc.css "div[data-tooltip*='microphone']") 1000 :: Mi ++ B))) ++ calls,
        ?_, ?_, ?_⟩
      · rw [hr, hj, List.append_assoc]
      · intro hnone
        exact clickSucceeded_shift _ w t _ calls (hf hnone)
      · intro s hs
        rw [List.count_append, List.count_append, List.count_append, List.count_append,
          joinProbe_not_mem A _ (fun a ha => isPlainCall_not_join a ha) hA s hs,
          joinProbe_not_mem _ _ camera_not_join hC s hs,
          joinProbe_not_mem _ _ mic_not_join hMi s hs,
          joinProbe_not_mem B _ (fun a ha => isPlainCall_not_join a ha) hB s hs]
        simpa using hc s hs
  · refine ⟨some "bot not initialized", [], ?_, ?_, ?_⟩
    · rw [JoinGoogleMeet_not_running w b meetingURL t hrun, List.append_nil]
    · intro h
      cases h
    · intro s _
      simp

/-- Witness of C9: a running Bot on a page where every control is visible and clickable. -/
theorem JoinGoogleMeet_join_step_witness :
    ∃ r calls, JoinGoogleMeet readyBot "https://meet.google.com/abc-defg-hij" allOkWorld [] =
        (Outcome.ret r, [] ++ calls) ∧
      (r = none → clickSucceeded joinSelectors allOkWorld [] calls) ∧
      (∀ s ∈ joinSelectors, calls.count (Act.waitFor (Loc.css s) 1500) ≤ 2) ∧
      (¬ clickSucceeded joinSelectors allOkWorld [] calls → ∃ e, r = some e) :=
  JoinGoogleMeet_join_step allOkWorld readyBot "https://meet.google.com/abc-defg-hij" [] rfl

/-! ## Independence from the camera and microphone steps -/

theorem JoinGoogleMeet_tame (b : Bot) (meetingURL : String) :
    Tame (b.page = true) (fun _ => True) (fun _ => True) (JoinGoogleMeet b meetingURL) := by
  unfold JoinGoogleMeet
  split
  · exact tame_pure _ trivial
  · refine tame_bind
      (tame_mono (navigate_tame b meetingURL) (fun _ _ => trivial) (fun _ h => h)) ?_
    intro n _
    split
    · exact tame_pure _ trivial
    · refine tame_bind (tame_mono (ClearPopups_tame b) (fun _ _ => trivial) (fun _ h => h)) ?_
      intro _ _
      refine tame_bind (tame_mono (camera_tame b) (fun _ _ => trivial) (fun _ h => h)) ?_
      intro _ _
      refine tame_bind (tame_mono (microphone_tame b) (fun _ _ => trivial) (fun _ h => h)) ?_
      intro _ _
      refine tame_bind (tame_mono (ClearPopups_tame b) (fun _ _ => trivial) (fun _ h => h)) ?_
      intro _ _
      exact tame_mono (join_tame b) (fun _ _ => trivial) (fun _ h => h)

theorem JoinGoogleMeet_no_page (w : World) (b : Bot) (meetingURL : String) (t : List Act)
    (hpage : b.page = false) :
    (JoinGoogleMeet b meetingURL w t).2 = t ∧
    (JoinGoogleMeet b meetingURL w t).1 ≠ Outcome.ret none := by
  rcases Bool.eq_false_or_eq_true b.running with hrun | hrun
  · simp [JoinGoogleMeet, JoinGoogleMeet.navigate, pageCall, M.bind, hrun, hpage]
  · simp [JoinGoogleMeet_not_running w b meetingURL t hrun]

theorem no_camera_after_mic (X Y pre post : List Act) (a : Act)
    (hX : ∀ x ∈ X, isMicCall x = false) (hY : ∀ y ∈ Y, isCameraCall y = false)
    (h : X ++ Y = pre ++ a :: post) (ha : isMicCall a = true) :
    ∀ c ∈ post, isCameraCall c = false := by
  rcases List.append_eq_append_iff.mp h with ⟨l, _, hl⟩ | ⟨l, hl, hl2⟩
  · intro c hc
    exact hY c (by rw [hl]; simp [hc])
  · cases l with
    | nil =>
      simp only [List.nil_append] at hl2
      intro c hc
      exact hY c (by rw [← hl2]; simp [hc])
    | cons x l2 =>
      simp only [List.cons_append, List.cons.injEq] at hl2
      have hmem : a ∈ X := by rw [hl, hl2.1]; simp
      have := hX a hmem
      rw [ha] at this
      cases this

/-- C10: the result of `JoinGoogleMeet` does not depend on the camera and microphone
steps: in two worlds that give the same answers to every call other than the camera and
microphone calls, whatever camera and microphone calls were made before, `JoinGoogleMeet`
returns the same result.  In every run no camera call is issued after a microphone call,
and a successful run probed the first camera candidate and, later, the first microphone
candidate. -/
theorem JoinGoogleMeet_camera_mic_independent (w1 w2 : World) (b : Bot)
    (meetingURL : String) (t : List Act) (hw : Agree w1 w2) :
    (JoinGoogleMeet b meetingURL w1 t).1 = (JoinGoogleMeet b meetingURL w2 t).1 ∧
    (∀ pre a post, (JoinGoogleMeet b meetingURL w1 t).2 = t ++ (pre ++ a :: post) →
      isMicCall a = true → ∀ c ∈ post, isCameraCall c = false) ∧
    ((JoinGoogleMeet b meetingURL w1 t).1 = Outcome.ret none →
      ∃ p1 p2 p3, (JoinGoogleMeet b meetingURL w1 t).2 =
        t ++ (p1 ++ Act.waitFor (Loc.css "div[data-tooltip*='camera']") 1000 ::
          (p2 ++ Act.waitFor (Loc.css "div[data-tooltip*='microphone']") 1000 :: p3))) := by
  refine ⟨((JoinGoogleMeet_tame b meetingURL).sim w1 w2 hw t t rfl).1, ?_⟩
  rcases Bool.eq_false_or_eq_true b.page with hpage | hpage
  · rcases Bool.eq_false_or_eq_true b.running with hrun | hrun
    · rcases JoinGoogleMeet_run w1 b meetingURL t hrun hpage with
        ⟨A, err, hr, hA⟩ | ⟨A, C, Mi, B, hr, hA, hC, hMi, hB⟩
      · rw [hr]
        refine ⟨?_, ?_⟩
        · intro pre a post hsplit ha
          have hmem : a ∈ A := by
            rw [List.append_cancel_left hsplit]
            simp
          have := (not_cameraMic_split a (isPlainCall_not_cameraMic a (hA a hmem))).2
          rw [ha] at this
          cases this
        · intro h
          cases h
      · obtain ⟨calls, r, hj, _, _, hcm⟩ := join_spec w1 b hpage
          (t ++ (A ++ (Act.waitFor (Loc.css "div[data-tooltip*='camera']") 1000 :: C ++
            (Act.waitFor (Loc.css "div[data-tooltip*='microphone']") 1000 :: Mi ++ B))))
        rw [hr, hj]
        refine ⟨?_, ?_⟩
        · intro pre a post hsplit ha
          simp only [List.append_assoc] at hsplit
          have hsplit2 := List.append_cancel_left hsplit
          refine no_camera_after_mic
            (A ++ Act.waitFor (Loc.css "div[data-tooltip*='camera']") 1000 :: C)
            (Act.waitFor (Loc.css "div[data-tooltip*='microphone']") 1000 :: Mi ++ (B ++ calls))
            pre post a ?_ ?_ (by simpa [List.append_assoc] using hsplit2) ha
          · intro x hx
            rcases List.mem_append.mp hx with h | h
            · exact (not_cameraMic_split x (isPlainCall_not_cameraMic x (hA x h))).2
            · exact camera_not_mic x (hC x h)
          · intro y hy
            rcases List.mem_append.mp hy with h | h
            · exact mic_not_camera y (hMi y h)
            · rcases List.mem_append.mp h with h | h
              · exact (not_cameraMic_split y (isPlainCall_not_cameraMic y (hB y h))).1
              · exact (not_cameraMic_split y (hcm y h)).1
        · intro _
          exact ⟨A, C, Mi ++ (B ++ calls), by simp [List.append_assoc]⟩
    · rw [JoinGoogleMeet_not_running w1 b meetingURL t hrun]
      refine ⟨?_, ?_⟩
      · intro pre a post hsplit _
        have := congrArg List.length hsplit
        simp at this
      · intro h
        cases h
  · obtain ⟨htr, hne⟩ := JoinGoogleMeet_no_page w1 b meetingURL t hpage
    refine ⟨?_, ?_⟩
    · intro pre a post hsplit _
      rw [htr] at hsplit
      have := congrArg List.length hsplit
      simp at this
    · intro h
      exact absurd h hne

/-- Witness of C10: a page where both controls resolve and are clicked, against a page
where neither resolves. -/
theorem JoinGoogleMeet_camera_mic_independent_witness :
    (JoinGoogleMeet readyBot "https://meet.google.com/abc-defg-hij" allOkWorld []).1 =
      (JoinGoogleMeet readyBot "https://meet.google.com/abc-defg-hij" noCameraMicWorld []).1 ∧
    (∀ pre a post,
      (JoinGoogleMeet readyBot "https://meet.google.com/abc-defg-hij" allOkWorld []).2 =
        [] ++ (pre ++ a :: post) →
      isMicCall a = true → ∀ c ∈ post, isCameraCall c = false) ∧
    ((JoinGoogleMeet readyBot "https://meet.google.com/abc-defg-hij" allOkWorld []).1 =
        Outcome.ret none →
      ∃ p1 p2 p3,
        (JoinGoogleMeet readyBot "https://meet.google.com/abc-defg-hij" allOkWorld []).2 =
          [] ++ (p1 ++ Act.waitFor (Loc.css "div[data-tooltip*='camera']") 1000 ::
            (p2 ++ Act.waitFor (Loc.css "div[data-tooltip*='microphone']") 1000 :: p3))) :=
  JoinGoogleMeet_camera_mic_independent allOkWorld noCameraMicWorld readyBot
    "https://meet.google.com/abc-defg-hij" []
    (by
      intro h1 h2 a ha _
      simp [allOkWorld, noCameraMicWorld, scriptWorld, ha])

/-! ## The outcome of the login -/

theorem GoogleLogin_outcome_run (w : World) (b : Bot) (t : List Act) (hpage : b.page = true) :
    (GoogleLogin.outcome b w t).1 =
      Outcome.ret (if neitherUrlWaitSucceeds w t && noSuccessIndicator w t &&
          urlInconclusive (currentUrlRead w t) && inlineErrorVisible w t then
        some ("google login failed: " ++ inlineErrorText w t) else none) := by
  rcases Option.eq_none_or_eq_some (w.resp t urlWait1).err with h1 | ⟨e1, h1⟩
  · simp [GoogleLogin.outcome, M.bind, pageCall, hpage, neitherUrlWaitSucceeds, World.fails,
      urlWait1, h1] at h1 ⊢
  · rcases Option.eq_none_or_eq_some (w.resp (t ++ [urlWait1]) urlWait2).err
      with h2 | ⟨e2, h2⟩
    · simp [GoogleLogin.outcome, M.bind, pageCall, hpage, neitherUrlWaitSucceeds, World.fails,
        urlWait1, urlWait2, h1, h2] at h1 h2 ⊢
    · rcases Option.eq_none_or_eq_some (w.resp (t ++ [urlWait1, urlWait2]) welcomeProbe).err
        with h3 | ⟨e3, h3⟩
      · simp [GoogleLogin.outcome, M.bind, pageCall, hpage, neitherUrlWaitSucceeds,
          noSuccessIndicator, World.fails, urlWait1, urlWait2, welcomeProbe, anyVisible,
          successSelectors, h1, h2, h3] at h1 h2 h3 ⊢
      · rcases Option.eq_none_or_eq_some
          (w.resp (t ++ [urlWait1, urlWait2, welcomeProbe]) emailProbe).err with h4 | ⟨e4, h4⟩
        · simp [GoogleLogin.outcome, M.bind, pageCall, hpage, neitherUrlWaitSucceeds,
            noSuccessIndicator, World.fails, urlWait1, urlWait2, welcomeProbe, emailProbe,
            anyVisible, successSelectors, h1, h2, h3, h4] at h1 h2 h3 h4 ⊢
        · by_cases hE : currentUrlRead w t = "" <;>
          cases hA : stringsContains (currentUrlRead w t) "myaccount.google.com" <;>
          cases hB : stringsContains (currentUrlRead w t) "accounts.google.com/signin/oauth" <;>
          cases hC : stringsContains (currentUrlRead w t) "signin/v2/identifier" <;>
          rcases Option.eq_none_or_eq_some
            (w.resp (t ++ [urlWait1, urlWait2, welcomeProbe, emailProbe, Act.url])
              errorProbe).err with h5 | ⟨e5, h5⟩ <;>
          simp [GoogleLogin.outcome, M.bind, pageCall, hpage, neitherUrlWaitSucceeds,
              noSuccessIndicator, World.fails, urlWait1, urlWait2, welcomeProbe, emailProbe,
              errorProbe, errorTextRead, anyVisible, successSelectors, currentUrlRead,
              urlInconclusive, inlineErrorVisible, inlineErrorText, h1, h2, h3, h4, h5]
              at h1 h2 h3 h4 h5 hE hA hB hC ⊢ <;>
          simp [M.bind, h1, h2, h3, h4, h5, hE, hA, hB, hC]

/-- C12: the outcome phase of `GoogleLogin`, entered after the credentials were submitted,
always returns; it returns an error exactly when neither URL wait succeeds, no success
indicator becomes visible, the current URL is empty or contains the sign-in path segment
without the account domain and without the OAuth continuation, and the inline error
element is visible; the error is then "google login failed: " followed by the text of
that element.  In every other case, the inconclusive one included, it returns nil. -/
theorem GoogleLogin_outcome_error_iff (w : World) (b : Bot) (t : List Act)
    (hpage : b.page = true) :
    ∃ r, (GoogleLogin.outcome b w t).1 = Outcome.ret r ∧
      (r.isSome = true ↔
        (neitherUrlWaitSucceeds w t = true ∧ noSuccessIndicator w t = true ∧
          urlInconclusive (currentUrlRead w t) = true ∧ inlineErrorVisible w t = true)) ∧
      (r.isSome = true → r = some ("google login failed: " ++ inlineErrorText w t)) ∧
      (r.isSome = false → r = none) := by
  refine ⟨_, GoogleLogin_outcome_run w b t hpage, ?_, ?_, ?_⟩
  · by_cases h : (neitherUrlWaitSucceeds w t && noSuccessIndicator w t &&
        urlInconclusive (currentUrlRead w t) && inlineErrorVisible w t) = true
    · have h2 := h
      simp only [Bool.and_eq_true] at h2
      simp only [h, if_true, Option.isSome_some, true_iff]
      exact ⟨h2.1.1.1, h2.1.1.2, h2.1.2, h2.2⟩
    · have h2 := h
      simp only [Bool.and_eq_true] at h2
      simp only [h, Bool.false_eq_true, if_false, Option.isSome_none, false_iff]
      intro hall
      exact h2 ⟨⟨⟨hall.1, hall.2.1⟩, hall.2.2.1⟩, hall.2.2.2⟩
  · intro hs
    split at hs
    · rename_i h
      simp [h]
    · simp at hs
  · intro hs
    split at hs
    · simp at hs
    · rename_i h
      simp [h]

/-- Witness of C12: the sign-in page stays on the identifier URL and shows an error. -/
theorem GoogleLogin_outcome_error_iff_witness :
    ∃ r, (GoogleLogin.outcome readyBot wrongPasswordWorld []).1 = Outcome.ret r ∧
      (r.isSome = true ↔
        (neitherUrlWaitSucceeds wrongPasswordWorld [] = true ∧
          noSuccessIndicator wrongPasswordWorld [] = true ∧
          urlInconclusive (currentUrlRead wrongPasswordWorld []) = true ∧
          inlineErrorVisible wrongPasswordWorld [] = true)) ∧
      (r.isSome = true →
        r = some ("google login failed: " ++ inlineErrorText wrongPasswordWorld [])) ∧
      (r.isSome = false → r = none) :=
  GoogleLogin_outcome_error_iff wrongPasswordWorld readyBot [] rfl

/-! ## Leaving the meeting -/

theorem clickSucceeded_nil (candidates : List String) (w : World) (t : List Act) :
    ¬ clickSucceeded candidates w t [] := by
  rintro ⟨pre, s, post, h, _⟩
  cases pre <;> simp at h

theorem clickSucceeded_cons (candidates : List String) (w : World) (t : List Act) (a : Act)
    (calls : List Act) :
    clickSucceeded candidates w t (a :: calls) ↔
      ((∃ s, a = Act.click (Loc.css s) none ∧ s ∈ candidates ∧ (w.resp t a).err = none) ∨
        clickSucceeded candidates w (t ++ [a]) calls) := by
  constructor
  · rintro ⟨pre, s, post, h, hs, hok⟩
    cases pre with
    | nil =>
      simp only [List.nil_append, List.cons.injEq] at h
      left
      refine ⟨s, h.1, hs, ?_⟩
      rw [h.1]
      simpa using hok
    | cons x pre2 =>
      simp only [List.cons_append, List.cons.injEq] at h
      right
      refine ⟨pre2, s, post, h.2, hs, ?_⟩
      rw [h.1]
      simpa [List.append_assoc] using hok
  · rintro (⟨s, ha, hs, hok⟩ | h)
    · refine ⟨[], s, calls, by simp [ha], hs, ?_⟩
      rw [← ha]
      simpa using hok
    · exact clickSucceeded_shift candidates w t [a] calls h

theorem clickSucceeded_append_quiet (candidates : List String) (w : World)
    (t calls q : List Act) (hq : ∀ a ∈ q, ∀ s, a ≠ Act.click (Loc.css s) none) :
    clickSucceeded candidates w t (calls ++ q) ↔ clickSucceeded candidates w t calls := by
  constructor
  · intro h
    induction calls generalizing t with
    | nil =>
      exfalso
      obtain ⟨pre, s, post, hc, _, _⟩ := h
      have hmem : Act.click (Loc.css s) none ∈ q := by
        rw [List.nil_append] at hc
        rw [hc]
        simp
      exact hq _ hmem s rfl
    | cons a rest ih =>
      rw [List.cons_append, clickSucceeded_cons] at h
      rw [clickSucceeded_cons]
      rcases h with h | h
      · exact Or.inl h
      · exact Or.inr (ih _ h)
  · exact clickSucceeded_extend candidates w t calls q

theorem leaveLoop_spec (w : World) (b : Bot) (hpage : b.page = true)
    (candidates selectors : List String) (hsub : ∀ s ∈ selectors, s ∈ candidates) :
    ∀ t, ∃ calls found, LeaveMeeting.leaveLoop b selectors w t =
        (Outcome.ret found, t ++ calls) ∧
      (found = true ↔ clickSucceeded candidates w t calls) ∧
      (∀ a ∈ calls, a ≠ leaveShortcut ∧ isExitCheck a = false) := by
  induction selectors with
  | nil =>
    intro t
    refine ⟨[], false, by simp [LeaveMeeting.leaveLoop], ?_, by simp⟩
    simp [clickSucceeded_nil]
  | cons s rest ih =>
    intro t
    have hrest := ih (fun x hx => hsub x (List.mem_cons_of_mem s hx))
    unfold LeaveMeeting.leaveLoop
    simp only [run_bind]
    rw [bind_ret _ _ _ _ _ _ (run_pageCall b _ w t hpage)]
    rcases Option.eq_none_or_eq_some
      (w.resp t (Act.waitFor (Loc.css s) 3000)).err with h1 | ⟨e1, h1⟩
    · simp only [h1, run_bind]
      rw [bind_ret _ _ _ _ _ _ (run_pageCall b _ w _ hpage)]
      rcases Option.eq_none_or_eq_some
        (w.resp (t ++ [Act.waitFor (Loc.css s) 3000]) (Act.click (Loc.css s) none)).err
        with h2 | ⟨e2, h2⟩
      · simp only [h2, run_pure]
        refine ⟨[Act.waitFor (Loc.css s) 3000, Act.click (Loc.css s) none], true,
          by simp, ?_, ?_⟩
        · simp only [true_iff]
          exact ⟨[Act.waitFor (Loc.css s) 3000], s, [], by simp,
            hsub s (List.mem_cons_self s rest), h2⟩
        · intro a ha
          simp only [List.mem_cons, List.mem_singleton, List.not_mem_nil, or_false] at ha
          rcases ha with ha | ha <;> subst ha <;> simp [leaveShortcut, isExitCheck]
      · simp only [h2]
        obtain ⟨calls, found, he, hf, hq⟩ := hrest
          (t ++ [Act.waitFor (Loc.css s) 3000] ++ [Act.click (Loc.css s) none])
        refine ⟨Act.waitFor (Loc.css s) 3000 :: Act.click (Loc.css s) none :: calls, found,
          by simpa [List.append_assoc] using he, ?_, ?_⟩
        · rw [clickSucceeded_cons, clickSucceeded_cons, hf]
          constructor
          · intro h
            exact Or.inr (Or.inr h)
          · rintro (⟨x, hx, _⟩ | ⟨x, hx, _, hok⟩ | h)
            · cases hx
            · rw [h2] at hok
              cases hok
            · exact h
        · intro a ha
          simp only [List.mem_cons] at ha
          rcases ha with ha | ha | ha
          · subst ha
            simp [leaveShortcut, isExitCheck]
          · subst ha
            simp [leaveShortcut, isExitCheck]
          · exact hq a ha
    · simp only [h1]
      obtain ⟨calls, found, he, hf, hq⟩ := hrest (t ++ [Act.waitFor (Loc.css s) 3000])
      refine ⟨Act.waitFor (Loc.css s) 3000 :: calls, found,
        by simpa [List.append_assoc] using he, ?_, ?_⟩
      · rw [clickSucceeded_cons, hf]
        constructor
        · intro h
          exact Or.inr h
        · rintro (⟨x, hx, _⟩ | h)
          · cases hx
          · exact h
      · intro a ha
        simp only [List.mem_cons] at ha
        rcases ha with ha | ha
        · subst ha
          simp [leaveShortcut, isExitCheck]
        · exact hq a ha

theorem LeaveMeeting_confirm_run (w : World) (b : Bot) (hpage : b.page = true) (t : List Act) :
    ∃ calls, LeaveMeeting.confirm b w t = (Outcome.ret none, t ++ calls) ∧
      ∀ a ∈ calls, isExitCheck a = true := by
  unfold LeaveMeeting.confirm
  simp only [run_bind]
  obtain ⟨x, ext, hv, _, hext⟩ := tame_run
    (anyVisible_tame b (fun a => isExitCheck a = true) 5000 exitSelectors (by decide)) hpage w t
  rw [bind_ret _ _ _ _ _ _ hv]
  cases x with
  | true => exact ⟨ext, by simp, hext⟩
  | false =>
    simp only [Bool.not_false, if_true, run_bind]
    rw [bind_ret _ _ _ _ _ _ (run_pageCall b _ w _ hpage)]
    refine ⟨ext ++ [Act.url], by simp, ?_⟩
    intro a ha
    rcases List.mem_append.mp ha with h | h
    · exact hext a h
    · simp only [List.mem_singleton] at h
      subst h
      rfl

theorem leaveLoop_agree (w1 w2 : World) (b : Bot) (hpage : b.page = true)
    (hagree : ∀ h a, isExitCheck a = false → w1.resp h a = w2.resp h a)
    (selectors : List String) :
    ∀ t, LeaveMeeting.leaveLoop b selectors w1 t = LeaveMeeting.leaveLoop b selectors w2 t := by
  induction selectors with
  | nil =>
    intro t
    simp [LeaveMeeting.leaveLoop]
  | cons s rest ih =>
    intro t
    unfold LeaveMeeting.leaveLoop
    simp only [run_bind]
    rw [bind_ret _ _ w1 _ _ _ (run_pageCall b _ w1 t hpage),
      bind_ret _ _ w2 _ _ _ (run_pageCall b _ w2 t hpage),
      hagree t (Act.waitFor (Loc.css s) 3000) (by simp [isExitCheck])]
    rcases Option.eq_none_or_eq_some
      (w2.resp t (Act.waitFor (Loc.css s) 3000)).err with h1 | ⟨e1, h1⟩
    · simp only [h1, run_bind]
      rw [bind_ret _ _ w1 _ _ _ (run_pageCall b _ w1 _ hpage),
        bind_ret _ _ w2 _ _ _ (run_pageCall b _ w2 _ hpage),
        hagree _ (Act.click (Loc.css s) none) (by simp [isExitCheck])]
      rcases Option.eq_none_or_eq_some
        (w2.resp (t ++ [Act.waitFor (Loc.css s) 3000]) (Act.click (Loc.css s) none)).err
        with h2 | ⟨e2, h2⟩
      · simp only [h2, run_pure]
      · simp only [h2]
        exact ih _
    · simp only [h1]
      exact ih _

theorem LeaveMeeting_run (w : World) (b : Bot) (t : List Act)
    (hrun : b.running = true) (hpage : b.page = true) :
    ∃ calls found confirm,
      LeaveMeeting.leaveLoop b leaveSelectors w t = (Outcome.ret found, t ++ calls) ∧
      (found = true ↔ clickSucceeded leaveSelectors w t calls) ∧
      (∀ a ∈ calls, a ≠ leaveShortcut ∧ isExitCheck a = false) ∧
      (∀ a ∈ confirm, isExitCheck a = true) ∧
      LeaveMeeting b w t =
        (if found = true then (Outcome.ret none, t ++ (calls ++ confirm))
         else match (w.resp (t ++ calls) leaveShortcut).err with
          | some err =>
            (Outcome.ret (some ("could not find leave button and keyboard shortcut failed: " ++
              err)), t ++ (calls ++ [leaveShortcut]))
          | none => (Outcome.ret none, t ++ (calls ++ leaveShortcut :: confirm))) := by
  obtain ⟨calls, found, he, hf, hq⟩ :=
    leaveLoop_spec w b hpage leaveSelectors leaveSelectors (fun _ h => h) t
  unfold LeaveMeeting
  simp only [hrun, Bool.not_true, Bool.false_eq_true, if_false, run_bind]
  rw [bind_ret _ _ _ _ _ _ he]
  cases found with
  | true =>
    obtain ⟨confirm, hc, hconf⟩ := LeaveMeeting_confirm_run w b hpage (t ++ calls)
    refine ⟨calls, true, confirm, he, hf, hq, hconf, ?_⟩
    simp [hc]
  | false =>
    simp only [Bool.not_false, if_true, run_bind]
    rw [bind_ret _ _ _ _ _ _ (run_pageCall b _ w _ hpage)]
    obtain ⟨confirm, hc, hconf⟩ :=
      LeaveMeeting_confirm_run w b hpage (t ++ calls ++ [Act.keyboardPress "Control+d"])
    refine ⟨calls, false, confirm, he, hf, hq, hconf, ?_⟩
    simp only [List.append_assoc] at hc
    rcases Option.eq_none_or_eq_some
      (w.resp (t ++ calls) (Act.keyboardPress "Control+d")).err with h1 | ⟨e1, h1⟩
    · simp [leaveShortcut, h1, hc]
    · simp [leaveShortcut, h1]

theorem split_unique {α : Type} (A B pre post : List α) (x : α) (hA : x ∉ A) (hB : x ∉ B)
    (h : A ++ x :: B = pre ++ x :: post) : pre = A ∧ post = B := by
  rcases List.append_eq_append_iff.mp h with ⟨l, hl, hl2⟩ | ⟨l, hl, hl2⟩
  · cases l with
    | nil =>
      simp only [List.nil_append, List.cons.injEq, true_and] at hl2
      exact ⟨by simpa using hl, hl2.symm⟩
    | cons y l2 =>
      simp only [List.cons_append, List.cons.injEq] at hl2
      exact absurd (by rw [hl2.2]; simp) hB
  · cases l with
    | nil =>
      simp only [List.nil_append, List.cons.injEq, true_and] at hl2
      exact ⟨by simpa using hl.symm, hl2⟩
    | cons y l2 =>
      simp only [List.cons_append, List.cons.injEq] at hl2
      exact absurd (by rw [hl, hl2.1]; simp) hA

theorem exitCheck_quiet (q : List Act)
    (hq : ∀ a ∈ q, a = leaveShortcut ∨ isExitCheck a = true) :
    ∀ a ∈ q, ∀ s, a ≠ Act.click (Loc.css s) none := by
  intro a ha s h
  subst h
  rcases hq _ ha with h | h
  · simp [leaveShortcut] at h
  · simp [isExitCheck] at h

/-- C13: on a running Bot, `LeaveMeeting` always returns; it presses Ctrl+D exactly when
no click on a leave-button candidate succeeded, and it returns an error exactly when no
such click succeeded and the key press failed.  The result does not depend on the exit
confirmation: in a second world that answers every call other than the probes of the
exit indicators and the read of the final URL alike, `LeaveMeeting` returns the same
result. -/
theorem LeaveMeeting_result (w w2 : World) (b : Bot) (t : List Act)
    (hrun : b.running = true) (hpage : b.page = true)
    (hagree : ∀ h a, isExitCheck a = false → w.resp h a = w2.resp h a) :
    ∃ r calls, LeaveMeeting b w t = (Outcome.ret r, t ++ calls) ∧
      (leaveShortcut ∈ calls ↔ ¬ clickSucceeded leaveSelectors w t calls) ∧
      (r.isSome = true ↔
        (¬ clickSucceeded leaveSelectors w t calls ∧
          ∃ pre post, calls = pre ++ leaveShortcut :: post ∧
            (w.resp (t ++ pre) leaveShortcut).err ≠ none)) ∧
      (LeaveMeeting b w2 t).1 = Outcome.ret r := by
  obtain ⟨calls, found, confirm, he, hf, hq, hconf, hL⟩ := LeaveMeeting_run w b t hrun hpage
  obtain ⟨calls2, found2, confirm2, he2, _, _, _, hL2⟩ := LeaveMeeting_run w2 b t hrun hpage
  have hsame := leaveLoop_agree w w2 b hpage hagree leaveSelectors t
  rw [he, he2] at hsame
  simp only [Prod.mk.injEq, Outcome.ret.injEq, List.append_cancel_left_eq] at hsame
  obtain ⟨hfound, hcalls⟩ := hsame
  subst hfound
  subst hcalls
  have hkey : w.resp (t ++ calls) leaveShortcut = w2.resp (t ++ calls) leaveShortcut :=
    hagree _ _ (by simp [leaveShortcut, isExitCheck])
  have hnotin : leaveShortcut ∉ calls := fun h => (hq _ h).1 rfl
  have hnotconf : leaveShortcut ∉ confirm := by
    intro h
    have := hconf _ h
    simp [leaveShortcut, isExitCheck] at this
  cases found with
  | true =>
    simp only [if_true] at hL hL2
    have hclick : clickSucceeded leaveSelectors w t (calls ++ confirm) :=
      clickSucceeded_extend _ w t calls confirm (hf.mp rfl)
    refine ⟨none, calls ++ confirm, hL, ?_, ?_, by rw [hL2]⟩
    · constructor
      · intro h
        rcases List.mem_append.mp h with h | h
        · exact absurd h hnotin
        · exact absurd h hnotconf
      · intro h
        exact absurd hclick h
    · simp [hclick]
  | false =>
    simp only [Bool.false_eq_true, if_false] at hL hL2
    have hno : ¬ clickSucceeded leaveSelectors w t calls := fun h => by
      have := hf.mpr h
      cases this
    rcases Option.eq_none_or_eq_some (w.resp (t ++ calls) leaveShortcut).err
      with h1 | ⟨e1, h1⟩
    · rw [h1] at hL
      rw [← hkey, h1] at hL2
      simp only at hL hL2
      have hnoall : ¬ clickSucceeded leaveSelectors w t (calls ++ leaveShortcut :: confirm) := by
        rw [clickSucceeded_append_quiet _ w t calls _ (exitCheck_quiet _ (by
          intro a ha
          rcases List.mem_cons.mp ha with h | h
          · exact Or.inl h
          · exact Or.inr (hconf a h)))]
        exact hno
      refine ⟨none, calls ++ leaveShortcut :: confirm, hL, ?_, ?_, by rw [hL2]⟩
      · simp [hnoall]
      · simp only [Option.isSome_none, Bool.false_eq_true, false_iff, not_and, not_exists]
        intro _ pre post hsplit hfail
        have := (split_unique calls confirm pre post leaveShortcut hnotin hnotconf hsplit).1
        rw [this, h1] at hfail
        exact hfail rfl
    · rw [h1] at hL
      rw [← hkey, h1] at hL2
      simp only at hL hL2
      have hnoall : ¬ clickSucceeded leaveSelectors w t (calls ++ [leaveShortcut]) := by
        rw [clickSucceeded_append_quiet _ w t calls _ (exitCheck_quiet _ (by
          intro a ha
          exact Or.inl (List.mem_singleton.mp ha)))]
        exact hno
      refine ⟨some _, calls ++ [leaveShortcut], hL, ?_, ?_, by rw [hL2]⟩
      · simp [hnoall]
      · simp only [Option.isSome_some, true_iff]
        refine ⟨hnoall, calls, [], rfl, ?_⟩
        rw [h1]
        simp

/-- Witness of C13: a page without leave button, with and without exit indicators. -/
theorem LeaveMeeting_result_witness :
    ∃ r calls, LeaveMeeting readyBot noLeaveButtonWorld [] = (Outcome.ret r, [] ++ calls) ∧
      (leaveShortcut ∈ calls ↔ ¬ clickSucceeded leaveSelectors noLeaveButtonWorld [] calls) ∧
      (r.isSome = true ↔
        (¬ clickSucceeded leaveSelectors noLeaveButtonWorld [] calls ∧
          ∃ pre post, calls = pre ++ leaveShortcut :: post ∧
            (noLeaveButtonWorld.resp ([] ++ pre) leaveShortcut).err ≠ none)) ∧
      (LeaveMeeting readyBot exitShownWorld []).1 = Outcome.ret r :=
  LeaveMeeting_result noLeaveButtonWorld exitShownWorld readyBot [] rfl rfl
    (by
      intro h a ha
      simp [noLeaveButtonWorld, exitShownWorld, scriptWorld, ha])

/-! ## The audio relay -/

theorem readCount_pos (env : AudioEnv) (offset remaining : Nat) :
    1 ≤ readCount env offset remaining := by
  unfold readCount
  exact le_max_left _ _

theorem readCount_le (env : AudioEnv) (offset remaining : Nat) (h : 1 ≤ remaining) :
    readCount env offset remaining ≤ remaining ∧
    readCount env offset remaining ≤ relayBufferSize := by
  unfold readCount relayBufferSize
  omega

theorem relay_spec (env : AudioEnv) (hread : ∀ off, env.readError off = none)
    (hwrite : ∀ i, env.writeError i = none) :
    ∀ fuel offset writes, (env.wav.drop offset).length < fuel →
      (generateAndSendTTS.relay env fuel offset writes).err = none ∧
      ∃ chunks, (generateAndSendTTS.relay env fuel offset writes).writes = writes ++ chunks ∧
        (∀ c ∈ chunks, 1 ≤ c.length ∧ c.length ≤ relayBufferSize) ∧
        chunks.flatten = env.wav.drop offset := by
  intro fuel
  induction fuel with
  | zero =>
    intro offset writes h
    exact absurd h (Nat.not_lt_zero _)
  | succ fuel ih =>
    intro offset writes h
    unfold generateAndSendTTS.relay
    simp only [hread, hwrite]
    by_cases hnil : env.wav.drop offset = []
    · rw [if_pos hnil]
      exact ⟨rfl, [], by simp, by simp, by simp [hnil]⟩
    · rw [if_neg hnil]
      have hlen : 1 ≤ (env.wav.drop offset).length :=
        Nat.succ_le_of_lt (List.length_pos.mpr hnil)
      have hpos := readCount_pos env offset (env.wav.drop offset).length
      obtain ⟨hle, hbuf⟩ := readCount_le env offset (env.wav.drop offset).length hlen
      have hdrop : env.wav.drop (offset + readCount env offset (env.wav.drop offset).length) =
          (env.wav.drop offset).drop (readCount env offset (env.wav.drop offset).length) := by
        rw [List.drop_drop, Nat.add_comm]
      obtain ⟨herr, chunks, hw, hc, hflat⟩ :=
        ih (offset + readCount env offset (env.wav.drop offset).length)
          (writes ++ [(env.wav.drop offset).take
            (readCount env offset (env.wav.drop offset).length)]) (by
          rw [hdrop, List.length_drop]
          omega)
      refine ⟨herr, (env.wav.drop offset).take
        (readCount env offset (env.wav.drop offset).length) :: chunks, ?_, ?_, ?_⟩
      · rw [hw]
        simp
      · intro c hmem
        rcases List.mem_cons.mp hmem with hc1 | hc1
        · subst hc1
          rw [List.length_take, Nat.min_eq_left hle]
          exact ⟨hpos, hbuf⟩
        · exact hc c hc1
      · rw [List.flatten_cons, hflat, hdrop, List.take_append_drop]

/-- C16: when the synthesis, the file access, the pipe opening and every chunk write
succeed, `generateAndSendTTS` returns nil and the chunks it writes to the pipe are
non-empty, hold at most 8192 bytes each, and concatenated in order give the waveform
without its first 44 bytes; nothing is written when the waveform has 44 bytes or fewer. -/
theorem generateAndSendTTS_streams_payload (env : AudioEnv) (text : String)
    (hsynth : env.synthesis text = none) (hopen : env.openWav = none)
    (hseek : env.seekWav = none) (hstat : env.pipeMissing = false)
    (hpipe : env.openPipe = none) (hread : ∀ off, env.readError off = none)
    (hwrite : ∀ i, env.writeError i = none) :
    (generateAndSendTTS env text).err = none ∧
    (∀ c ∈ (generateAndSendTTS env text).writes, 1 ≤ c.length ∧ c.length ≤ 8192) ∧
    (generateAndSendTTS env text).writes.flatten = env.wav.drop 44 ∧
    (env.wav.length ≤ 44 → (generateAndSendTTS env text).writes = []) := by
  obtain ⟨herr, chunks, hw, hc, hflat⟩ := relay_spec env hread hwrite
    ((env.wav.drop wavHeaderSize).length + 1) wavHeaderSize [] (Nat.lt_succ_self _)
  have hrun : generateAndSendTTS env text =
      generateAndSendTTS.relay env ((env.wav.drop wavHeaderSize).length + 1)
        wavHeaderSize [] := by
    simp [generateAndSendTTS, hsynth, hopen, hseek, hstat, hpipe]
  rw [hrun, hw]
  simp only [List.nil_append]
  refine ⟨herr, hc, hflat, ?_⟩
  intro hshort
  have hempty : env.wav.drop wavHeaderSize = [] := List.drop_eq_nil_iff.mpr hshort
  rw [hempty] at hflat
  cases chunks with
  | nil => rfl
  | cons c rest =>
    have h1 := (hc c (List.mem_cons_self c rest)).1
    have h2 : c = [] := by
      have := congrArg List.length hflat
      simp only [List.flatten_cons, List.length_append, List.length_nil] at this
      exact List.length_eq_zero.mp (by omega)
    rw [h2] at h1
    simp at h1

/-- Witness of C16: a waveform of 50 bytes read 4 bytes at a time. -/
theorem generateAndSendTTS_streams_payload_witness :
    (generateAndSendTTS (relayEnv (List.range 50) 4) "hello").err = none ∧
    (∀ c ∈ (generateAndSendTTS (relayEnv (List.range 50) 4) "hello").writes,
      1 ≤ c.length ∧ c.length ≤ 8192) ∧
    (generateAndSendTTS (relayEnv (List.range 50) 4) "hello").writes.flatten =
      (relayEnv (List.range 50) 4).wav.drop 44 ∧
    ((relayEnv (List.range 50) 4).wav.length ≤ 44 →
      (generateAndSendTTS (relayEnv (List.range 50) 4) "hello").writes = []) :=
  generateAndSendTTS_streams_payload (relayEnv (List.range 50) 4) "hello" rfl rfl rfl rfl rfl
    (fun _ => rfl) (fun _ => rfl)

/-- C17: when the synthesis and the file access succeed and the pipe path exists, a pipe
open that fails with ENXIO makes `generateAndSendTTS` return "no reader available on the
pipe", and a pipe open that fails with another errno makes it return "failed to open
pipe: " followed by the text of the errno, which is a different error; in both cases no
chunk is written. -/
theorem generateAndSendTTS_open_failure (env : AudioEnv) (text : String)
    (hsynth : env.synthesis text = none) (hopen : env.openWav = none)
    (hseek : env.seekWav = none) (hstat : env.pipeMissing = false) :
    (env.openPipe = some ENXIO →
      generateAndSendTTS env text =
        { err := some "no reader available on the pipe", writes := [] }) ∧
    (∀ errno, env.openPipe = some errno → errno ≠ ENXIO →
      generateAndSendTTS env text =
        { err := some ("failed to open pipe: " ++ env.errnoText errno), writes := [] } ∧
      (generateAndSendTTS env text).err ≠ some "no reader available on the pipe") := by
  refine ⟨?_, ?_⟩
  · intro hpipe
    simp [generateAndSendTTS, hsynth, hopen, hseek, hstat, hpipe]
  · intro errno hpipe hne
    have hrun : generateAndSendTTS env text =
        { err := some ("failed to open pipe: " ++ env.errnoText errno), writes := [] } := by
      simp [generateAndSendTTS, hsynth, hopen, hseek, hstat, hpipe, hne]
    refine ⟨hrun, ?_⟩
    rw [hrun]
    intro h
    simp only [Option.some.injEq] at h
    have h2 := congrArg String.data h
    simp only [String.data_append] at h2
    have h3 := congrArg List.head? h2
    simp at h3

/-- Witness of C17: a pipe without reader, and a pipe that cannot be opened for lack of
permission (errno 13). -/
theorem generateAndSendTTS_open_failure_witness :
    generateAndSendTTS (blockedRelayEnv ENXIO) "hello" =
      { err := some "no reader available on the pipe", writes := [] } ∧
    generateAndSendTTS (blockedRelayEnv 13) "hello" =
      { err := some ("failed to open pipe: " ++ (blockedRelayEnv 13).errnoText 13),
        writes := [] } ∧
    (generateAndSendTTS (blockedRelayEnv 13) "hello").err ≠
      some "no reader available on the pipe" :=
  ⟨(generateAndSendTTS_open_failure (blockedRelayEnv ENXIO) "hello" rfl rfl rfl rfl).1 rfl,
    (generateAndSendTTS_open_failure (blockedRelayEnv 13) "hello" rfl rfl rfl rfl).2 13 rfl
      (by decide)⟩

/-! ## Loading the environment -/

theorem splitFirst_of_split (sep : Char) (before after : List Char) (h : sep ∉ before) :
    splitFirst sep (before ++ sep :: after) = some (before, after) := by
  induction before with
  | nil => simp [splitFirst]
  | cons c rest ih =>
    have hc : c ≠ sep := fun hc => h (by simp [hc])
    have hrest : sep ∉ rest := fun hr => h (List.mem_cons_of_mem c hr)
    simp [splitFirst, hc, ih hrest]

theorem splitFirst_of_not_mem (sep : Char) (s : List Char) (h : sep ∉ s) :
    splitFirst sep s = none := by
  induction s with
  | nil => rfl
  | cons c rest ih =>
    have hc : c ≠ sep := fun hc => h (by simp [hc])
    have hrest : sep ∉ rest := fun hr => h (List.mem_cons_of_mem c hr)
    simp [splitFirst, hc, ih hrest]

theorem unquote_quoted (q : Char) (inner : List Char)
    (hq : q = doubleQuote ∨ q = singleQuote) : unquote (q :: (inner ++ [q])) = inner := by
  have hlast : (q :: (inner ++ [q])).getLast? = some q := by
    rw [← List.cons_append, List.getLast?_append]
    simp
  have hcond : (q :: (inner ++ [q])).length ≥ 2 ∧
      (((q :: (inner ++ [q])).head? = some doubleQuote ∧
          (q :: (inner ++ [q])).getLast? = some doubleQuote) ∨
        ((q :: (inner ++ [q])).head? = some singleQuote ∧
          (q :: (inner ++ [q])).getLast? = some singleQuote)) := by
    refine ⟨by simp, ?_⟩
    rw [hlast]
    rcases hq with h | h
    · left
      simp [h]
    · right
      simp [h]
  unfold unquote
  rw [if_pos hcond]
  simp

theorem unquote_plain (value : List Char)
    (h : ¬ ∃ q inner, (q = doubleQuote ∨ q = singleQuote) ∧ value = q :: (inner ++ [q])) :
    unquote value = value := by
  unfold unquote
  split
  · rename_i hcond
    exfalso
    obtain ⟨hlen, hquote⟩ := hcond
    have hshape : ∀ q, value.head? = some q → value.getLast? = some q →
        ∃ inner, value = q :: (inner ++ [q]) := by
      intro q hhead hlast
      cases value with
      | nil => simp at hhead
      | cons a rest =>
        simp only [List.head?_cons, Option.some.injEq] at hhead
        subst hhead
        cases rest with
        | nil => simp at hlen
        | cons x rest2 =>
          rw [List.getLast?_cons_cons] at hlast
          exact ⟨(x :: rest2).dropLast,
            by rw [List.dropLast_append_getLast? _ hlast]⟩
    rcases hquote with ⟨h1, h2⟩ | ⟨h1, h2⟩
    · obtain ⟨inner, hv⟩ := hshape _ h1 h2
      exact h ⟨doubleQuote, inner, Or.inl rfl, hv⟩
    · obtain ⟨inner, hv⟩ := hshape _ h1 h2
      exact h ⟨singleQuote, inner, Or.inr rfl, hv⟩
  · rfl

theorem loadEnv_line_run (text : String) (w : World) (t : List Act) :
    ∃ calls, loadEnv.line text w t = (Outcome.ret (), t ++ calls) ∧
      lineSets text.toList calls := by
  unfold loadEnv.line lineSets
  dsimp only
  generalize trimSpace text.toList = line
  by_cases hskip : line = [] ∨ line.head? = some '#'
  · refine ⟨[], by simp [hskip], ?_, fun _ => rfl⟩
    intro before after hsplit _ hhash
    rcases hskip with h | h
    · rw [h] at hsplit
      simp at hsplit
    · exact absurd h hhash
  · rcases Option.eq_none_or_eq_some (splitFirst '=' line) with hs | ⟨⟨b0, a0⟩, hs⟩
    · refine ⟨[], by simp [hskip, hs], ?_, fun _ => rfl⟩
      intro before after hsplit hfirst _
      rw [hsplit, splitFirst_of_split '=' before after hfirst] at hs
      simp at hs
    · refine ⟨[Act.setenv (String.mk (trimSpace b0)) (String.mk (unquote (trimSpace a0)))],
        by simp [hskip, hs, M.bind], ?_, ?_⟩
      · intro before after hsplit hfirst _
        rw [hsplit, splitFirst_of_split '=' before after hfirst] at hs
        simp only [Option.some.injEq, Prod.mk.injEq] at hs
        obtain ⟨hb, ha⟩ := hs
        subst hb
        subst ha
        refine ⟨unquote (trimSpace after), rfl, ?_, ?_⟩
        · intro q inner hq hv
          rw [hv]
          exact unquote_quoted q inner hq
        · intro hno
          exact unquote_plain _ hno
      · intro h
        rcases h with h | h | h
        · exact absurd (Or.inl h) hskip
        · exact absurd (Or.inr h) hskip
        · rw [splitFirst_of_not_mem '=' _ h] at hs
          simp at hs

theorem loadEnv_scan_run (w : World) (pieces : List (List Char)) :
    ∀ t, ∃ entries : List (List Act),
      loadEnv.scan pieces w t =
        (Outcome.ret (if pieces.any tokenTooLong then some "bufio.Scanner: token too long"
          else none), t ++ entries.flatten) ∧
      List.Forall₂ lineSets
        ((pieces.takeWhile (fun piece => !tokenTooLong piece)).map dropCR) entries := by
  induction pieces with
  | nil =>
    intro t
    exact ⟨[], by simp [loadEnv.scan], by simp⟩
  | cons piece rest ih =>
    intro t
    rcases Bool.eq_false_or_eq_true (tokenTooLong piece) with hlong | hlong
    · exact ⟨[], by simp [loadEnv.scan, hlong], by simp [hlong]⟩
    · obtain ⟨calls, hrun1, hline⟩ := loadEnv_line_run (String.mk (dropCR piece)) w t
      obtain ⟨entries, hrun2, hrest⟩ := ih (t ++ calls)
      refine ⟨calls :: entries, ?_, ?_⟩
      · unfold loadEnv.scan
        rw [if_neg (by simp [hlong])]
        simp only [run_bind]
        rw [bind_ret _ _ _ _ _ _ hrun1, hrun2]
        simp [hlong]
      · simp only [hlong, Bool.not_false, List.takeWhile_cons, if_true, List.map_cons]
        exact List.Forall₂.cons hline hrest

theorem replicate_append_cons {α : Type} (n : Nat) (a : α) (rest : List α) :
    List.replicate n a ++ a :: rest = a :: (List.replicate n a ++ rest) := by
  induction n with
  | zero => rfl
  | succ n ih =>
    rw [List.replicate_succ, List.cons_append, ih, List.cons_append]

theorem rawLines_replicate (n : Nat) (rest acc : List Char) :
    rawLines (List.replicate n 'x' ++ rest) acc = rawLines rest (List.replicate n 'x' ++ acc) := by
  induction n generalizing acc with
  | zero => rfl
  | succ n ih =>
    have hx : ¬ 'x' = lineFeed := by decide
    rw [List.replicate_succ, List.cons_append, rawLines, if_neg hx, ih,
      replicate_append_cons, List.cons_append]

theorem tokenTooLong_replicate (n : Nat) (h : 65536 ≤ n) :
    tokenTooLong (List.replicate n 'x') = true := by
  have hsize : Char.utf8Size 'x' = 1 := by decide
  simp [tokenTooLong, List.map_replicate, List.sum_replicate, hsize, h]

theorem loadEnv_long_line (n : Nat) (h : 65536 ≤ n) (rest : List Char) (w : World)
    (t : List Act) (hopen : (w.resp t Act.loadEnv).err = none)
    (htext : (w.resp t Act.loadEnv).s.toList = List.replicate n 'x' ++ lineFeed :: rest) :
    loadEnv w t = (Outcome.ret (some "bufio.Scanner: token too long"), t ++ [Act.loadEnv]) := by
  unfold loadEnv
  simp only [run_bind]
  rw [bind_ret _ _ _ _ _ _ (run_call Act.loadEnv w t)]
  simp only [hopen]
  rw [htext, rawLines_replicate, rawLines, if_pos rfl, List.append_nil, List.reverse_replicate,
    loadEnv.scan, if_pos (tokenTooLong_replicate n h)]
  rfl

/-- C20, counterexample: in the file of `longEnv` the second line `A=1` is not empty, is no
comment and holds an `=`, but the first line has 65536 bytes: `loadEnv` stops with the
error of the scanner and passes nothing to `os.Setenv`.  For the one-line file `=x`, which
qualifies as well, `loadEnv` passes the empty key to `os.Setenv`, which rejects it, and
returns no error: nothing is set. -/
theorem loadEnv_drops_lines :
    rawLines longEnv.toList [] = [List.replicate 65536 'x', ['A', '=', '1']] ∧
      trimSpace ['A', '=', '1'] = ['A'] ++ '=' :: ['1'] ∧
      loadEnv (envWorld longEnv) [] =
        (Outcome.ret (some "bufio.Scanner: token too long"), [Act.loadEnv]) ∧
      loadEnv (envWorld "=x") [] = (Outcome.ret none, [Act.loadEnv, Act.setenv "" "x"]) ∧
      (envWorld "=x").resp [Act.loadEnv] (Act.setenv "" "x") =
        Resp.failure "invalid argument" := by
  refine ⟨?_, rfl, ?_, rfl, rfl⟩
  · have h := rawLines_replicate 65536 (lineFeed :: "A=1".toList) []
    exact h.trans (by rw [rawLines, if_pos rfl, List.append_nil, List.reverse_replicate]; rfl)
  · exact loadEnv_long_line 65536 (Nat.le_refl _) "A=1".toList (envWorld longEnv) [] rfl rfl

/-- C20, amended: when the file `.env` opens, `loadEnv` returns the error of the scanner
(none unless a line has 65536 bytes or more) after one call of `os.Setenv` for each line
before the first line of 65536 bytes or more, in file order, as `lineSets` words it: a
line that is not empty after trimming, does not start with `#` and holds an `=` gives the
call with the trimmed text before the first `=` as key and the trimmed text after the
first `=` as value, one pair of surrounding quotes being removed exactly when the value
reads `q inner q` with `q` the double or the single quote; blank lines, comment lines and
lines without `=` give no call.  No other call is issued, and the answers of `os.Setenv`
are ignored. -/
theorem loadEnv_sets_lines (w : World) (t : List Act)
    (hopen : (w.resp t Act.loadEnv).err = none) :
    ∃ entries : List (List Act),
      loadEnv w t = (Outcome.ret (scanError (w.resp t Act.loadEnv).s),
        t ++ Act.loadEnv :: entries.flatten) ∧
      List.Forall₂ lineSets (scannedLines (w.resp t Act.loadEnv).s) entries := by
  obtain ⟨entries, hrun, hlines⟩ :=
    loadEnv_scan_run w (rawLines (w.resp t Act.loadEnv).s.toList []) (t ++ [Act.loadEnv])
  refine ⟨entries, ?_, hlines⟩
  unfold loadEnv
  simp only [run_bind]
  rw [bind_ret _ _ _ _ _ _ (run_call Act.loadEnv w t)]
  simp only [hopen]
  rw [hrun]
  simp [scanError]

theorem loadEnv_sets_lines_witness :
    ((envWorld sampleEnv).resp [] Act.loadEnv).err = none ∧
      loadEnv (envWorld sampleEnv) [] =
        (Outcome.ret none, [Act.loadEnv, Act.setenv "KEY" "v=1", Act.setenv "B" "\"2"]) ∧
      ∃ entries : List (List Act),
        loadEnv (envWorld sampleEnv) [] =
          (Outcome.ret (scanError ((envWorld sampleEnv).resp [] Act.loadEnv).s),
            [] ++ Act.loadEnv :: entries.flatten) ∧
        List.Forall₂ lineSets (scannedLines ((envWorld sampleEnv).resp [] Act.loadEnv).s)
          entries :=
  ⟨rfl, rfl, loadEnv_sets_lines (envWorld sampleEnv) [] rfl⟩

/-! ## The popup sweep -/

theorem split_append {α : Type} (A B pre post : List α) (a : α)
    (h : A ++ B = pre ++ a :: post) :
    (∃ post1, A = pre ++ a :: post1 ∧ post = post1 ++ B) ∨
      (∃ pre1, pre = A ++ pre1 ∧ B = pre1 ++ a :: post) := by
  rcases List.append_eq_append_iff.mp h with ⟨x, h1, h2⟩ | ⟨x, h1, h2⟩
  · exact Or.inr ⟨x, h1, h2⟩
  · cases x with
    | nil =>
      refine Or.inr ⟨[], ?_, ?_⟩
      · simpa using h1.symm
      · simpa using h2.symm
    | cons y ys =>
      simp only [List.cons_append, List.cons.injEq] at h2
      obtain ⟨hy, hpost⟩ := h2
      subst hy
      exact Or.inl ⟨ys, h1, hpost⟩

theorem split_cons {α : Type} (x a : α) (rest pre post : List α)
    (h : x :: rest = pre ++ a :: post) :
    (pre = [] ∧ a = x ∧ post = rest) ∨ (∃ pre1, pre = x :: pre1 ∧ rest = pre1 ++ a :: post) := by
  cases pre with
  | nil =>
    simp only [List.nil_append, List.cons.injEq] at h
    exact Or.inl ⟨rfl, h.1.symm, h.2.symm⟩
  | cons y ys =>
    simp only [List.cons_append, List.cons.injEq] at h
    exact Or.inr ⟨ys, by rw [h.1], h.2⟩

theorem split_single {α : Type} (x a : α) (pre post : List α) (h : [x] = pre ++ a :: post) :
    pre = [] ∧ a = x ∧ post = [] := by
  rcases split_cons x a [] pre post h with h1 | ⟨pre1, _, h2⟩
  · exact h1
  · simp at h2

theorem split_pair {α : Type} (x y a : α) (pre post : List α)
    (h : [x, y] = pre ++ a :: post) :
    (pre = [] ∧ a = x ∧ post = [y]) ∨ (pre = [x] ∧ a = y ∧ post = []) := by
  rcases split_cons x a [y] pre post h with h1 | ⟨pre1, hp, h2⟩
  · exact Or.inl h1
  · obtain ⟨h3, h4, h5⟩ := split_single y a pre1 post h2
    exact Or.inr ⟨by rw [hp, h3], h4, h5⟩

theorem split_triple {α : Type} (x y z a : α) (pre post : List α)
    (h : [x, y, z] = pre ++ a :: post) :
    (pre = [] ∧ a = x ∧ post = [y, z]) ∨ (pre = [x] ∧ a = y ∧ post = [z]) ∨
      (pre = [x, y] ∧ a = z ∧ post = []) := by
  rcases split_cons x a [y, z] pre post h with h1 | ⟨pre1, hp, h2⟩
  · exact Or.inl h1
  · rcases split_pair y z a pre1 post h2 with ⟨h3, h4, h5⟩ | ⟨h3, h4, h5⟩
    · exact Or.inr (Or.inl ⟨by rw [hp, h3], h4, h5⟩)
    · exact Or.inr (Or.inr ⟨by rw [hp, h3], h4, h5⟩)

theorem head_append_some {α : Type} (A B : List α) (x : α) (h : A.head? = some x) :
    (A ++ B).head? = some x := by
  cases A with
  | nil => simp at h
  | cons y ys => simpa using h

theorem getLast_append_some {α : Type} (A B : List α) (x : α) (h : B.getLast? = some x) :
    (A ++ B).getLast? = some x := by
  rw [List.getLast?_append, h]
  rfl

theorem popupDiscipline_nil (w : World) (t : List Act) : popupDiscipline w t [] := by
  refine ⟨?_, ?_, ?_⟩
  · intro pre l post h
    simp at h
  · intro pre l timeout post h
    simp at h
  · intro pre ms post h
    simp at h

theorem popupDiscipline_lookup (w : World) (t : List Act) (s : String) :
    popupDiscipline w t [Act.all s] := by
  refine ⟨?_, ?_, ?_⟩
  · intro pre l post h
    have h2 := (split_single _ _ _ _ h).2.1
    simp at h2
  · intro pre l timeout post h
    have h2 := (split_single _ _ _ _ h).2.1
    simp at h2
  · intro pre ms post h
    have h2 := (split_single _ _ _ _ h).2.1
    simp at h2

theorem popupDiscipline_head (w : World) (t B : List Act) (hB : popupDiscipline w t B)
    (x : Act) (hx : B.head? = some x) :
    (∀ l timeout, x ≠ Act.click l timeout) ∧ (∀ ms, x ≠ Act.sleep ms) := by
  cases B with
  | nil => simp at hx
  | cons y ys =>
    simp only [List.head?_cons, Option.some.injEq] at hx
    subst hx
    refine ⟨?_, ?_⟩
    · intro l timeout he
      have h := (hB.2.1 [] l timeout ys (by rw [he]; rfl)).2.1
      simp at h
    · intro ms he
      obtain ⟨_, l, h⟩ := hB.2.2 [] ms ys (by rw [he]; rfl)
      simp at h

theorem popupDiscipline_append (w : World) (t A B : List Act)
    (hA : popupDiscipline w t A) (hB : popupDiscipline w (t ++ A) B) :
    popupDiscipline w t (A ++ B) := by
  have hhead := popupDiscipline_head w (t ++ A) B hB
  refine ⟨?_, ?_, ?_⟩
  · intro pre l post h
    rcases split_append A B pre post _ h with ⟨post1, h1, h2⟩ | ⟨pre1, h1, h2⟩
    · have hA1 := hA.1 pre l post1 h1
      rw [hA1, h2]
      cases post1 with
      | nil =>
        simp only [List.nil_append]
        constructor
        · intro hx
          simp at hx
        · intro hB1
          exact ((hhead _ hB1).1 l (some 1000) rfl).elim
      | cons y ys => simp
    · have hB1 := hB.1 pre1 l post h2
      rw [h1, ← List.append_assoc]
      exact hB1
  · intro pre l timeout post h
    rcases split_append A B pre post _ h with ⟨post1, h1, h2⟩ | ⟨pre1, h1, h2⟩
    · obtain ⟨ht, hp, hA1⟩ := hA.2.1 pre l timeout post1 h1
      refine ⟨ht, hp, ?_⟩
      rw [hA1, h2]
      cases post1 with
      | nil =>
        simp only [List.nil_append]
        constructor
        · intro hx
          simp at hx
        · intro hB1
          exact ((hhead _ hB1).2 500 rfl).elim
      | cons y ys => simp
    · obtain ⟨ht, hp, hB1⟩ := hB.2.1 pre1 l timeout post h2
      refine ⟨ht, ?_, ?_⟩
      · rw [h1]
        exact getLast_append_some A pre1 _ hp
      · rw [h1, ← List.append_assoc]
        exact hB1
  · intro pre ms post h
    rcases split_append A B pre post _ h with ⟨post1, h1, h2⟩ | ⟨pre1, h1, h2⟩
    · exact hA.2.2 pre ms post1 h1
    · obtain ⟨hms, l, hp⟩ := hB.2.2 pre1 ms post h2
      refine ⟨hms, l, ?_⟩
      rw [h1]
      exact getLast_append_some A pre1 _ hp

theorem sweepCoverage_nil (w : World) (t : List Act) : sweepCoverage w t [] := by
  refine ⟨?_, ?_⟩
  · intro pre l post h
    simp at h
  · intro pre s post h
    simp at h

theorem sweepCoverage_append (w : World) (t A B : List Act)
    (hA : sweepCoverage w t A) (hB : sweepCoverage w (t ++ A) B) :
    sweepCoverage w t (A ++ B) := by
  refine ⟨?_, ?_⟩
  · intro pre l post h
    rcases split_append A B pre post _ h with ⟨post1, h1, h2⟩ | ⟨pre1, h1, h2⟩
    · exact hA.1 pre l post1 h1
    · obtain ⟨s, i, pre0, mid, hl, hp, herr, hi⟩ := hB.1 pre1 l post h2
      refine ⟨s, i, A ++ pre0, mid, hl, ?_, ?_, ?_⟩
      · rw [h1, hp, List.append_assoc]
      · rw [← List.append_assoc]
        exact herr
      · rw [← List.append_assoc]
        exact hi
  · intro pre s post h herr i hi
    rcases split_append A B pre post _ h with ⟨post1, h1, h2⟩ | ⟨pre1, h1, h2⟩
    · obtain ⟨mid, post2, hp, hmid⟩ := hA.2 pre s post1 h1 herr i hi
      refine ⟨mid, post2 ++ B, ?_, hmid⟩
      rw [h2, hp]
      simp
    · rw [h1, ← List.append_assoc] at herr hi
      exact hB.2 pre1 s post h2 herr i hi

theorem ClearPopups_dismiss_run (s : String) (i : Nat) (w : World) (t : List Act) :
    ∃ calls, ClearPopups.dismiss s i w t = (Outcome.ret (), t ++ calls) ∧
      popupDiscipline w t calls ∧
      ∃ rest, calls = Act.isVisible (Loc.nth s i) :: rest ∧
        ∀ a ∈ rest, a = popupClick (Loc.nth s i) ∨ a = settleDelay := by
  by_cases hv : reportedVisible (w.resp t (Act.isVisible (Loc.nth s i)))
  · rcases Option.eq_none_or_eq_some
      (w.resp (t ++ [Act.isVisible (Loc.nth s i)]) (Act.click (Loc.nth s i) (some 1000))).err
      with hc | ⟨e, hc⟩
    · refine ⟨[Act.isVisible (Loc.nth s i), popupClick (Loc.nth s i), settleDelay],
        ?_, ⟨?_, ?_, ?_⟩, ⟨_, rfl, by simp⟩⟩
      · simp [ClearPopups.dismiss, M.bind, hv.1, hv.2, hc, popupClick, settleDelay]
      · intro pre l post h
        rcases split_triple _ _ _ _ _ _ h with ⟨rfl, ha, rfl⟩ | ⟨rfl, ha, rfl⟩ | ⟨rfl, ha, rfl⟩
        · simp only [Act.isVisible.injEq] at ha
          subst ha
          simpa using hv
        · simp [popupClick] at ha
        · simp [settleDelay] at ha
      · intro pre l timeout post h
        rcases split_triple _ _ _ _ _ _ h with ⟨rfl, ha, rfl⟩ | ⟨rfl, ha, rfl⟩ | ⟨rfl, ha, rfl⟩
        · simp at ha
        · simp only [popupClick, Act.click.injEq] at ha
          obtain ⟨hl, ht⟩ := ha
          subst hl
          subst ht
          simp [hc]
        · simp [settleDelay] at ha
      · intro pre ms post h
        rcases split_triple _ _ _ _ _ _ h with ⟨rfl, ha, rfl⟩ | ⟨rfl, ha, rfl⟩ | ⟨rfl, ha, rfl⟩
        · simp at ha
        · simp [popupClick] at ha
        · simp only [settleDelay, Act.sleep.injEq] at ha
          exact ⟨ha, Loc.nth s i, by simp⟩
    · refine ⟨[Act.isVisible (Loc.nth s i), popupClick (Loc.nth s i)],
        ?_, ⟨?_, ?_, ?_⟩, ⟨_, rfl, by simp⟩⟩
      · simp [ClearPopups.dismiss, M.bind, hv.1, hv.2, hc, popupClick]
      · intro pre l post h
        rcases split_pair _ _ _ _ _ h with ⟨rfl, ha, rfl⟩ | ⟨rfl, ha, rfl⟩
        · simp only [Act.isVisible.injEq] at ha
          subst ha
          simpa using hv
        · simp [popupClick] at ha
      · intro pre l timeout post h
        rcases split_pair _ _ _ _ _ h with ⟨rfl, ha, rfl⟩ | ⟨rfl, ha, rfl⟩
        · simp at ha
        · simp only [popupClick, Act.click.injEq] at ha
          obtain ⟨hl, ht⟩ := ha
          subst hl
          subst ht
          simp [hc]
      · intro pre ms post h
        rcases split_pair _ _ _ _ _ h with ⟨rfl, ha, rfl⟩ | ⟨rfl, ha, rfl⟩
        · simp at ha
        · simp [popupClick] at ha
  · have hcond : (w.resp t (Act.isVisible (Loc.nth s i))).err.isSome = true ∨
        (w.resp t (Act.isVisible (Loc.nth s i))).b = false := by
      unfold reportedVisible at hv
      rcases Option.eq_none_or_eq_some (w.resp t (Act.isVisible (Loc.nth s i))).err
        with he | ⟨e, he⟩
      · rcases Bool.eq_false_or_eq_true (w.resp t (Act.isVisible (Loc.nth s i))).b with hb | hb
        · exact absurd ⟨he, hb⟩ hv
        · exact Or.inr hb
      · simp [he]
    refine ⟨[Act.isVisible (Loc.nth s i)], ?_, ⟨?_, ?_, ?_⟩, ⟨_, rfl, by simp⟩⟩
    · simp [ClearPopups.dismiss, M.bind, hcond]
    · intro pre l post h
      obtain ⟨rfl, ha, rfl⟩ := split_single _ _ _ _ h
      simp only [Act.isVisible.injEq] at ha
      subst ha
      simpa using hv
    · intro pre l timeout post h
      have ha := (split_single _ _ _ _ h).2.1
      simp at ha
    · intro pre ms post h
      have ha := (split_single _ _ _ _ h).2.1
      simp at ha

theorem ClearPopups_elements_run (s : String) (w : World) (elements : List Nat) :
    ∀ t, ∃ calls, ClearPopups.elements s elements w t = (Outcome.ret (), t ++ calls) ∧
      popupDiscipline w t calls ∧
      (∀ a ∈ calls, (∃ i ∈ elements, a = Act.isVisible (Loc.nth s i)) ∨
        (∃ l, a = popupClick l) ∨ a = settleDelay) ∧
      (∀ i ∈ elements, Act.isVisible (Loc.nth s i) ∈ calls) := by
  induction elements with
  | nil =>
    intro t
    exact ⟨[], by simp [ClearPopups.elements], popupDiscipline_nil w t, by simp, by simp⟩
  | cons i rest ih =>
    intro t
    obtain ⟨c1, hrun1, hd1, tail, hshape, htail⟩ := ClearPopups_dismiss_run s i w t
    obtain ⟨c2, hrun2, hd2, hkind2, hall2⟩ := ih (t ++ c1)
    refine ⟨c1 ++ c2, ?_, popupDiscipline_append w t c1 c2 hd1 hd2, ?_, ?_⟩
    · unfold ClearPopups.elements
      simp only [run_bind]
      rw [bind_ret _ _ _ _ _ _ hrun1, hrun2, List.append_assoc]
    · intro a ha
      rcases List.mem_append.mp ha with h | h
      · rw [hshape] at h
        rcases List.mem_cons.mp h with h | h
        · exact Or.inl ⟨i, List.mem_cons_self i rest, h⟩
        · rcases htail a h with h | h
          · exact Or.inr (Or.inl ⟨_, h⟩)
          · exact Or.inr (Or.inr h)
      · rcases hkind2 a h with ⟨j, hj, h⟩ | h
        · exact Or.inl ⟨j, List.mem_cons_of_mem i hj, h⟩
        · exact Or.inr h
    · intro j hj
      rcases List.mem_cons.mp hj with h | h
      · rw [h, hshape]
        simp
      · exact List.mem_append_right c1 (hall2 j h)

theorem ClearPopups_sweep_run (b : Bot) (hpage : b.page = true) (w : World)
    (selectors : List String) :
    ∀ t, ∃ calls, ClearPopups.sweep b selectors w t = (Outcome.ret (), t ++ calls) ∧
      popupDiscipline w t calls ∧ sweepCoverage w t calls ∧
      calls.filter isLookup = selectors.map Act.all ∧
      ∀ a ∈ calls, isLookup a = true ∨ (∃ l, a = Act.isVisible l) ∨
        (∃ l, a = popupClick l) ∨ a = settleDelay := by
  induction selectors with
  | nil =>
    intro t
    exact ⟨[], by simp [ClearPopups.sweep], popupDiscipline_nil w t, sweepCoverage_nil w t, rfl,
      by simp⟩
  | cons s rest ih =>
    intro t
    rcases Option.eq_none_or_eq_some (w.resp t (Act.all s)).err with he | ⟨e, he⟩
    · obtain ⟨c1, hrun1, hd1, hkind1, hall1⟩ :=
        ClearPopups_elements_run s w (List.range (w.resp t (Act.all s)).n.toNat) (t ++ [Act.all s])
      obtain ⟨c2, hrun2, hd2, hc2, hf2, hk2⟩ := ih (t ++ [Act.all s] ++ c1)
      have hnolookup : ∀ a ∈ c1, isLookup a = false := by
        intro a ha
        rcases hkind1 a ha with ⟨j, _, h⟩ | ⟨l, h⟩ | h
        · rw [h]
          rfl
        · rw [h]
          rfl
        · rw [h]
          rfl
      have hblockD : popupDiscipline w t (Act.all s :: c1) :=
        popupDiscipline_append w t [Act.all s] c1 (popupDiscipline_lookup w t s) hd1
      have hblockC : sweepCoverage w t (Act.all s :: c1) := by
        refine ⟨?_, ?_⟩
        · intro pre l post h
          rcases split_cons _ _ _ _ _ h with ⟨_, ha, _⟩ | ⟨pre1, hp, h2⟩
          · simp at ha
          · have hmem : Act.isVisible l ∈ c1 := by
              rw [h2]
              simp
            rcases hkind1 _ hmem with ⟨j, hj, h3⟩ | ⟨l2, h3⟩ | h3
            · simp only [Act.isVisible.injEq] at h3
              refine ⟨s, j, [], pre1, h3, by rw [hp]; rfl, by simpa using he, ?_⟩
              simpa using hj
            · simp [popupClick] at h3
            · simp [settleDelay] at h3
        · intro pre s2 post h herr i hi
          rcases split_cons _ _ _ _ _ h with ⟨hp, ha, hpost⟩ | ⟨pre1, hp, h2⟩
          · simp only [Act.all.injEq] at ha
            subst ha
            subst hp
            subst hpost
            simp only [List.append_nil] at hi
            have hmem := hall1 i (by simpa using hi)
            obtain ⟨mid, post2, h3⟩ := List.append_of_mem hmem
            refine ⟨mid, post2, h3, ?_⟩
            intro a ha
            exact hnolookup a (by rw [h3]; exact List.mem_append_left _ ha)
          · have hmem : Act.all s2 ∈ c1 := by
              rw [h2]
              simp
            have := hnolookup _ hmem
            simp [isLookup] at this
      have hshift : t ++ [Act.all s] ++ c1 = t ++ Act.all s :: c1 := by simp
      have hf1 : c1.filter isLookup = [] :=
        List.filter_eq_nil_iff.mpr (fun a ha => by simp [hnolookup a ha])
      rw [hshift] at hrun2 hd2 hc2
      refine ⟨Act.all s :: c1 ++ c2, ?_, ?_, ?_, ?_, ?_⟩
      · unfold ClearPopups.sweep
        simp only [run_bind]
        rw [bind_ret _ _ _ _ _ _ (run_pageCall b _ w t hpage)]
        simp only [he]
        simp only [run_bind]
        rw [bind_ret _ _ _ _ _ _ hrun1, hshift, hrun2]
        simp only [List.append_assoc]
      · exact popupDiscipline_append w t _ _ hblockD hd2
      · exact sweepCoverage_append w t _ _ hblockC hc2
      · simp [List.filter_append, List.filter_cons, hf1, hf2, isLookup]
      · intro a ha
        rcases List.mem_append.mp ha with h | h
        · rcases List.mem_cons.mp h with h | h
          · rw [h]
            exact Or.inl rfl
          · rcases hkind1 a h with ⟨j, _, h3⟩ | h3 | h3
            · exact Or.inr (Or.inl ⟨_, h3⟩)
            · exact Or.inr (Or.inr (Or.inl h3))
            · exact Or.inr (Or.inr (Or.inr h3))
        · exact hk2 a h
    · obtain ⟨c2, hrun2, hd2, hc2, hf2, hk2⟩ := ih (t ++ [Act.all s])
      have hblockC : sweepCoverage w t [Act.all s] := by
        refine ⟨?_, ?_⟩
        · intro pre l post h
          have ha := (split_single _ _ _ _ h).2.1
          simp at ha
        · intro pre s2 post h herr
          obtain ⟨hp, ha, _⟩ := split_single _ _ _ _ h
          simp only [Act.all.injEq] at ha
          subst ha
          subst hp
          simp only [List.append_nil] at herr
          rw [he] at herr
          simp at herr
      refine ⟨[Act.all s] ++ c2, ?_, ?_, ?_, ?_, ?_⟩
      · unfold ClearPopups.sweep
        simp only [run_bind]
        rw [bind_ret _ _ _ _ _ _ (run_pageCall b _ w t hpage)]
        simp only [he]
        rw [hrun2]
        simp only [List.append_assoc]
      · exact popupDiscipline_append w t _ _ (popupDiscipline_lookup w t s) hd2
      · exact sweepCoverage_append w t _ _ hblockC hc2
      · rw [List.filter_append, hf2]
        simp [isLookup]
      · intro a ha
        rcases List.mem_append.mp ha with h | h
        · simp only [List.mem_singleton] at h
          rw [h]
          exact Or.inl rfl
        · exact hk2 a h

theorem ClearPopups_run (b : Bot) (hpage : b.page = true) (w : World) (t : List Act) :
    ∃ calls, ClearPopups b w t = (Outcome.ret (), t ++ calls ++ [finalDelay]) ∧
      popupDiscipline w t calls ∧ sweepCoverage w t calls ∧
      calls.filter isLookup = popupSelectors.map Act.all ∧
      ∀ a ∈ calls, isLookup a = true ∨ (∃ l, a = Act.isVisible l) ∨
        (∃ l, a = popupClick l) ∨ a = settleDelay := by
  obtain ⟨calls, hrun, hd, hc, hf, hk⟩ := ClearPopups_sweep_run b hpage w popupSelectors t
  refine ⟨calls, ?_, hd, hc, hf, hk⟩
  unfold ClearPopups
  simp only [run_bind]
  rw [bind_ret _ _ _ _ _ _ hrun]
  simp [M.bind, finalDelay]

/-- C14: on a Bot with a page, whatever the lookups, the visibility checks and the clicks
answer, `ClearPopups` returns.  The calls it issues are those of the sweep followed by the
final delay of one second.  The sweep issues nothing but lookups, visibility checks, clicks
with the one-second timeout and settle delays; its lookups are those of the 29 catalogue
patterns, once each and in catalogue order; every element returned by a successful lookup
has its visibility checked before the next lookup, and only such elements are checked; a
click is issued on an element exactly directly after a visibility check that reported it
visible; and the settle delay of 500 ms is issued exactly directly after a click that
succeeded. -/
theorem ClearPopups_sweeps (w : World) (b : Bot) (t : List Act) (hpage : b.page = true) :
    ∃ calls, ClearPopups b w t = (Outcome.ret (), t ++ calls ++ [finalDelay]) ∧
      (∀ a ∈ calls, isLookup a = true ∨ (∃ l, a = Act.isVisible l) ∨
        (∃ l, a = popupClick l) ∨ a = settleDelay) ∧
      calls.filter isLookup = popupSelectors.map Act.all ∧ popupSelectors.length = 29 ∧
      sweepCoverage w t calls ∧ popupDiscipline w t calls := by
  obtain ⟨calls, hrun, hd, hc, hf, hk⟩ := ClearPopups_run b hpage w t
  exact ⟨calls, hrun, hk, hf, rfl, hc, hd⟩

theorem ClearPopups_sweeps_witness :
    readyBot.page = true ∧
      ∃ calls, ClearPopups readyBot popupWorld [] = (Outcome.ret (), [] ++ calls ++ [finalDelay]) ∧
        (∀ a ∈ calls, isLookup a = true ∨ (∃ l, a = Act.isVisible l) ∨
          (∃ l, a = popupClick l) ∨ a = settleDelay) ∧
        calls.filter isLookup = popupSelectors.map Act.all ∧ popupSelectors.length = 29 ∧
        sweepCoverage popupWorld [] calls ∧ popupDiscipline popupWorld [] calls :=
  ⟨rfl, ClearPopups_sweeps popupWorld readyBot [] rfl⟩

/-- C15, counterexample: on a page that never changes (so no new popup appears), with one
visible popup whose click times out, the second of two `ClearPopups` runs in succession
issues the same calls as the first, the click on the popup included. -/
theorem ClearPopups_second_run_clicks :
    noNewPopups stuckWorld [] ∧
      ClearPopups readyBot stuckWorld [] = (Outcome.ret (), stuckSweep) ∧
      ClearPopups readyBot stuckWorld stuckSweep = (Outcome.ret (), stuckSweep ++ stuckSweep) ∧
      popupClick gotItPopup ∈ stuckSweep ∧ isClick (popupClick gotItPopup) = true := by
  refine ⟨?_, rfl, rfl, by decide, rfl⟩
  intro h ext s i
  exact ⟨fun hx => hx, fun hx => hx⟩

/-- C15, amended: on a Bot with a page, when no new popup appears from the start of the
first run on, and every element clicked in the first run is gone for good once it has been
clicked (whatever the click returned), the second of two `ClearPopups` runs in succession
issues no click. -/
theorem ClearPopups_second_run_idle (w : World) (b : Bot) (t calls1 calls2 : List Act)
    (hpage : b.page = true)
    (hfirst : ClearPopups b w t = (Outcome.ret (), t ++ calls1))
    (hsecond : ClearPopups b w (t ++ calls1) = (Outcome.ret (), t ++ calls1 ++ calls2))
    (hstable : noNewPopups w t) (hdismiss : clicksDismiss w t calls1) :
    ∀ a ∈ calls2, isClick a = false := by
  obtain ⟨c1, hr1, hd1, hc1, hf1, _⟩ := ClearPopups_run b hpage w t
  obtain ⟨c2, hr2, hd2, hc2, hf2, _⟩ := ClearPopups_run b hpage w (t ++ calls1)
  have e1 : calls1 = c1 ++ [finalDelay] := by
    rw [hfirst] at hr1
    simp only [Prod.mk.injEq, true_and, List.append_assoc] at hr1
    exact List.append_cancel_left hr1
  have e2 : calls2 = c2 ++ [finalDelay] := by
    rw [hsecond] at hr2
    simp only [Prod.mk.injEq, true_and, List.append_assoc] at hr2
    exact List.append_cancel_left (List.append_cancel_left hr2)
  intro a ha
  cases hcl : isClick a with
  | false => rfl
  | true =>
    exfalso
    obtain ⟨l, timeout, hal⟩ : ∃ l timeout, a = Act.click l timeout := by
      cases a <;> simp [isClick] at hcl
      exact ⟨_, _, rfl⟩
    subst hal
    have hin : Act.click l timeout ∈ c2 := by
      rw [e2] at ha
      rcases List.mem_append.mp ha with h | h
      · exact h
      · simp [finalDelay] at h
    obtain ⟨pre, post, hsplit⟩ := List.append_of_mem hin
    obtain ⟨htimeout, hlast, _⟩ := hd2.2.1 pre l timeout post hsplit
    subst htimeout
    obtain ⟨pre2, hpre⟩ := List.getLast?_eq_some_iff.mp hlast
    have hsplit2 : c2 = pre2 ++ Act.isVisible l :: (popupClick l :: post) := by
      rw [hsplit, hpre]
      simp [popupClick]
    have hvis : reportedVisible (w.resp (t ++ calls1 ++ pre2) (Act.isVisible l)) :=
      (hd2.1 pre2 l _ hsplit2).mpr rfl
    obtain ⟨s, i, pre0, mid, hl, hpre2, herr2, hi2⟩ := hc2.1 pre2 l _ hsplit2
    subst hl
    have hlook : Act.all s ∈ c1 := by
      have h1 : Act.all s ∈ c2.filter isLookup :=
        List.mem_filter.mpr ⟨by rw [hsplit2, hpre2]; simp, rfl⟩
      rw [hf2, ← hf1] at h1
      exact (List.mem_filter.mp h1).1
    obtain ⟨p, q, hc1split⟩ := List.append_of_mem hlook
    have hext1 : t ++ calls1 ++ pre0 = t ++ p ++ (Act.all s :: q ++ [finalDelay] ++ pre0) := by
      rw [e1, hc1split]
      simp
    rw [hext1] at herr2 hi2
    obtain ⟨herr1, hi1⟩ := (hstable p _ s i).1 ⟨herr2, hi2⟩
    obtain ⟨mid1, post1, hq, _⟩ := hc1.2 p s q hc1split herr1 i hi1
    have hc1split2 : c1 = (p ++ Act.all s :: mid1) ++ Act.isVisible (Loc.nth s i) :: post1 := by
      rw [hc1split, hq]
      simp
    have hext2 : t ++ calls1 ++ pre2 = t ++ (p ++ Act.all s :: mid1) ++
        (Act.isVisible (Loc.nth s i) :: post1 ++ [finalDelay] ++ pre2) := by
      rw [e1, hc1split2]
      simp
    have hvis1 : reportedVisible
        (w.resp (t ++ (p ++ Act.all s :: mid1)) (Act.isVisible (Loc.nth s i))) := by
      rw [hext2] at hvis
      exact (hstable _ _ s i).2 hvis
    have hnext := (hd1.1 _ _ post1 hc1split2).mp hvis1
    obtain ⟨post3, hpost1⟩ : ∃ post3, post1 = popupClick (Loc.nth s i) :: post3 := by
      cases post1 with
      | nil => simp at hnext
      | cons y ys =>
        simp only [List.head?_cons, Option.some.injEq] at hnext
        exact ⟨ys, by rw [hnext]⟩
    have hcalls1 : calls1 = (p ++ Act.all s :: mid1 ++ [Act.isVisible (Loc.nth s i)]) ++
        popupClick (Loc.nth s i) :: (post3 ++ [finalDelay]) := by
      rw [e1, hc1split2, hpost1]
      simp
    have hgone := hdismiss _ _ _ hcalls1 (post3 ++ [finalDelay] ++ pre2)
    apply hgone
    have hext3 : t ++ (p ++ Act.all s :: mid1 ++ [Act.isVisible (Loc.nth s i)]) ++
        popupClick (Loc.nth s i) :: (post3 ++ [finalDelay] ++ pre2) = t ++ calls1 ++ pre2 := by
      rw [hcalls1]
      simp
    rw [hext3]
    exact hvis

theorem ClearPopups_second_run_idle_witness :
    readyBot.page = true ∧ noNewPopups popupWorld [] ∧
      clicksDismiss popupWorld [] popupFirstSweep ∧
      popupClick gotItPopup ∈ popupFirstSweep ∧
      ∀ a ∈ popupIdleSweep, isClick a = false := by
  have hstable : noNewPopups popupWorld [] := by
    intro h ext s i
    refine ⟨fun hx => hx, ?_⟩
    simp only [reportedVisible, popupWorld, Resp.success, List.nil_append, true_and,
      Bool.and_eq_true, Bool.not_eq_true', decide_eq_true_eq, List.contains_eq_any_beq,
      List.any_append, Bool.or_eq_false_iff]
    intro hx
    exact ⟨hx.1, hx.2.1⟩
  have hdismiss : clicksDismiss popupWorld [] popupFirstSweep := by
    intro pre l post _ ext
    simp only [reportedVisible, popupWorld, Resp.success, List.nil_append, true_and,
      Bool.and_eq_true, Bool.not_eq_true', decide_eq_true_eq, List.contains_eq_any_beq,
      List.any_append, List.any_cons, Bool.or_eq_false_iff, not_and]
    intro hl
    subst hl
    simp
  exact ⟨rfl, hstable, hdismiss, by decide,
    ClearPopups_second_run_idle popupWorld readyBot [] popupFirstSweep popupIdleSweep
      rfl rfl rfl hstable hdismiss⟩

/-! ## The audit trail and the password check -/

theorem orderly_nil (b : Bot) (w : World) (t : List Act) : Orderly b w t [] := by
  refine ⟨?_, ?_, ?_⟩
  · intro pre s timeout post h
    simp at h
  · intro pre s text delay post h
    simp at h
  · intro pre s post h
    simp at h

theorem orderly_loose (b : Bot) (w : World) (t calls : List Act)
    (h : ∀ a ∈ calls, isLoose a = true) : Orderly b w t calls := by
  refine ⟨?_, ?_, ?_⟩
  · intro pre s timeout post hs
    have := h (Act.click (Loc.css s) timeout) (by rw [hs]; simp)
    simp [isLoose] at this
  · intro pre s text delay post hs hmem
    have := h (Act.pressSequentially (Loc.css s) text delay) (by rw [hs]; simp)
    simp [isLoose, hmem] at this
  · intro pre s post hs
    have := h (Act.count (Loc.css s)) (by rw [hs]; simp)
    simp [isLoose] at this

theorem orderly_append (b : Bot) (w : World) (t A B : List Act)
    (hA : Orderly b w t A) (hB : Orderly b w (t ++ A) B) : Orderly b w t (A ++ B) := by
  refine ⟨?_, ?_, ?_⟩
  · intro pre s timeout post h
    rcases split_append A B pre post _ h with ⟨post1, h1, _⟩ | ⟨pre1, h1, h2⟩
    · exact hA.1 pre s timeout post1 h1
    · obtain ⟨pre2, action, context, hp⟩ := hB.1 pre1 s timeout post h2
      exact ⟨A ++ pre2, action, context, by rw [h1, hp, List.append_assoc]⟩
  · intro pre s text delay post h hmem
    rcases split_append A B pre post _ h with ⟨post1, h1, _⟩ | ⟨pre1, h1, h2⟩
    · exact hA.2.1 pre s text delay post1 h1 hmem
    · obtain ⟨pre2, hp, hw, hc⟩ := hB.2.1 pre1 s text delay post h2 hmem
      refine ⟨A ++ pre2, by rw [h1, hp, List.append_assoc], ?_, ?_⟩
      · rw [← List.append_assoc]
        exact hw
      · rw [← List.append_assoc]
        exact hc
  · intro pre s post h
    rcases split_append A B pre post _ h with ⟨post1, h1, h2⟩ | ⟨pre1, h1, h2⟩
    · have hv := hA.2.2 pre s post1 h1
      split
      · rename_i hn
        rw [if_pos hn] at hv
        obtain ⟨before, after, hsel, hhead⟩ := hv
        exact ⟨before, after, hsel, by rw [h2]; exact head_append_some _ _ _ hhead⟩
      · rename_i hn
        rw [if_neg hn] at hv
        rw [h2]
        exact head_append_some _ _ _ hv
    · have hv := hB.2.2 pre1 s post h2
      rw [h1, ← List.append_assoc]
      exact hv

theorem traced_pure (b : Bot) {α : Type} {Q : α → Prop} (x : α) (hq : Q x) :
    Traced b Q (pure x : M α) := by
  intro w t
  exact ⟨x, [], by simp, hq, orderly_nil b w t⟩

theorem traced_call (b : Bot) (a : Act) (h : isLoose a = true) :
    Traced b (fun _ => True) (call a) := by
  intro w t
  refine ⟨w.resp t a, [a], rfl, trivial, orderly_loose b w t [a] ?_⟩
  intro x hx
  simp only [List.mem_singleton] at hx
  rw [hx]
  exact h

theorem traced_pageCall (b : Bot) (hpage : b.page = true) (a : Act) (h : isLoose a = true) :
    Traced b (fun _ => True) (pageCall b a) := by
  have he : pageCall b a = call a := by simp [pageCall, hpage]
  rw [he]
  exact traced_call b a h

theorem traced_bind (b : Bot) {α β : Type} {Q : α → Prop} {R : β → Prop} {m : M α}
    {f : α → M β} (hm : Traced b Q m) (hf : ∀ x, Q x → Traced b R (f x)) :
    Traced b R (m >>= f) := by
  intro w t
  obtain ⟨x, c1, hrun1, hq, ho1⟩ := hm w t
  obtain ⟨y, c2, hrun2, hr, ho2⟩ := hf x hq w (t ++ c1)
  refine ⟨y, c1 ++ c2, ?_, hr, orderly_append b w t c1 c2 ho1 ho2⟩
  simp only [run_bind]
  rw [bind_ret _ _ _ _ _ _ hrun1, hrun2, List.append_assoc]

theorem traced_mono (b : Bot) {α : Type} {Q Q2 : α → Prop} {m : M α}
    (hm : Traced b Q m) (hQ : ∀ x, Q x → Q2 x) : Traced b Q2 m := by
  intro w t
  obtain ⟨x, c, hrun, hq, ho⟩ := hm w t
  exact ⟨x, c, hrun, hQ x hq, ho⟩

theorem traced_clickWithLogging (b : Bot) (hpage : b.page = true)
    (selector action context : String) :
    Traced b (fun _ => True) (clickWithLogging b selector action context) := by
  intro w t
  refine ⟨_, _, run_clickWithLogging b hpage selector action context w t, trivial, ?_, ?_, ?_⟩
  · intro pre s timeout post h
    rcases split_pair _ _ _ _ _ h with ⟨_, ha, _⟩ | ⟨hp, ha, _⟩
    · simp at ha
    · simp only [Act.click.injEq, Loc.css.injEq] at ha
      exact ⟨[], action, context, by rw [hp, ha.1]; rfl⟩
  · intro pre s text delay post h
    rcases split_pair _ _ _ _ _ h with ⟨_, ha, _⟩ | ⟨_, ha, _⟩
    · simp at ha
    · simp at ha
  · intro pre s post h
    rcases split_pair _ _ _ _ _ h with ⟨_, ha, _⟩ | ⟨_, ha, _⟩
    · simp at ha
    · simp at ha

theorem traced_firstVisible (b : Bot) (hpage : b.page = true) (timeout : Int)
    (selectors : List String) :
    Traced b (fun x => x = "" ∨ x ∈ selectors) (firstVisible b timeout selectors) := by
  induction selectors with
  | nil => exact traced_pure b "" (Or.inl rfl)
  | cons s rest ih =>
    unfold firstVisible
    refine traced_bind b (traced_pageCall b hpage _ rfl) ?_
    intro r _
    split
    · exact traced_pure b s (Or.inr (List.mem_cons_self s rest))
    · refine traced_mono b ih ?_
      intro x hx
      rcases hx with hx | hx
      · exact Or.inl hx
      · exact Or.inr (List.mem_cons_of_mem s hx)

theorem traced_anyVisible (b : Bot) (hpage : b.page = true) (timeout : Int)
    (selectors : List String) :
    Traced b (fun _ => True) (anyVisible b timeout selectors) := by
  induction selectors with
  | nil => exact traced_pure b false trivial
  | cons s rest ih =>
    unfold anyVisible
    refine traced_bind b (traced_pageCall b hpage _ rfl) ?_
    intro r _
    split
    · exact traced_pure b true trivial
    · exact ih

theorem traced_findElementFast (b : Bot) (hpage : b.page = true) (timeout : Int)
    (selectors : List String) :
    Traced b (fun _ => True) (findElementFast b selectors timeout) := by
  induction selectors with
  | nil =>
    unfold findElementFast
    exact traced_pure b _ trivial
  | cons s rest ih =>
    unfold findElementFast
    refine traced_bind b (traced_pageCall b hpage _ rfl) ?_
    intro r _
    split
    · exact traced_pure b _ trivial
    · exact ih

theorem traced_dismiss (b : Bot) (selector : String) (i : Nat) :
    Traced b (fun _ => True) (ClearPopups.dismiss selector i) := by
  unfold ClearPopups.dismiss
  refine traced_bind b (traced_call b _ rfl) ?_
  intro v _
  split
  · exact traced_pure b () trivial
  · refine traced_bind b (traced_call b _ rfl) ?_
    intro c _
    split
    · exact traced_pure b () trivial
    · refine traced_bind b (traced_call b _ rfl) ?_
      intro _ _
      exact traced_pure b () trivial

theorem traced_elements (b : Bot) (selector : String) (elements : List Nat) :
    Traced b (fun _ => True) (ClearPopups.elements selector elements) := by
  induction elements with
  | nil => exact traced_pure b () trivial
  | cons i rest ih =>
    unfold ClearPopups.elements
    exact traced_bind b (traced_dismiss b selector i) (fun _ _ => ih)

theorem traced_sweep (b : Bot) (hpage : b.page = true) (selectors : List String) :
    Traced b (fun _ => True) (ClearPopups.sweep b selectors) := by
  induction selectors with
  | nil => exact traced_pure b () trivial
  | cons s rest ih =>
    unfold ClearPopups.sweep
    refine traced_bind b (traced_pageCall b hpage _ rfl) ?_
    intro r _
    split
    · exact ih
    · exact traced_bind b (traced_elements b s _) (fun _ _ => ih)

theorem traced_ClearPopups (b : Bot) (hpage : b.page = true) :
    Traced b (fun _ => True) (ClearPopups b) := by
  unfold ClearPopups
  refine traced_bind b (traced_sweep b hpage popupSelectors) ?_
  intro _ _
  refine traced_bind b (traced_call b _ rfl) ?_
  intro _ _
  exact traced_pure b () trivial

theorem traced_outcome (b : Bot) (hpage : b.page = true) :
    Traced b (fun _ => True) (GoogleLogin.outcome b) := by
  unfold GoogleLogin.outcome
  refine traced_bind b (traced_pageCall b hpage _ rfl) ?_
  intro r1 _
  split
  · exact traced_pure b _ trivial
  · refine traced_bind b (traced_pageCall b hpage _ rfl) ?_
    intro r2 _
    split
    · exact traced_pure b _ trivial
    · refine traced_bind b (traced_anyVisible b hpage 5000 successSelectors) ?_
      intro found _
      split
      · exact traced_pure b _ trivial
      · refine traced_bind b (traced_pageCall b hpage _ rfl) ?_
        intro u _
        dsimp only
        split
        · exact traced_pure b _ trivial
        · refine traced_bind b (traced_pageCall b hpage _ rfl) ?_
          intro e _
          split
          · refine traced_bind b (traced_call b _ rfl) ?_
            intro txt _
            exact traced_pure b _ trivial
          · exact traced_pure b _ trivial

theorem traced_submit (b : Bot) (hpage : b.page = true) :
    Traced b (fun _ => True) (GoogleLogin.submit b) := by
  unfold GoogleLogin.submit
  refine traced_bind b (traced_firstVisible b hpage 2000 nextButtonSelectors) ?_
  intro nextButton _
  split
  · refine traced_bind b (traced_clickWithLogging b hpage nextButton _ _) ?_
    intro e _
    split
    · exact traced_pure b _ trivial
    · exact traced_outcome b hpage
  · refine traced_bind b (traced_pageCall b hpage _ rfl) ?_
    intro k _
    split
    · exact traced_pure b _ trivial
    · exact traced_outcome b hpage

theorem passwordLoop_run (b : Bot) (hpage : b.page = true) (w : World) (rest : List String) :
    ∀ t, ∃ res calls, GoogleLogin.passwordLoop b rest w t = (Outcome.ret res, t ++ calls) ∧
      (∀ a ∈ calls, (∃ s, a = Act.waitFor (Loc.css s) 800) ∨ (∃ s, a = Act.count (Loc.css s))) ∧
      ((rest = [] ∧ calls = [] ∧ res = "") ∨
        (∃ y ys, rest = y :: ys ∧ calls.head? = some (Act.waitFor (Loc.css y) 800))) ∧
      (∀ pre s post, calls = pre ++ Act.count (Loc.css s) :: post →
        if (w.resp (t ++ pre) (Act.count (Loc.css s))).n > 1 then
          ∃ before after, rest = before ++ s :: after ∧
            (post ++ [followUp []]).head? = some (followUp after) ∧ (post = [] → res = "")
        else post = [] ∧ res = s ∧ s ∈ rest) ∧
      (res ≠ "" → ∃ pre2,
        calls = pre2 ++ [Act.waitFor (Loc.css res) 800, Act.count (Loc.css res)] ∧
        (w.resp (t ++ pre2) (Act.waitFor (Loc.css res) 800)).err = none ∧
        (w.resp (t ++ pre2 ++ [Act.waitFor (Loc.css res) 800])
          (Act.count (Loc.css res))).n ≤ 1) := by
  induction rest with
  | nil =>
    intro t
    refine ⟨"", [], by simp [GoogleLogin.passwordLoop], by simp, Or.inl ⟨rfl, rfl, rfl⟩, ?_, ?_⟩
    · intro pre s post h
      simp at h
    · intro h
      exact absurd rfl h
  | cons y ys ih =>
    intro t
    rcases Option.eq_none_or_eq_some (w.resp t (Act.waitFor (Loc.css y) 800)).err
      with he | ⟨e, he⟩
    · by_cases h2 : (w.resp (t ++ [Act.waitFor (Loc.css y) 800]) (Act.count (Loc.css y))).n > 1
      · have h1 : ¬ ((w.resp (t ++ [Act.waitFor (Loc.css y) 800])
            (Act.count (Loc.css y))).err = none ∧
            (w.resp (t ++ [Act.waitFor (Loc.css y) 800]) (Act.count (Loc.css y))).n = 1) := by
          intro h
          rw [h.2] at h2
          exact absurd h2 (by decide)
        obtain ⟨res, calls, hrun, hk, hhead, hv, hacc⟩ :=
          ih (t ++ [Act.waitFor (Loc.css y) 800] ++ [Act.count (Loc.css y)])
        have hist : ∀ x : List Act, t ++ Act.waitFor (Loc.css y) 800 :: Act.count (Loc.css y) :: x
            = t ++ [Act.waitFor (Loc.css y) 800] ++ [Act.count (Loc.css y)] ++ x := by
          intro x
          simp
        refine ⟨res, Act.waitFor (Loc.css y) 800 :: Act.count (Loc.css y) :: calls,
          ?_, ?_, ?_, ?_, ?_⟩
        · unfold GoogleLogin.passwordLoop
          simp only [run_bind]
          rw [bind_ret _ _ _ _ _ _ (run_pageCall b _ w t hpage)]
          simp only [he]
          simp only [run_bind]
          rw [bind_ret _ _ _ _ _ _ (run_pageCall b _ w _ hpage)]
          rw [if_neg h1, if_pos h2, hrun, hist]
        · intro a ha
          rcases List.mem_cons.mp ha with h | h
          · exact Or.inl ⟨y, h⟩
          · rcases List.mem_cons.mp h with h | h
            · exact Or.inr ⟨y, h⟩
            · exact hk a h
        · exact Or.inr ⟨y, ys, rfl, rfl⟩
        · intro pre s post h
          rcases split_cons _ _ _ _ _ h with ⟨_, ha, _⟩ | ⟨pre1, hp, h3⟩
          · simp at ha
          · rcases split_cons _ _ _ _ _ h3 with ⟨hp1, ha, hpost⟩ | ⟨pre3, hp3, h4⟩
            · simp only [Act.count.injEq, Loc.css.injEq] at ha
              subst ha
              subst hp1
              subst hpost
              rw [hp, if_pos h2]
              refine ⟨[], ys, rfl, ?_, ?_⟩
              · rcases hhead with ⟨hys, hcalls, _⟩ | ⟨z, zs, hys, hcalls⟩
                · rw [hys, hcalls]
                  rfl
                · rw [hys]
                  exact head_append_some _ _ _ hcalls
              · intro hnil
                rcases hhead with ⟨_, _, hres⟩ | ⟨z, zs, _, hcalls⟩
                · exact hres
                · rw [hnil] at hcalls
                  simp at hcalls
            · have hv2 := hv pre3 s post h4
              rw [hp, hp3, hist]
              split
              · rename_i hn
                rw [if_pos hn] at hv2
                obtain ⟨before, after, hr, hh, hp2⟩ := hv2
                exact ⟨y :: before, after, by rw [hr]; rfl, hh, hp2⟩
              · rename_i hn
                rw [if_neg hn] at hv2
                exact ⟨hv2.1, hv2.2.1, List.mem_cons_of_mem _ hv2.2.2⟩
        · intro hne
          obtain ⟨pre2, hc, hw, hn⟩ := hacc hne
          refine ⟨Act.waitFor (Loc.css y) 800 :: Act.count (Loc.css y) :: pre2,
            by rw [hc]; rfl, ?_, ?_⟩
          · rw [hist]
            exact hw
          · rw [hist]
            exact hn
      · refine ⟨y, [Act.waitFor (Loc.css y) 800, Act.count (Loc.css y)], ?_, ?_, ?_, ?_, ?_⟩
        · unfold GoogleLogin.passwordLoop
          simp only [run_bind]
          rw [bind_ret _ _ _ _ _ _ (run_pageCall b _ w t hpage)]
          simp only [he]
          simp only [run_bind]
          rw [bind_ret _ _ _ _ _ _ (run_pageCall b _ w _ hpage)]
          by_cases h1 : (w.resp (t ++ [Act.waitFor (Loc.css y) 800])
              (Act.count (Loc.css y))).err = none ∧
              (w.resp (t ++ [Act.waitFor (Loc.css y) 800]) (Act.count (Loc.css y))).n = 1
          · rw [if_pos h1]
            simp
          · rw [if_neg h1, if_neg h2]
            simp
        · intro a ha
          rcases List.mem_cons.mp ha with h | h
          · exact Or.inl ⟨y, h⟩
          · rcases List.mem_cons.mp h with h | h
            · exact Or.inr ⟨y, h⟩
            · simp at h
        · exact Or.inr ⟨y, ys, rfl, rfl⟩
        · intro pre s post h
          rcases split_pair _ _ _ _ _ h with ⟨_, ha, _⟩ | ⟨hp, ha, hpost⟩
          · simp at ha
          · simp only [Act.count.injEq, Loc.css.injEq] at ha
            subst ha
            rw [hp, if_neg h2]
            exact ⟨hpost, rfl, List.mem_cons_self _ _⟩
        · intro _
          exact ⟨[], rfl, by simpa using he, by simpa using not_lt.mp h2⟩
    · obtain ⟨res, calls, hrun, hk, hhead, hv, hacc⟩ := ih (t ++ [Act.waitFor (Loc.css y) 800])
      have hist : ∀ x : List Act, t ++ Act.waitFor (Loc.css y) 800 :: x
          = t ++ [Act.waitFor (Loc.css y) 800] ++ x := by
        intro x
        simp
      refine ⟨res, Act.waitFor (Loc.css y) 800 :: calls, ?_, ?_, ?_, ?_, ?_⟩
      · unfold GoogleLogin.passwordLoop
        simp only [run_bind]
        rw [bind_ret _ _ _ _ _ _ (run_pageCall b _ w t hpage)]
        simp only [he]
        rw [hrun]
        simp
      · intro a ha
        rcases List.mem_cons.mp ha with h | h
        · exact Or.inl ⟨y, h⟩
        · exact hk a h
      · exact Or.inr ⟨y, ys, rfl, rfl⟩
      · intro pre s post h
        rcases split_cons _ _ _ _ _ h with ⟨_, ha, _⟩ | ⟨pre1, hp, h3⟩
        · simp at ha
        · have hv2 := hv pre1 s post h3
          rw [hp, hist]
          split
          · rename_i hn
            rw [if_pos hn] at hv2
            obtain ⟨before, after, hr, hh, hp2⟩ := hv2
            exact ⟨y :: before, after, by rw [hr]; rfl, hh, hp2⟩
          · rename_i hn
            rw [if_neg hn] at hv2
            exact ⟨hv2.1, hv2.2.1, List.mem_cons_of_mem _ hv2.2.2⟩
      · intro hne
        obtain ⟨pre2, hc, hw, hn⟩ := hacc hne
        refine ⟨Act.waitFor (Loc.css y) 800 :: pre2, by rw [hc]; rfl, ?_, ?_⟩
        · rw [hist]
          exact hw
        · rw [hist]
          exact hn

theorem traced_passwordStep (b : Bot) (hpage : b.page = true) :
    Traced b (fun _ => True) (GoogleLogin.passwordStep b) := by
  intro w t
  obtain ⟨res, calls, hrun, hk, _, hv, hacc⟩ :=
    passwordLoop_run b hpage w passwordSelectors t
  have hempty : ("" : String) ∉ passwordSelectors := by decide
  have key : ∀ (next : Act) (m : M (Option String)), Orderly b w t (calls ++ [next]) →
      Traced b (fun _ => True) m →
      ∃ x c, m w (t ++ calls ++ [next]) = (Outcome.ret x, t ++ c) ∧ True ∧
        Orderly b w t c := by
    intro next m hblock hm
    obtain ⟨x, c3, hr3, _, ho3⟩ := hm w (t ++ calls ++ [next])
    refine ⟨x, calls ++ [next] ++ c3, ?_, trivial, orderly_append b w t _ _ hblock ?_⟩
    · rw [hr3]
      simp
    · rw [← List.append_assoc]
      exact ho3
  have hquiet : ∀ next : Act, (∀ s timeout, next ≠ Act.click (Loc.css s) timeout) →
      clicksLogged (calls ++ [next]) := by
    intro next hnext pre s timeout post h
    have hmem : Act.click (Loc.css s) timeout ∈ calls ++ [next] := by
      rw [h]
      simp
    rcases List.mem_append.mp hmem with h1 | h1
    · rcases hk _ h1 with ⟨x, h2⟩ | ⟨x, h2⟩
      · simp at h2
      · simp at h2
    · simp only [List.mem_singleton] at h1
      exact absurd h1.symm (hnext s timeout)
  unfold GoogleLogin.passwordStep
  simp only [run_bind]
  rw [bind_ret _ _ _ _ _ _ hrun]
  split
  · rename_i hres
    simp only [run_bind]
    rw [bind_ret _ _ _ _ _ _ (run_pageCall b _ w _ hpage)]
    refine key _ _ ⟨hquiet _ (by simp), ?_, ?_⟩ ?_
    · intro pre s text delay post h _
      have hmem : Act.pressSequentially (Loc.css s) text delay ∈
          calls ++ [Act.waitFor (Loc.label "Enter your password") 1000] := by
        rw [h]
        simp
      rcases List.mem_append.mp hmem with h1 | h1
      · rcases hk _ h1 with ⟨x, h2⟩ | ⟨x, h2⟩
        · simp at h2
        · simp at h2
      · simp at h1
    · intro pre s post h
      rcases split_append calls _ pre post _ h with ⟨post1, h1, h2⟩ | ⟨pre1, _, h2⟩
      · have hv1 := hv pre s post1 h1
        split
        · rename_i hn
          rw [if_pos hn] at hv1
          obtain ⟨before, after, hsel, hh, _⟩ := hv1
          exact ⟨before, after, hsel, by rw [h2]; exact hh⟩
        · rename_i hn
          rw [if_neg hn] at hv1
          obtain ⟨_, hrs, hmem⟩ := hv1
          rw [← hrs, hres] at hmem
          exact absurd hmem hempty
      · have ha := (split_single _ _ _ _ h2).2.1
        simp at ha
    · split
      · refine traced_bind b (traced_call b _ rfl) ?_
        intro p _
        split
        · exact traced_pure b _ trivial
        · exact traced_submit b hpage
      · exact traced_pure b _ trivial
  · rename_i hres
    simp only [run_bind]
    rw [bind_ret _ _ _ _ _ _ (run_pageCall b _ w _ hpage)]
    refine key _ _ ⟨hquiet _ (by simp), ?_, ?_⟩ ?_
    · intro pre s text delay post h _
      rcases split_append calls _ pre post _ h with ⟨post1, h1, _⟩ | ⟨pre1, hp, h2⟩
      · have hmem : Act.pressSequentially (Loc.css s) text delay ∈ calls := by
          rw [h1]
          simp
        rcases hk _ hmem with ⟨x, h3⟩ | ⟨x, h3⟩
        · simp at h3
        · simp at h3
      · obtain ⟨hp1, ha, _⟩ := split_single _ _ _ _ h2
        simp only [Act.pressSequentially.injEq, Loc.css.injEq] at ha
        obtain ⟨pre2, hc, hw, hn⟩ := hacc hres
        rw [ha.1]
        refine ⟨pre2, ?_, hw, hn⟩
        rw [hp, hp1, List.append_nil, hc]
    · intro pre s post h
      rcases split_append calls _ pre post _ h with ⟨post1, h1, h2⟩ | ⟨pre1, _, h2⟩
      · have hv1 := hv pre s post1 h1
        split
        · rename_i hn
          rw [if_pos hn] at hv1
          obtain ⟨before, after, hsel, hh, hnil⟩ := hv1
          refine ⟨before, after, hsel, ?_⟩
          cases post1 with
          | nil => exact absurd (hnil rfl) hres
          | cons z zs =>
            rw [h2]
            simpa using hh
        · rename_i hn
          rw [if_neg hn] at hv1
          obtain ⟨hp1, hrs, _⟩ := hv1
          rw [h2, hp1, ← hrs]
          rfl
      · have ha := (split_single _ _ _ _ h2).2.1
        simp at ha
    · split
      · exact traced_pure b _ trivial
      · exact traced_submit b hpage

theorem traced_GoogleLogin (b : Bot) (hpage : b.page = true) :
    Traced b (fun _ => True) (GoogleLogin b) := by
  have hemail : ∀ s ∈ emailSelectors, s ∉ passwordSelectors := by decide
  unfold GoogleLogin
  split
  · exact traced_pure b _ trivial
  · refine traced_bind b (traced_pageCall b hpage _ rfl) ?_
    intro g _
    split
    · exact traced_pure b _ trivial
    · refine traced_bind b (traced_firstVisible b hpage 1000 emailSelectors) ?_
      intro emailInput hq
      split
      · exact traced_pure b _ trivial
      · rename_i hne
        have hin : emailInput ∈ emailSelectors := by
          rcases hq with h | h
          · exact absurd h hne
          · exact h
        refine traced_bind b (traced_pageCall b hpage _ ?_) ?_
        · simp [isLoose, hemail emailInput hin]
        · intro p _
          split
          · exact traced_pure b _ trivial
          · refine traced_bind b (traced_firstVisible b hpage 1000 emailNextSelectors) ?_
            intro emailNextButton _
            split
            · exact traced_pure b _ trivial
            · refine traced_bind b (traced_clickWithLogging b hpage emailNextButton _ _) ?_
              intro e _
              split
              · exact traced_pure b _ trivial
              · refine traced_bind b (traced_pageCall b hpage _ rfl) ?_
                intro _ _
                exact traced_passwordStep b hpage

theorem traced_navigate (b : Bot) (hpage : b.page = true) (meetingURL : String) :
    Traced b (fun _ => True) (JoinGoogleMeet.navigate b meetingURL) := by
  unfold JoinGoogleMeet.navigate
  refine traced_bind b (traced_pageCall b hpage _ rfl) ?_
  intro g _
  split
  · exact traced_pure b _ trivial
  · refine traced_bind b (traced_pageCall b hpage _ rfl) ?_
    intro l _
    split
    · exact traced_pure b _ trivial
    · refine traced_bind b (traced_pageCall b hpage _ rfl) ?_
      intro u _
      dsimp only
      split
      · refine traced_bind b (traced_GoogleLogin b hpage) ?_
        intro e _
        split
        · exact traced_pure b _ trivial
        · refine traced_bind b (traced_pageCall b hpage _ rfl) ?_
          intro g2 _
          split
          · exact traced_pure b _ trivial
          · exact traced_pure b _ trivial
      · exact traced_pure b _ trivial

theorem traced_camera (b : Bot) (hpage : b.page = true) :
    Traced b (fun _ => True) (JoinGoogleMeet.camera b) := by
  unfold JoinGoogleMeet.camera
  refine traced_bind b (traced_findElementFast b hpage 1000 cameraSelectors) ?_
  intro r _
  split
  · refine traced_bind b (traced_clickWithLogging b hpage r.1 _ _) ?_
    intro _ _
    exact traced_pure b _ trivial
  · exact traced_pure b _ trivial

theorem traced_microphone (b : Bot) (hpage : b.page = true) :
    Traced b (fun _ => True) (JoinGoogleMeet.microphone b) := by
  unfold JoinGoogleMeet.microphone
  refine traced_bind b (traced_findElementFast b hpage 1000 micSelectors) ?_
  intro r _
  split
  · refine traced_bind b (traced_clickWithLogging b hpage r.1 _ _) ?_
    intro _ _
    exact traced_pure b _ trivial
  · exact traced_pure b _ trivial

theorem traced_scan (b : Bot) (hpage : b.page = true) (retry : Nat) (selectors : List String) :
    Traced b (fun _ => True) (JoinGoogleMeet.scan b retry selectors) := by
  induction selectors with
  | nil => exact traced_pure b _ trivial
  | cons s rest ih =>
    unfold JoinGoogleMeet.scan
    refine traced_bind b (traced_pageCall b hpage _ rfl) ?_
    intro r _
    split
    · exact ih
    · refine traced_bind b (traced_clickWithLogging b hpage s _ _) ?_
      intro e _
      split
      · split
        · exact ih
        · exact traced_pure b _ trivial
      · exact traced_pure b _ trivial

theorem traced_joinLoop (b : Bot) (hpage : b.page = true) (k retry : Nat) :
    Traced b (fun _ => True) (JoinGoogleMeet.joinLoop b k retry) := by
  induction k generalizing retry with
  | zero => exact traced_pure b _ trivial
  | succ k ih =>
    unfold JoinGoogleMeet.joinLoop
    refine traced_bind b (Q := fun _ => True) ?_ ?_
    · split
      · exact traced_ClearPopups b hpage
      · exact traced_pure b _ trivial
    · intro _ _
      refine traced_bind b (traced_scan b hpage retry joinSelectors) ?_
      intro s _
      split
      · exact traced_pure b _ trivial
      · exact ih (retry + 1)
      · exact traced_pure b _ trivial

theorem traced_join (b : Bot) (hpage : b.page = true) :
    Traced b (fun _ => True) (JoinGoogleMeet.join b) := by
  unfold JoinGoogleMeet.join
  refine traced_bind b (traced_joinLoop b hpage joinMaxRetries 0) ?_
  intro j _
  split
  · exact traced_pure b _ trivial
  · refine traced_bind b (traced_anyVisible b hpage 3000 meetingSelectors) ?_
    intro _ _
    exact traced_pure b _ trivial

theorem traced_JoinGoogleMeet (b : Bot) (hpage : b.page = true) (meetingURL : String) :
    Traced b (fun _ => True) (JoinGoogleMeet b meetingURL) := by
  unfold JoinGoogleMeet
  split
  · exact traced_pure b _ trivial
  · refine traced_bind b (traced_navigate b hpage meetingURL) ?_
    intro n _
    split
    · exact traced_pure b _ trivial
    · refine traced_bind b (traced_ClearPopups b hpage) ?_
      intro _ _
      refine traced_bind b (traced_camera b hpage) ?_
      intro _ _
      refine traced_bind b (traced_microphone b hpage) ?_
      intro _ _
      refine traced_bind b (traced_ClearPopups b hpage) ?_
      intro _ _
      exact traced_join b hpage

theorem traced_enableLoop (b : Bot) (hpage : b.page = true) (selectors : List String) :
    Traced b (fun _ => True) (EnableMicrophone.loop b selectors) := by
  induction selectors with
  | nil => exact traced_pure b _ trivial
  | cons s rest ih =>
    unfold EnableMicrophone.loop
    refine traced_bind b (traced_pageCall b hpage _ rfl) ?_
    intro r _
    split
    · exact traced_clickWithLogging b hpage s _ _
    · exact ih

theorem traced_EnableMicrophone (b : Bot) (hpage : b.page = true) :
    Traced b (fun _ => True) (EnableMicrophone b) := by
  unfold EnableMicrophone
  split
  · exact traced_pure b _ trivial
  · exact traced_enableLoop b hpage enableMicSelectors

/-- C11, counterexample: `GoogleLogin` types the password into the first password candidate
although its uniqueness check did not report exactly one element: in `allOkWorld` the
count reports zero elements, and in `countFailsWorld` the count fails.  In both runs the
typing directly follows the count, so the candidate is not rejected. -/
theorem GoogleLogin_types_without_one_match :
    firstPasswordSelector ∈ passwordSelectors ∧
      GoogleLogin readyBot allOkWorld [] = (Outcome.ret none, loginCalls) ∧
      GoogleLogin readyBot countFailsWorld [] = (Outcome.ret none, loginCalls) ∧
      loginCalls = loginCalls.take 8 ++
        [Act.count (Loc.css firstPasswordSelector),
          Act.pressSequentially (Loc.css firstPasswordSelector) readyBot.password 50] ++
        loginCalls.drop 10 ∧
      allOkWorld.resp (loginCalls.take 8) (Act.count (Loc.css firstPasswordSelector)) =
        Resp.success ∧ Resp.success.n = 0 ∧
      countFailsWorld.resp (loginCalls.take 8) (Act.count (Loc.css firstPasswordSelector)) =
        Resp.failure "timeout" := by
  refine ⟨by decide, rfl, rfl, rfl, rfl, rfl, rfl⟩

/-- C11, amended: in every run of `GoogleLogin` on a Bot with a page, a typing into one of
the password candidate selectors directly follows the visibility wait and the count of
that selector, of which the wait succeeded and the count reported at most one element;
a counted candidate is directly followed by the probe of the next candidate (after the
last one, of the label-based fallback) when its count is more than one, and by the typing
of the password into it otherwise. -/
theorem GoogleLogin_password_checked (w : World) (b : Bot) (t : List Act)
    (hpage : b.page = true) :
    ∃ x calls, GoogleLogin b w t = (Outcome.ret x, t ++ calls) ∧
      passwordChecked w t calls ∧ countVerdict b w t calls := by
  obtain ⟨x, calls, hrun, _, ho⟩ := traced_GoogleLogin b hpage w t
  exact ⟨x, calls, hrun, ho.2.1, ho.2.2⟩

theorem GoogleLogin_password_checked_witness :
    readyBot.page = true ∧
      ∃ x calls, GoogleLogin readyBot allOkWorld [] = (Outcome.ret x, [] ++ calls) ∧
        passwordChecked allOkWorld [] calls ∧ countVerdict readyBot allOkWorld [] calls :=
  ⟨rfl, GoogleLogin_password_checked allOkWorld readyBot [] rfl⟩

/-- C18, counterexample: typing and the clicks of the popup sweep do not go through the
logging wrapper.  In `allOkWorld` the third call of `GoogleLogin` types the email while no
audit record has been written yet, and in `popupWorld` the sweep clicks the popup while its
whole run writes no audit record. -/
theorem interactions_without_record :
    GoogleLogin readyBot allOkWorld [] = (Outcome.ret none, loginCalls) ∧
      loginCalls.take 3 =
        [Act.goto
          "https://accounts.google.com/signin/v2/identifier?flowName=GlifWebSignIn&flowEntry=ServiceLogin"
          "networkidle" none,
         Act.waitFor (Loc.css "input#identifierId") 1000,
         Act.pressSequentially (Loc.css "input#identifierId") readyBot.email 50] ∧
      ClearPopups readyBot popupWorld [] = (Outcome.ret (), popupFirstSweep) ∧
      popupClick gotItPopup ∈ popupFirstSweep ∧
      popupFirstSweep.all (fun a => !isLogRecord a) = true := by
  refine ⟨rfl, rfl, rfl, by decide, by decide⟩

/-- C18, amended: in every run of `GoogleLogin`, `JoinGoogleMeet` and `EnableMicrophone` on
a Bot with a page, every `Click()` on a selector directly follows the audit record of
`logButtonClick` that carries that selector, with its action name and context label. -/
theorem selector_clicks_logged (w : World) (b : Bot) (t : List Act) (meetingURL : String)
    (hpage : b.page = true) :
    (∃ x calls, GoogleLogin b w t = (Outcome.ret x, t ++ calls) ∧ clicksLogged calls) ∧
      (∃ x calls, JoinGoogleMeet b meetingURL w t = (Outcome.ret x, t ++ calls) ∧
        clicksLogged calls) ∧
      (∃ x calls, EnableMicrophone b w t = (Outcome.ret x, t ++ calls) ∧
        clicksLogged calls) := by
  obtain ⟨x1, c1, hrun1, _, ho1⟩ := traced_GoogleLogin b hpage w t
  obtain ⟨x2, c2, hrun2, _, ho2⟩ := traced_JoinGoogleMeet b hpage meetingURL w t
  obtain ⟨x3, c3, hrun3, _, ho3⟩ := traced_EnableMicrophone b hpage w t
  exact ⟨⟨x1, c1, hrun1, ho1.1⟩, ⟨x2, c2, hrun2, ho2.1⟩, ⟨x3, c3, hrun3, ho3.1⟩⟩

theorem selector_clicks_logged_witness :
    readyBot.page = true ∧
      ((∃ x calls, GoogleLogin readyBot allOkWorld [] = (Outcome.ret x, [] ++ calls) ∧
          clicksLogged calls) ∧
        (∃ x calls, JoinGoogleMeet readyBot "https://meet.google.com/abc" allOkWorld [] =
            (Outcome.ret x, [] ++ calls) ∧ clicksLogged calls) ∧
        (∃ x calls, EnableMicrophone readyBot allOkWorld [] = (Outcome.ret x, [] ++ calls) ∧
          clicksLogged calls)) :=
  ⟨rfl, selector_clicks_logged allOkWorld readyBot [] "https://meet.google.com/abc" rfl⟩

end Meetbot
